import Mathlib

/-! Banking backend: money movement, ledger and audit log.

A shallow embedding of the services (`internal/service`: account, card,
transaction, event and user), of the repositories they use
(`internal/repository`: account, transactions, event, card, user, role and
token), of the random generator (`pkg/lib/generator`) and of the ordering filter
of the transport layer (`internal/transport/rest/helpers.go`).

* The SQL tables are lists of rows; every repository method is a function from
  the store to a result and a new store.
* Every storage statement may fail for reasons outside the program (lost
  connection, driver error).  Which statements fail, and the value of `NOW()`
  each statement sees, is fixed by an explicit environment `Env`.
* The store carries a log of the statements executed, each with its outcome, so
  that "is never invoked" and "before" can be stated.
* Balances and amounts are `float64` in the Go code and are computed by the
  database.  Here they range over an arbitrary linearly ordered commutative
  group `α` (exact arithmetic); rounding of floating point numbers is not
  modelled.  The sample data use `α = Int`.
* Identifiers are Go `int`s and are modelled as integers; timestamps are
  natural numbers.
* A run-time panic of the Go code is an error result with the text of the panic;
  it passes through the callers as it is, where a returned error is wrapped.
* The password hasher and the JWT library are functions of the environment.
-/

namespace Banking

/-! ## Environment -/

/-- Storage statements issued by the repository layer.  Each repository method
used by the services issues exactly one statement and the constructor carries
the name of the method (`AccountCreate`, `UserExists`, `UserCreate`,
`RoleGetByName` and `SessionCreate` are the methods `Create`, `Exists` and
`GetByName` of the account, user, role and token repositories), with two
exceptions: `repository.Account.TransferAccount` issues the five `Transfer*`
primitives of its storage transaction, and the method `Get` of the token
repository issues `SessionGet` and then `SessionDelete`. -/
inductive Stmt
  | GetAccountCurrencyIDByID
  | GetAccountCurrencyIDByIban
  | GetAccountAmount
  | GetAccountIDByIban
  | ExistsAccount
  | DepositAccount
  | TransferBegin
  | TransferDebit
  | TransferCredit
  | TransferRollback
  | TransferCommit
  | CreateTransaction
  | SetTransactionStatusToSent
  | CreateEvent
  | GetUserIDByAccountID
  | AccountCreate
  | GetAccount
  | GetTransactionList
  | GetUserNameAndSurnameByID
  | BlockUser
  | CreateCard
  | GetCard
  | DeleteAccount
  | BlockAccount
  | UnblockAccount
  | GetAccountsList
  | GetCardListUser
  | GetCardListByAccount
  | GetEventsList
  | CheckBlockUser
  | UserExists
  | UserCreate
  | GetByCredentials
  | GetByID
  | UnblockUser
  | RoleGetByName
  | SessionCreate
  | SessionGet
  | SessionDelete
deriving DecidableEq, Repr

/-- What `jwt.Parse` hands back when it returns no error, as far as `ParseToken`
looks at it: the field `Valid`, whether the claims are a `jwt.MapClaims`, and
the claim `sub` when it is a string. -/
structure jwt.Token where
  Valid : Bool
  MapClaims : Bool
  sub : Option String
deriving DecidableEq, Repr

/-- What the program cannot control: which statements the storage rejects, the
time `NOW()` or `time.Now()` each statement observes, the outcomes of the process
wide random source (the `k`-th draw of a call is `rand k`), and whether the
storage rejects a LIMIT or OFFSET beyond the range of its 64-bit signed
integers or takes it as it is.  Further: the largest capacity `maxCap` for
which `make` returns a slice on the machine at hand, the readings of
`time.Now()` by the service layer (the `k`-th reading of a call is `clock k`, in
seconds), and the libraries behind the user service. -/
structure Env where
  fails : Stmt → Bool
  now : Stmt → Nat
  rand : Nat → Nat := fun _ => 0
  rejectsBigint : Bool := true
  maxCap : Nat := 2 ^ 32
  clock : Nat → Nat := fun _ => 0
  /-- Modelled from the spec: the package `pkg/hash` behind the interface
  `PasswordHasher` is not part of the sources ("password hashing algorithm
  choice ... treated as opaque external services with a defined contract"). -/
  hash : String → Except String String := fun password => .ok password
  /-- The call `jwt.NewWithClaims(...).SignedString(hmacSecret)` for the given
  subject, issue time and expiry time. -/
  signedString : String → Nat → Nat → Except String String := fun subject _ _ => .ok subject
  /-- The call `jwt.Parse(token, keyFunc)`. -/
  jwtParse : String → Except String jwt.Token := fun _ => .error "token is malformed"
  /-- The 32 bytes read from `rand.New(rand.NewSource(seed))`, printed with `%x`. -/
  randomHex : Nat → String := fun _ => ""
  /-- Modelled from the spec: the schema of the table `event` is not part of the
  sources ("events(id, user_id, type, message, metadata json, time)"); this is the
  value a row gets in the column `message` when the INSERT statement gives none,
  `none` for NULL. -/
  messageDefault : Option String := none

deriving instance DecidableEq for Except

/-- The text of `sql.ErrNoRows`. -/
def ErrNoRows : String := "sql: no rows in result set"

/-- The text of an error raised by the storage driver for a rejected statement. -/
def driverErr : String := "driver: bad connection"

/-- The text of the run-time panic raised when `rows.Err()` is called on the nil
`*sqlx.Rows` that a failed query returns. -/
def nilRowsPanic : String :=
  "panic: runtime error: invalid memory address or nil pointer dereference"

/-- The text of the run-time panic raised by `make([]T, 0, n)` when `n` is negative
or beyond what the machine can hold. -/
def makeslicePanic : String := "panic: runtime error: makeslice: cap out of range"

namespace errors

/-- The function `errors.New`. -/
def New (message : String) : String := message

/-- The function `errors.Wrap` applied to a non-nil error: the message is put in
front of the text of the wrapped error. -/
def Wrap (err : String) (message : String) : String := message ++ ": " ++ err

/-- The function `errors.Wrap` on an error that may be nil: "If err is nil, Wrap
returns nil". -/
def WrapNilable (err : Option String) (message : String) : Option String :=
  err.map fun e => Wrap e message

end errors

/-- Whether an error result of the model stands for a run-time panic of the Go
code and not for a returned `error`. -/
def isPanic (err : String) : Bool := err == nilRowsPanic || err == makeslicePanic

/-- What a caller hands on when a call that may panic gives the error result
`err` and the caller goes on with `return ..., errors.Wrap(err, message)`: a
panic raised inside the call unwinds through the caller, which never reaches its
`return`, so the panic is handed on as it is; a returned error is wrapped. -/
def unwindOrWrap (err : String) (message : String) : String :=
  if isPanic err then err else errors.Wrap err message

/-! ## Data model -/

namespace domain

/-- The type `eventType`, an alias of `string`. -/
abbrev eventType := String

def AccountCreatedEvent : eventType := "ACCOUNT_CREATED"
def AccountDeletedEvent : eventType := "ACCOUNT_DELETED"
def AccountBlockedEvent : eventType := "ACCOUNT_BLOCKED"
def AccountUnblockedEvent : eventType := "ACCOUNT_UNBLOCKED"
def CardCreatedEvent : eventType := "CARD_CREATED"
def UserBlockedEvent : eventType := "USER_BLOCKED"
def UserUnblockedEvent : eventType := "USER_UNBLOCKED"
def WithdrawalEvent : eventType := "WITHDRAWAL"
def DepositEvent : eventType := "DEPOSIT"

/-- The method `eventType.String`. -/
def eventType.String (e : eventType) : String := e

/-- The function `NewEventTypeFromString`: the `switch` over the nine constants. -/
def NewEventTypeFromString (et : String) : Except String eventType :=
  if et = eventType.String AccountCreatedEvent then .ok AccountCreatedEvent
  else if et = eventType.String AccountDeletedEvent then .ok AccountDeletedEvent
  else if et = eventType.String AccountBlockedEvent then .ok AccountBlockedEvent
  else if et = eventType.String AccountUnblockedEvent then .ok AccountUnblockedEvent
  else if et = eventType.String CardCreatedEvent then .ok CardCreatedEvent
  else if et = eventType.String UserBlockedEvent then .ok UserBlockedEvent
  else if et = eventType.String UserUnblockedEvent then .ok UserUnblockedEvent
  else if et = eventType.String WithdrawalEvent then .ok WithdrawalEvent
  else if et = eventType.String DepositEvent then .ok DepositEvent
  else .error (errors.New "unsupported event type")

/-- A value stored in the metadata bag `map[string]any` of an event: the
services only store integers, amounts, strings and times. -/
inductive MetaValue (α : Type)
  | int (v : Int)
  | num (v : α)
  | str (v : String)
  | time (v : Nat)
deriving DecidableEq, Repr

/-- The struct `domain.Account`. -/
structure Account (α : Type) where
  ID : Int
  Iban : String
  UserID : Int
  CurrencyID : Int
  Blocked : Bool
  Amount : α
deriving DecidableEq, Repr

/-- The zero value `domain.Account{}`. -/
def Account.zero {α : Type} [Zero α] : Account α :=
  { ID := 0, Iban := "", UserID := 0, CurrencyID := 0, Blocked := false, Amount := 0 }

/-- The struct `domain.Transaction`; `Type_` is the field `Type`, and the zero
`time.Time` is `0`. -/
structure Transaction (α : Type) where
  ID : Int
  FromAccount : Int
  ToAccount : Int
  Amount : α
  Type_ : String
  Status : String
  DateCreated : Nat
  DateUpdated : Nat
deriving DecidableEq, Repr

/-- The struct `domain.Event`; `Type_` is the field `Type`, the nil metadata map
is the empty list. -/
structure Event (α : Type) where
  ID : Int := 0
  UserID : Int := 0
  Type_ : eventType
  Message : String := ""
  Metadata : List (String × MetaValue α) := []
  DateTime : Nat := 0
deriving DecidableEq, Repr

/-- The type `domain.Orderings`, a `map[string]string` from field to direction.
A value of this type lists the entries of the map in the order in which the
`range` loop of the call at hand visits them; Go fixes no such order, so two
calls on the same map may see two different permutations. -/
abbrev Orderings := List (String × String)

/-- Modelled from the spec: the declaration of `domain.Paginator` is not part of
the sources; its uses show the two `int` fields `Page` and `PerPage`
("pagination (page, per-page, 1-indexed)"). -/
structure Paginator where
  Page : Int
  PerPage : Int
deriving DecidableEq, Repr

/-- The struct `domain.Card`. -/
structure Card where
  Id : Int
  AccountID : Int
  CardNumber : String
  CardholderName : String
  ExpirationDate : Nat
  CvvCode : String
deriving DecidableEq, Repr

/-- The zero value `domain.Card{}`. -/
def Card.zero : Card :=
  { Id := 0, AccountID := 0, CardNumber := "", CardholderName := "", ExpirationDate := 0,
    CvvCode := "" }

/-- The struct `domain.User`. -/
structure User where
  ID : Int
  Name : String
  Surname : String
  Email : String
  Password : String
  RoleId : Int
  Blocked : Bool
  RegisteredAt : Nat
deriving DecidableEq, Repr

/-- The struct `domain.RefreshSession`. -/
structure RefreshSession where
  ID : Int
  UserID : Int
  Token : String
  ExpiresAt : Nat
deriving DecidableEq, Repr

/-- Modelled from the spec: the declaration of `domain.Role` is not part of the
sources; `models.Role.ToDomain` shows the two fields `ID` and `Name`. -/
structure Role where
  ID : Int
  Name : String
deriving DecidableEq, Repr

/-- The struct `domain.SignUpInput`. -/
structure SignUpInput where
  Name : String
  Surname : String
  Email : String
  Password : String
deriving DecidableEq, Repr

/-- The struct `domain.SignInInput`. -/
structure SignInInput where
  Email : String
  Password : String
deriving DecidableEq, Repr

end domain

namespace models

/-- A row of the table `accounts` (struct `models.Account`). -/
structure Account (α : Type) where
  ID : Int
  Iban : String
  UserID : Int
  CurrencyID : Int
  Blocked : Bool
  Amount : α
deriving DecidableEq, Repr

/-- The method `models.Account.ToDomain`. -/
def Account.ToDomain {α : Type} (a : Account α) : domain.Account α :=
  { ID := a.ID, Iban := a.Iban, UserID := a.UserID, CurrencyID := a.CurrencyID,
    Blocked := a.Blocked, Amount := a.Amount }

/-- A row of the table `transactions` (struct `models.Transaction`):
`FromAccount` is an `sql.NullInt64` and `DateUpdated` an `sql.NullTime`. -/
structure Transaction (α : Type) where
  ID : Int
  FromAccount : Option Int
  ToAccount : Int
  Amount : α
  Status : String
  DateCreated : Nat
  DateUpdated : Option Nat
deriving DecidableEq, Repr

/-- The method `models.Transaction.ToDomain`: a NULL source becomes `0`, a NULL
update time the zero time; `Type` is left empty. -/
def Transaction.ToDomain {α : Type} (t : Transaction α) : domain.Transaction α :=
  let fromAccountID : Int :=
    match t.FromAccount with
    | some v => v
    | none => 0
  let dateUpdated : Nat :=
    match t.DateUpdated with
    | some v => v
    | none => 0
  { ID := t.ID, FromAccount := fromAccountID, ToAccount := t.ToAccount, Amount := t.Amount,
    Type_ := "", Status := t.Status, DateCreated := t.DateCreated, DateUpdated := dateUpdated }

/-- A row of the table `event`.  The columns are those of the struct
`models.Event`; `Message` is optional because the INSERT statement of
`CreateEvent` gives the column no value. -/
structure Event (α : Type) where
  ID : Int
  UserID : Int
  Type_ : String
  Message : Option String
  Metadata : List (String × domain.MetaValue α)
  DateTime : Nat
deriving DecidableEq, Repr

/-- A row of the table `cards` (struct `models.Card`). -/
structure Card where
  Id : Int
  AccountID : Int
  CardNumber : String
  CardholderName : String
  ExpirationDate : Nat
  CvvCode : String
deriving DecidableEq, Repr

/-- The method `models.Card.ToDomain`. -/
def Card.ToDomain (c : Card) : domain.Card :=
  { Id := c.Id, AccountID := c.AccountID, CardNumber := c.CardNumber,
    CardholderName := c.CardholderName, ExpirationDate := c.ExpirationDate,
    CvvCode := c.CvvCode }

/-- A row of the table `users` (struct `models.User`). -/
structure User where
  ID : Int
  Name : String
  Surname : String
  Email : String
  Password : String
  RoleId : Int
  Blocked : Bool
  RegisteredAt : Nat
deriving DecidableEq, Repr

/-- The method `models.User.ToDomain`. -/
def User.ToDomain (u : User) : domain.User :=
  { ID := u.ID, Name := u.Name, Surname := u.Surname, Email := u.Email, Password := u.Password,
    RoleId := u.RoleId, Blocked := u.Blocked, RegisteredAt := u.RegisteredAt }

/-- The struct `models.NameSurname`. -/
structure NameSurname where
  Name : String := ""
  Surname : String := ""
deriving DecidableEq, Repr

/-- A row of the table `refresh_tokens` (struct `models.RefreshSession`). -/
structure RefreshSession where
  ID : Int
  UserID : Int
  Token : String
  ExpiresAt : Nat
deriving DecidableEq, Repr

/-- The method `models.RefreshSession.ToDomain`. -/
def RefreshSession.ToDomain (s : RefreshSession) : domain.RefreshSession :=
  { ID := s.ID, UserID := s.UserID, Token := s.Token, ExpiresAt := s.ExpiresAt }

/-- A row of the table `roles` (struct `models.Role`). -/
structure Role where
  Id : Int
  Name : String
deriving DecidableEq, Repr

/-- The method `models.Role.ToDomain`. -/
def Role.ToDomain (r : Role) : domain.Role := { ID := r.Id, Name := r.Name }

end models

/-- The storage: the tables `accounts`, `transactions`, `event`, `users`,
`cards`, `refresh_tokens` and `roles`, the counters of the identifier sequences
of the tables, and the log of the statements executed so far, each with whether
it returned without error. -/
structure World (α : Type) where
  accounts : List (models.Account α) := []
  transactions : List (models.Transaction α) := []
  events : List (models.Event α) := []
  transactionsSeq : Int := 0
  eventSeq : Int := 0
  trace : List (Stmt × Bool) := []
  users : List models.User := []
  cards : List models.Card := []
  accountsSeq : Int := 0
  cardsSeq : Int := 0
  sessions : List models.RefreshSession := []
  roles : List models.Role := []
  usersSeq : Int := 0
  sessionsSeq : Int := 0
deriving DecidableEq, Repr

/-- Appends one entry to the statement log. -/
def World.log {α : Type} (w : World α) (s : Stmt) (ok : Bool) : World α :=
  { w with trace := w.trace ++ [(s, ok)] }

/-- Modelled from the spec: the schema of the tables is not part of the sources.
Following "accounts(id, iban unique, ...)" and identifiers assigned by the
store, account ids are pairwise distinct, IBANs are pairwise distinct, and no
transaction row has an id beyond the last value handed out by the sequence. -/
def World.WF {α : Type} (w : World α) : Prop :=
  (w.accounts.map fun a => a.ID).Nodup ∧
  (w.accounts.map fun a => a.Iban).Nodup ∧
  ∀ t ∈ w.transactions, t.ID ≤ w.transactionsSeq

instance {α : Type} (w : World α) : Decidable w.WF := by
  unfold World.WF
  infer_instance

/-- The balance of the account with the given id, if there is one. -/
def balanceOf {α : Type} (accounts : List (models.Account α)) (accountID : Int) : Option α :=
  (accounts.find? fun a => a.ID == accountID).map fun a => a.Amount

section Model

variable {α : Type} [LinearOrderedAddCommGroup α]

/-! ## Repository layer -/

namespace repository

def transactionPreparedStatus : String := "PREPARED"
def transactionSentStatus : String := "SENT"

namespace Account

/-- The method `GetAccountIDByIban`:
`SELECT id FROM accounts WHERE iban = $1`, scanned into one value. -/
def GetAccountIDByIban (env : Env) (w : World α) (iban : String) : Except String Int × World α :=
  if env.fails .GetAccountIDByIban then
    (.error (errors.Wrap driverErr "scanning accountID error"), w.log .GetAccountIDByIban false)
  else
    match w.accounts.find? fun a => a.Iban == iban with
    | none => (.error (errors.Wrap ErrNoRows "scanning accountID error"), w.log .GetAccountIDByIban false)
    | some a => (.ok a.ID, w.log .GetAccountIDByIban true)

/-- The method `GetAccountCurrencyIDByID`:
`SELECT currency_id FROM accounts WHERE id = $1`, scanned into one value. -/
def GetAccountCurrencyIDByID (env : Env) (w : World α) (accountID : Int) :
    Except String Int × World α :=
  if env.fails .GetAccountCurrencyIDByID then
    (.error (errors.Wrap driverErr "scanning currencyID error"),
      w.log .GetAccountCurrencyIDByID false)
  else
    match w.accounts.find? fun a => a.ID == accountID with
    | none =>
      (.error (errors.Wrap ErrNoRows "scanning currencyID error"),
        w.log .GetAccountCurrencyIDByID false)
    | some a => (.ok a.CurrencyID, w.log .GetAccountCurrencyIDByID true)

/-- The method `GetAccountCurrencyIDByIban`:
`SELECT currency_id FROM accounts WHERE iban = $1`, scanned into one value. -/
def GetAccountCurrencyIDByIban (env : Env) (w : World α) (iban : String) :
    Except String Int × World α :=
  if env.fails .GetAccountCurrencyIDByIban then
    (.error (errors.Wrap driverErr "scanning currencyID error"),
      w.log .GetAccountCurrencyIDByIban false)
  else
    match w.accounts.find? fun a => a.Iban == iban with
    | none =>
      (.error (errors.Wrap ErrNoRows "scanning currencyID error"),
        w.log .GetAccountCurrencyIDByIban false)
    | some a => (.ok a.CurrencyID, w.log .GetAccountCurrencyIDByIban true)

/-- The method `GetAccountAmount`:
`SELECT amount FROM accounts WHERE id=$1 AND user_id=$2`, scanned into one value. -/
def GetAccountAmount (env : Env) (w : World α) (accountID userID : Int) :
    Except String α × World α :=
  if env.fails .GetAccountAmount then
    (.error (errors.Wrap driverErr "scanning amount error"), w.log .GetAccountAmount false)
  else
    match w.accounts.find? fun a => a.ID == accountID && a.UserID == userID with
    | none => (.error (errors.Wrap ErrNoRows "scanning amount error"), w.log .GetAccountAmount false)
    | some a => (.ok a.Amount, w.log .GetAccountAmount true)

/-- The method `ExistsAccount`:
`select exists(select amount from accounts where id = $1)`. -/
def ExistsAccount (env : Env) (w : World α) (accountID : Int) : Except String Bool × World α :=
  if env.fails .ExistsAccount then
    (.error (errors.Wrap driverErr "scanning exists error"), w.log .ExistsAccount false)
  else
    (.ok (w.accounts.any fun a => a.ID == accountID), w.log .ExistsAccount true)

/-- The statement `UPDATE accounts SET amount = amount + $1 WHERE id = $2`. -/
def creditByID (accounts : List (models.Account α)) (amount : α) (accountID : Int) :
    List (models.Account α) :=
  accounts.map fun a => if a.ID == accountID then { a with Amount := a.Amount + amount } else a

/-- The statement
`UPDATE accounts SET amount = amount - $1 WHERE id = $2 AND user_id = $3`. -/
def debitByIDAndUser (accounts : List (models.Account α)) (amount : α) (accountID userID : Int) :
    List (models.Account α) :=
  accounts.map fun a =>
    if a.ID == accountID && a.UserID == userID then { a with Amount := a.Amount - amount } else a

/-- The statement `UPDATE accounts SET amount = amount + $1 WHERE iban = $2`. -/
def creditByIban (accounts : List (models.Account α)) (amount : α) (iban : String) :
    List (models.Account α) :=
  accounts.map fun a => if a.Iban == iban then { a with Amount := a.Amount + amount } else a

/-- The method `DepositAccount`: one UPDATE outside any storage transaction. -/
def DepositAccount (env : Env) (w : World α) (accountID : Int) (amount : α) :
    Except String Unit × World α :=
  if env.fails .DepositAccount then
    (.error (errors.Wrap driverErr "execution updating account by accountID query error"),
      w.log .DepositAccount false)
  else
    (.ok (), { w.log .DepositAccount true with
                accounts := creditByID w.accounts amount accountID })

/-- The method `TransferAccount`.  The two UPDATE statements run inside a storage
transaction: they act on the working copy `tx` of the table `accounts`, which
replaces the table at `Commit` and is dropped otherwise. -/
def TransferAccount (env : Env) (w : World α) (fromAccountID userID : Int) (amount : α)
    (toAccountIban : String) : Except String Unit × World α :=
  if env.fails .TransferBegin then
    (.error (errors.Wrap driverErr "begin transaction error"), w.log .TransferBegin false)
  else
    let w := w.log .TransferBegin true
    let tx := w.accounts
    if env.fails .TransferDebit then
      let w := w.log .TransferDebit false
      if env.fails .TransferRollback then
        (.error (errors.Wrap driverErr "rollback transaction error"),
          w.log .TransferRollback false)
      else
        (.error (errors.Wrap driverErr "debit transaction error"), w.log .TransferRollback true)
    else
      let tx := debitByIDAndUser tx amount fromAccountID userID
      let w := w.log .TransferDebit true
      if env.fails .TransferCredit then
        let w := w.log .TransferCredit false
        if env.fails .TransferRollback then
          (.error (errors.Wrap driverErr "rollback transaction error"),
            w.log .TransferRollback false)
        else
          (.error (errors.Wrap driverErr "money transfer transaction error"),
            w.log .TransferRollback true)
      else
        let tx := creditByIban tx amount toAccountIban
        let w := w.log .TransferCredit true
        if env.fails .TransferCommit then
          (.error (errors.Wrap driverErr "commit transaction error"),
            w.log .TransferCommit false)
        else
          (.ok (), { w.log .TransferCommit true with accounts := tx })

end Account

namespace Transactions

/-- The method `CreateTransaction`: the source is NULL when `fromAccountID` is
`0`; the row is inserted with status PREPARED, creation time `NOW()` and no
update time, and is returned converted by `ToDomain`.  The column `id` is not
given by the INSERT statement: the row gets the next value of the sequence of
the table.  A rejected statement inserts nothing. -/
def CreateTransaction (env : Env) (w : World α) (fromAccountID toAccountID : Int) (amount : α) :
    Except String (domain.Transaction α) × World α :=
  let nullableFromAccountID : Option Int :=
    if fromAccountID != 0 then some fromAccountID else none
  if env.fails .CreateTransaction then
    (.error (errors.Wrap driverErr "execution inserting into transactions query error"),
      w.log .CreateTransaction false)
  else
    let transaction : models.Transaction α :=
      { ID := w.transactionsSeq + 1, FromAccount := nullableFromAccountID,
        ToAccount := toAccountID, Amount := amount, Status := transactionPreparedStatus,
        DateCreated := env.now .CreateTransaction, DateUpdated := none }
    (.ok transaction.ToDomain,
      { w.log .CreateTransaction true with
          transactions := w.transactions ++ [transaction],
          transactionsSeq := w.transactionsSeq + 1 })

/-- The statement
`UPDATE transactions SET status=$1, date_updated=NOW() WHERE id = $2`. -/
def updateStatus (transactions : List (models.Transaction α)) (status : String) (now : Nat)
    (transactionID : Int) : List (models.Transaction α) :=
  transactions.map fun t =>
    if t.ID == transactionID then { t with Status := status, DateUpdated := some now } else t

/-- The method `SetTransactionStatusToSent`. -/
def SetTransactionStatusToSent (env : Env) (w : World α) (transactionID : Int) :
    Except String Unit × World α :=
  if env.fails .SetTransactionStatusToSent then
    (.error (errors.Wrap driverErr "execution updating status into transactions query error"),
      w.log .SetTransactionStatusToSent false)
  else
    (.ok (), { w.log .SetTransactionStatusToSent true with
                transactions := updateStatus w.transactions transactionSentStatus
                  (env.now .SetTransactionStatusToSent) transactionID })

end Transactions

namespace Event

/-- The method `CreateEvent`:
`INSERT INTO event (user_id, type, metadata, time) VALUES ($1, $2, $3, NOW())`;
the column `message` gets no value and the column `id` the next value of the
sequence of the table. -/
def CreateEvent (env : Env) (w : World α) (event : domain.Event α) :
    Except String Unit × World α :=
  if env.fails .CreateEvent then
    (.error (errors.Wrap driverErr "execution event insertion query error"),
      w.log .CreateEvent false)
  else
    let mEvent : models.Event α :=
      { ID := w.eventSeq + 1, UserID := event.UserID, Type_ := event.Type_, Message := none,
        Metadata := event.Metadata, DateTime := env.now .CreateEvent }
    (.ok (), { w.log .CreateEvent true with
                events := w.events ++ [mEvent], eventSeq := w.eventSeq + 1 })

end Event

end repository

/-! ## Service layer -/

namespace service

def fromAccountIDForDeposit : Int := 0

namespace Account

/-- The method `DepositAccount` of the account service. -/
def DepositAccount (env : Env) (w : World α) (accountID : Int) (amount : α) :
    Except String Unit × World α :=
  match repository.Account.ExistsAccount env w accountID with
  | (.error err, w) => (.error (errors.Wrap err "account existence check error"), w)
  | (.ok false, w) => (.error (errors.New "account does not exist error"), w)
  | (.ok true, w) =>
  match repository.Transactions.CreateTransaction env w fromAccountIDForDeposit accountID amount with
  | (.error err, w) => (.error (errors.Wrap err "transaction created error"), w)
  | (.ok transaction, w) =>
  match repository.Account.DepositAccount env w accountID amount with
  | (.error err, w) => (.error (errors.Wrap err "deposit account error"), w)
  | (.ok (), w) =>
  match repository.Transactions.SetTransactionStatusToSent env w transaction.ID with
  | (.error err, w) => (.error (errors.Wrap err "set transaction status to sent error"), w)
  | (.ok (), w) =>
  let event : domain.Event α :=
    { Type_ := domain.DepositEvent, Message := "deposit account successful",
      Metadata := [("account_id", .int accountID), ("amount", .num amount)] }
  match repository.Event.CreateEvent env w event with
  | (.error err, w) => (.error (errors.Wrap err "account deposit event deposit error"), w)
  | (.ok (), w) => (.ok (), w)

/-- The method `TransferAccount` of the account service. -/
def TransferAccount (env : Env) (w : World α) (fromAccountID userID : Int) (amount : α)
    (toAccountIban : String) : Except String Unit × World α :=
  match repository.Account.GetAccountCurrencyIDByID env w fromAccountID with
  | (.error err, w) => (.error (errors.Wrap err "getting account currencyID by ID error"), w)
  | (.ok fromCurrency, w) =>
  match repository.Account.GetAccountCurrencyIDByIban env w toAccountIban with
  | (.error err, w) => (.error (errors.Wrap err "getting account currencyID by iban error"), w)
  | (.ok toCurrency, w) =>
  if fromCurrency != toCurrency then
    (.error (errors.New "currency matching check error"), w)
  else
  match repository.Account.GetAccountAmount env w fromAccountID userID with
  | (.error err, w) => (.error (errors.Wrap err "getting account amount error"), w)
  | (.ok enough, w) =>
  if enough < amount then
    (.error (errors.New "checking enough money in the account for the transfer error"), w)
  else
  match repository.Account.GetAccountIDByIban env w toAccountIban with
  | (.error err, w) => (.error (errors.Wrap err "getting accountID by iban error"), w)
  | (.ok toAccountID, w) =>
  match repository.Transactions.CreateTransaction env w fromAccountID toAccountID amount with
  | (.error err, w) => (.error (errors.Wrap err "transaction created error"), w)
  | (.ok transaction, w) =>
  match repository.Account.TransferAccount env w fromAccountID userID amount toAccountIban with
  | (.error err, w) => (.error (errors.Wrap err "transfer to account error"), w)
  | (.ok (), w) =>
  match repository.Transactions.SetTransactionStatusToSent env w transaction.ID with
  | (.error err, w) => (.error (errors.Wrap err "set transaction status to sent error"), w)
  | (.ok (), w) =>
  let event : domain.Event α :=
    { UserID := userID, Type_ := domain.WithdrawalEvent, Message := "money transfer successful",
      Metadata := [("from_account_id", .int fromAccountID), ("to_account_id", .int toAccountID),
        ("amount", .num amount)] }
  match repository.Event.CreateEvent env w event with
  | (.error err, w) => (.error (errors.Wrap err "account transfer event withdrawal error"), w)
  | (.ok (), w) => (.ok (), w)

end Account

end service

/-! ## Random generator (`pkg/lib/generator`) -/

namespace generator

def cardNumberLength : Nat := 16
def cvvCodeLength : Nat := 3

/-- The struct `Generator`. -/
structure Generator where
  countryCode : String
  bankCode : String
  digitRunes : List Char
deriving DecidableEq, Repr

/-- The constructor `NewGenerator`. -/
def NewGenerator (countryCode bankCode : String) : Generator :=
  { countryCode := countryCode, bankCode := bankCode, digitRunes := "1234567890".toList }

/-- The method `randStringRunes`: rune `i` is `digitRunes[rand.Intn(len(digitRunes))]`,
where the `i`-th call of `rand.Intn(m)` returns `rand i % m`. -/
def Generator.randStringRunes (g : Generator) (rand : Nat → Nat) (n : Nat) : String :=
  String.mk ((List.range n).map fun i => g.digitRunes.getD (rand i % g.digitRunes.length) '0')

/-- The method `GenerateRandomIban`: the arguments of `Sprintf` are evaluated from
left to right, so the two check digits take the first two draws. -/
def Generator.GenerateRandomIban (g : Generator) (rand : Nat → Nat) : String :=
  g.countryCode ++ g.randStringRunes rand 2 ++ g.bankCode ++ "00000" ++
    g.randStringRunes (fun i => rand (2 + i)) 14

/-- The method `GenerateRandomCardNumber`. -/
def Generator.GenerateRandomCardNumber (g : Generator) (rand : Nat → Nat) : String :=
  g.randStringRunes rand cardNumberLength

/-- The method `GenerateRandomCvv`. -/
def Generator.GenerateRandomCvv (g : Generator) (rand : Nat → Nat) : String :=
  g.randStringRunes rand cvvCodeLength

end generator

/-! ## Further repository methods -/

/-- The function `strings.ToUpper`, rune by rune. -/
def strings.ToUpper (s : String) : String := String.mk (s.toList.map Char.toUpper)

/-- The conversion `uint64(x)` of an `int`. -/
def toUint64 (x : Int) : Nat := (x % 2 ^ 64).toNat

/-- The text of the error of the storage for a second row with an IBAN that is
already in the table. -/
def uniqueViolation : String := "pq: duplicate key value violates unique constraint"

/-- The order of two nullable values in the storage: NULL counts as larger than
every value. -/
def compareNullable {β : Type} [Ord β] : Option β → Option β → Ordering
  | none, none => .eq
  | none, some _ => .gt
  | some _, none => .lt
  | some a, some b => compare a b

/-- The lexicographic order given by a list of comparisons, as in an ORDER BY
clause with several terms. -/
def lexCompare {β : Type} : List (β → β → Ordering) → β → β → Ordering
  | [], _, _ => .eq
  | c :: cs, a, b => (c a b).then (lexCompare cs a b)

namespace repository

def ingoingTransactionType : String := "ingoing"
def outgoingTransactionType : String := "outgoing"

def defaultCardExpirationPeriodYears : Int := 3

/-- The civil date (year, month, day) of the day that lies `z` days after
1 January 1970 in the Gregorian calendar. -/
def civilFromDays (z : Nat) : Int × Nat × Nat :=
  let z := z + 719468
  let era := z / 146097
  let doe := z % 146097
  let yoe := (doe - doe / 1460 + doe / 36524 - doe / 146096) / 365
  let doy := doe - (365 * yoe + yoe / 4 - yoe / 100)
  let mp := (5 * doy + 2) / 153
  let d := doy - (153 * mp + 2) / 5 + 1
  let m := if mp < 10 then mp + 3 else mp - 9
  let y : Int := yoe + era * 400
  (if m ≤ 2 then y + 1 else y, m, d)

/-- The number of days from 1 January 1970 to the civil date `y`-`m`-`d` of the
Gregorian calendar, where `m` is a month from 1 to 12; a day outside the month
counts on into the neighbouring months. -/
def daysFromCivil (y : Int) (m : Nat) (d : Int) : Int :=
  let y := if m ≤ 2 then y - 1 else y
  let era := y / 400
  let yoe := y % 400
  let mp : Int := if 2 < m then (m : Int) - 3 else (m : Int) + 9
  let doy := (153 * mp + 2) / 5 + d - 1
  let doe := yoe * 365 + yoe / 4 - yoe / 100 + doy
  era * 146097 + doe - 719468

/-- The method `time.Time.AddDate(years, months, days)` of the Go library: the
date of `t` with the three numbers added to its year, month and day, at the
clock time of `t`, normalised as `time.Date` does (a month outside 1 to 12
carries into the year, a day outside the month into the months, so 29 February
plus one year is 1 March).  A time is a number of seconds since
1 January 1970 00:00:00 UTC and the location of the process is UTC; leap seconds
do not exist on this time line, as in Go. -/
def AddDate (t : Nat) (years months days : Int) : Nat :=
  let date := civilFromDays (t / 86400)
  let clock := t % 86400
  let monthIndex : Int := (date.2.1 : Int) - 1 + months
  let year := date.1 + years + monthIndex / 12
  let month := (monthIndex % 12).toNat + 1
  ((daysFromCivil year month ((date.2.2 : Int) + days)) * 86400 + (clock : Int)).toNat

/-- Modelled from the spec: the schema of the table `accounts` is not part of the
sources; the INSERT statement of `Create` gives the column `amount` no value and
"balance starts at zero". -/
def accountsAmountDefault : α := 0

namespace Account

/-- The method `GetUserIDByAccountID`:
`SELECT user_id FROM accounts WHERE id = $1`, scanned into one value. -/
def GetUserIDByAccountID (env : Env) (w : World α) (accountID : Int) :
    Except String Int × World α :=
  if env.fails .GetUserIDByAccountID then
    (.error (errors.Wrap driverErr "execution getting userID by accountID query error"),
      w.log .GetUserIDByAccountID false)
  else
    match w.accounts.find? fun a => a.ID == accountID with
    | none =>
      (.error (errors.Wrap ErrNoRows "scanning userID error"), w.log .GetUserIDByAccountID false)
    | some a => (.ok a.UserID, w.log .GetUserIDByAccountID true)

/-- The method `Create`:
`INSERT INTO accounts (iban, user_id, currency_id, blocked) VALUES ($1, $2, $3, $4) returning *`
with `blocked = false`.  The columns `id` and `amount` get no value: the id is
the next value of the sequence of the table, the amount the column default.
Following "iban unique" the storage rejects an IBAN that is already in the
table.  A rejected statement inserts nothing. -/
def Create (env : Env) (w : World α) (userID currencyID : Int) (iban : String) :
    Except String (domain.Account α) × World α :=
  if env.fails .AccountCreate then
    (.error (errors.Wrap driverErr "execution creating account query error"),
      w.log .AccountCreate false)
  else if w.accounts.any fun a => a.Iban == iban then
    (.error (errors.Wrap uniqueViolation "execution creating account query error"),
      w.log .AccountCreate false)
  else
    let account : models.Account α :=
      { ID := w.accountsSeq + 1, Iban := iban, UserID := userID, CurrencyID := currencyID,
        Blocked := false, Amount := accountsAmountDefault }
    (.ok account.ToDomain,
      { w.log .AccountCreate true with
          accounts := w.accounts ++ [account], accountsSeq := w.accountsSeq + 1 })

/-- The method `GetAccount`:
`SELECT * FROM accounts WHERE id=$1 AND user_id=$2`, scanned into one struct. -/
def GetAccount (env : Env) (w : World α) (accountID userID : Int) :
    Except String (domain.Account α) × World α :=
  if env.fails .GetAccount then
    (.error (errors.Wrap driverErr "error execution getting account by id query"),
      w.log .GetAccount false)
  else
    match w.accounts.find? fun a => a.ID == accountID && a.UserID == userID with
    | none =>
      (.error (errors.Wrap ErrNoRows "error scanning result into struct"), w.log .GetAccount false)
    | some a => (.ok a.ToDomain, w.log .GetAccount true)

end Account

namespace Transactions

/-- The comparison of two rows on a column of the table `transactions`; a name
that is not a column has none.  Texts are compared by code points. -/
def compareColumn (field : String) :
    Option (models.Transaction α → models.Transaction α → Ordering) :=
  if field = "id" then some fun a b => compare a.ID b.ID
  else if field = "from_account" then some fun a b => compareNullable a.FromAccount b.FromAccount
  else if field = "to_account" then some fun a b => compare a.ToAccount b.ToAccount
  else if field = "amount" then some fun a b => compare a.Amount b.Amount
  else if field = "status" then some fun a b => compare a.Status b.Status
  else if field = "date_created" then some fun a b => compare a.DateCreated b.DateCreated
  else if field = "date_updated" then some fun a b => compareNullable a.DateUpdated b.DateUpdated
  else none

/-- One term `field DIRECTION` of the ORDER BY clause: ascending for `ASC` and for
the empty direction, descending for `DESC`; the storage rejects a term with
another field or direction. -/
def orderTerm (field direction : String) :
    Option (models.Transaction α → models.Transaction α → Ordering) :=
  match compareColumn field with
  | none => none
  | some c =>
    if direction = "ASC" ∨ direction = "" then some c
    else if direction = "DESC" then some fun a b => c b a
    else none

/-- The terms of the ORDER BY clause built by the loop
`for field, direction := range ordering`, in the order of the visits. -/
def orderTerms : domain.Orderings →
    Option (List (models.Transaction α → models.Transaction α → Ordering))
  | [] => some []
  | (field, direction) :: parts =>
    match orderTerm field (strings.ToUpper direction), orderTerms parts with
    | some c, some cs => some (c :: cs)
    | _, _ => none

/-- The tag computed for a row of the result: `outgoing`, replaced by `ingoing`
when the destination is the account asked for. -/
def tagType (accountID : Int) (transaction : models.Transaction α) : domain.Transaction α :=
  let domainTransaction := transaction.ToDomain
  let domainTransaction := { domainTransaction with Type_ := outgoingTransactionType }
  if domainTransaction.ToAccount == accountID then
    { domainTransaction with Type_ := ingoingTransactionType }
  else
    domainTransaction

/-- The method `GetTransactionList`:
`SELECT * FROM transactions WHERE from_account = $1 OR to_account = $2`, ordered
by the terms of `ordering`, or by `id ASC` when `ordering` is nil, with
`LIMIT uint64(PerPage)` and `OFFSET uint64((Page - 1) * PerPage)`.  Rows with
equal keys keep the order of the table.  When the query fails, `rows` is nil and
the guard `err != nil && rows.Err() != nil` panics.  Before any statement is
issued, `make([]models.Transaction, 0, paginator.PerPage)` panics when the
capacity is negative or too large. -/
def GetTransactionList (env : Env) (w : World α) (accountID : Int)
    (ordering : Option domain.Orderings) (paginator : domain.Paginator) :
    Except String (List (domain.Transaction α)) × World α :=
  if paginator.PerPage < 0 ∨ (env.maxCap : Int) < paginator.PerPage then
    (.error makeslicePanic, w)
  else
  let terms : Option (List (models.Transaction α → models.Transaction α → Ordering)) :=
    match ordering with
    | some parts => orderTerms parts
    | none => some [fun a b => compare a.ID b.ID]
  let limit := toUint64 paginator.PerPage
  let offset := toUint64 ((paginator.Page - 1) * paginator.PerPage)
  match terms with
  | none => (.error nilRowsPanic, w.log .GetTransactionList false)
  | some cs =>
    if env.fails .GetTransactionList then
      (.error nilRowsPanic, w.log .GetTransactionList false)
    else if env.rejectsBigint && (decide (2 ^ 63 ≤ limit) || decide (2 ^ 63 ≤ offset)) then
      (.error nilRowsPanic, w.log .GetTransactionList false)
    else
      let listTransaction :=
        (((w.transactions.filter fun t => t.FromAccount == some accountID || t.ToAccount == accountID)
          |>.insertionSort fun a b => lexCompare cs a b ≠ .gt).drop offset).take limit
      (.ok (listTransaction.map (tagType accountID)), w.log .GetTransactionList true)

end Transactions

namespace Users

/-- The method `GetUserNameAndSurnameByID`:
`select name, surname from users where id = $1`; every row overwrites the struct
`nameSurname`, which starts as the zero value.  When the query fails, `rows` is
nil and the guard `err != nil && rows.Err() != nil` panics. -/
def GetUserNameAndSurnameByID (env : Env) (w : World α) (userID : Int) :
    Except String String × World α :=
  if env.fails .GetUserNameAndSurnameByID then
    (.error nilRowsPanic, w.log .GetUserNameAndSurnameByID false)
  else
    let nameSurname : models.NameSurname :=
      (w.users.filter fun u => u.ID == userID).foldl
        (fun _ u => { Name := u.Name, Surname := u.Surname }) {}
    (.ok (nameSurname.Name ++ " " ++ nameSurname.Surname), w.log .GetUserNameAndSurnameByID true)

/-- The method `BlockUser`: `update users set blocked = $1 where id = $2` with
`blocked = true`. -/
def BlockUser (env : Env) (w : World α) (userID : Int) : Except String Unit × World α :=
  if env.fails .BlockUser then
    (.error (errors.Wrap driverErr "execution updating blocked from user by ID query error"),
      w.log .BlockUser false)
  else
    (.ok (), { w.log .BlockUser true with
                users := w.users.map fun u => if u.ID == userID then { u with Blocked := true } else u })

end Users

namespace Card

/-- The method `CreateCard`: the expiration date is
`time.Now().AddDate(defaultCardExpirationPeriodYears, 0, 0)`; the column `id`
gets the next value of the sequence of the table. -/
def CreateCard (env : Env) (w : World α) (accountID : Int)
    (cardNumber cardholderName cvvCode : String) : Except String domain.Card × World α :=
  let expirationDate := AddDate (env.now .CreateCard) defaultCardExpirationPeriodYears 0 0
  if env.fails .CreateCard then
    (.error (errors.Wrap driverErr "execution inserting into cards query error"),
      w.log .CreateCard false)
  else
    let card : models.Card :=
      { Id := w.cardsSeq + 1, AccountID := accountID, CardNumber := cardNumber,
        CardholderName := cardholderName, ExpirationDate := expirationDate, CvvCode := cvvCode }
    (.ok card.ToDomain,
      { w.log .CreateCard true with cards := w.cards ++ [card], cardsSeq := w.cardsSeq + 1 })

/-- The method `GetCard`: `SELECT * FROM cards WHERE id=$1 AND account_id=$2`,
scanned into one struct. -/
def GetCard (env : Env) (w : World α) (id accountID : Int) : Except String domain.Card × World α :=
  if env.fails .GetCard then
    (.error (errors.Wrap driverErr "scanning row into struct error"), w.log .GetCard false)
  else
    match w.cards.find? fun c => c.Id == id && c.AccountID == accountID with
    | none => (.error (errors.Wrap ErrNoRows "scanning row into struct error"), w.log .GetCard false)
    | some c => (.ok c.ToDomain, w.log .GetCard true)

end Card

end repository

/-! ## Further service methods -/

namespace service

namespace Account

/-- The method `Create` of the account service; `ibanGenerator` is the random
generator the service was built with. -/
def Create (env : Env) (w : World α) (ibanGenerator : generator.Generator)
    (userID currencyID : Int) : Except String (domain.Account α) × World α :=
  let iban := ibanGenerator.GenerateRandomIban env.rand
  match repository.Account.Create env w userID currencyID iban with
  | (.error err, w) => (.error (errors.Wrap err "account creation error"), w)
  | (.ok account, w) =>
  let event : domain.Event α :=
    { UserID := userID, Type_ := domain.AccountCreatedEvent,
      Message := "new account successfully created",
      Metadata := [("account_id", .int account.ID), ("currency_id", .int account.CurrencyID),
        ("iban", .str account.Iban)] }
  match repository.Event.CreateEvent env w event with
  | (.error err, w) => (.error (errors.Wrap err "account created event creation error"), w)
  | (.ok (), w) => (.ok account, w)

/-- The two values `(domain.Account, error)` that the method `Create` of the
account service returns, with the store after the call: the body of `Create`
with the first value of each `return` statement written out; the error is
`none` for nil. -/
def CreateValues (env : Env) (w : World α) (ibanGenerator : generator.Generator)
    (userID currencyID : Int) : (domain.Account α × Option String) × World α :=
  let iban := ibanGenerator.GenerateRandomIban env.rand
  match repository.Account.Create env w userID currencyID iban with
  | (.error err, w) => ((domain.Account.zero, some (errors.Wrap err "account creation error")), w)
  | (.ok account, w) =>
  let event : domain.Event α :=
    { UserID := userID, Type_ := domain.AccountCreatedEvent,
      Message := "new account successfully created",
      Metadata := [("account_id", .int account.ID), ("currency_id", .int account.CurrencyID),
        ("iban", .str account.Iban)] }
  match repository.Event.CreateEvent env w event with
  | (.error err, w) =>
    ((domain.Account.zero, some (errors.Wrap err "account created event creation error")), w)
  | (.ok (), w) => ((account, none), w)

/-- The method `GetAccount` of the account service. -/
def GetAccount (env : Env) (w : World α) (accountID userID : Int) :
    Except String (domain.Account α) × World α :=
  match repository.Account.GetAccount env w accountID userID with
  | (.error err, w) => (.error (errors.Wrap err "getting account error"), w)
  | (.ok account, w) => (.ok account, w)

end Account

namespace Card

/-- The method `CreateCard` of the card service.  On a mismatch of the user ids
the code returns `domain.Card{}` with `errors.Wrap(err, "userID matching error")`,
where `err` is the nil error of the lookup before.  A panic of the lookup of the
name of the holder unwinds through the method. -/
def CreateCard (env : Env) (w : World α) (randomGenerator : generator.Generator)
    (accountID userID : Int) : Except String domain.Card × World α :=
  match repository.Account.GetUserIDByAccountID env w accountID with
  | (.error err, w) => (.error (errors.Wrap err "getting userID by accountID error"), w)
  | (.ok checkUserID, w) =>
  if checkUserID != userID then
    match errors.WrapNilable none "userID matching error" with
    | some err => (.error err, w)
    | none => (.ok domain.Card.zero, w)
  else
  let cardNumber := randomGenerator.GenerateRandomCardNumber env.rand
  let cvvCode := randomGenerator.GenerateRandomCvv fun i => env.rand (generator.cardNumberLength + i)
  match repository.Users.GetUserNameAndSurnameByID env w userID with
  | (.error err, w) => (.error (unwindOrWrap err "getting user name and surname error"), w)
  | (.ok cardholderName, w) =>
  match repository.Card.CreateCard env w accountID cardNumber cardholderName cvvCode with
  | (.error err, w) => (.error (errors.Wrap err "card creation error"), w)
  | (.ok card, w) =>
  let event : domain.Event α :=
    { UserID := userID, Type_ := domain.CardCreatedEvent,
      Message := "new card successfully created",
      Metadata := [("card_id", .int card.Id), ("account_id", .int accountID),
        ("cardholder_name", .str card.CardholderName),
        ("expiration_date", .time card.ExpirationDate)] }
  match repository.Event.CreateEvent env w event with
  | (.error err, w) => (.error (errors.Wrap err "card created event creation error"), w)
  | (.ok (), w) => (.ok card, w)

/-- The method `GetCard` of the card service. -/
def GetCard (env : Env) (w : World α) (cardID accountID userID : Int) :
    Except String domain.Card × World α :=
  match repository.Account.GetUserIDByAccountID env w accountID with
  | (.error err, w) => (.error (errors.Wrap err "getting userID by accountID error"), w)
  | (.ok checkUserID, w) =>
  if checkUserID != userID then
    (.error (errors.New "userID matching check error"), w)
  else
  match repository.Card.GetCard env w cardID accountID with
  | (.error err, w) => (.error (errors.Wrap err "getting card error"), w)
  | (.ok card, w) => (.ok card, w)

end Card

namespace Transaction

/-- The method `GetTransactionList` of the transaction service; a panic of the
repository call that reads the list unwinds through it. -/
def GetTransactionList (env : Env) (w : World α) (accountID userID : Int)
    (ordering : Option domain.Orderings) (paginator : domain.Paginator) :
    Except String (List (domain.Transaction α)) × World α :=
  match repository.Account.GetUserIDByAccountID env w accountID with
  | (.error err, w) => (.error (errors.Wrap err "getting userID by accountID error"), w)
  | (.ok checkUserID, w) =>
  if checkUserID != userID then
    (.error (errors.New "userID matching check error"), w)
  else
  match repository.Transactions.GetTransactionList env w accountID ordering paginator with
  | (.error err, w) => (.error (unwindOrWrap err "getting transaction list error"), w)
  | (.ok listTransaction, w) => (.ok listTransaction, w)

end Transaction

namespace User

/-- The method `BlockUser` of the user service. -/
def BlockUser (env : Env) (w : World α) (blockUserID userID : Int) :
    Except String Unit × World α :=
  if blockUserID == userID then
    (.error (errors.New "user cannot block himself error"), w)
  else
  match repository.Users.BlockUser env w blockUserID with
  | (.error err, w) => (.error (errors.Wrap err "block user error"), w)
  | (.ok (), w) =>
  let event : domain.Event α :=
    { UserID := blockUserID, Type_ := domain.UserBlockedEvent,
      Message := "user blocked successfully" }
  match repository.Event.CreateEvent env w event with
  | (.error err, w) => (.error (errors.Wrap err "user blocking event blocking error"), w)
  | (.ok (), w) => (.ok (), w)

end User

end service

/-! ## Observations on executions -/

/-- The statements executed between the state `w` and a later state `w'`, each
with its outcome. -/
def executed (w w' : World α) : List (Stmt × Bool) :=
  w'.trace.drop w.trace.length

/-- An operation of the transaction repository that writes to the ledger. -/
inductive LedgerOp (α : Type)
  | CreateTransaction (fromAccountID toAccountID : Int) (amount : α)
  | SetTransactionStatusToSent (transactionID : Int)
deriving DecidableEq, Repr

/-- Runs one ledger operation in the given environment and keeps the new state. -/
def LedgerOp.run (env : Env) (w : World α) : LedgerOp α → World α
  | .CreateTransaction fromAccountID toAccountID amount =>
    (repository.Transactions.CreateTransaction env w fromAccountID toAccountID amount).2
  | .SetTransactionStatusToSent transactionID =>
    (repository.Transactions.SetTransactionStatusToSent env w transactionID).2

/-- Runs a sequence of ledger operations, each in its own environment. -/
def runLedger (w : World α) : List (Env × LedgerOp α) → World α
  | [] => w
  | (env, op) :: ops => runLedger (op.run env w) ops

/-- The status and the update time of a transaction row agree: PREPARED with no
update time, or SENT with one. -/
def models.Transaction.Coherent (t : models.Transaction α) : Prop :=
  (t.Status = repository.transactionPreparedStatus ∧ t.DateUpdated = none) ∨
  (t.Status = repository.transactionSentStatus ∧ t.DateUpdated ≠ none)

instance (t : models.Transaction α) : Decidable t.Coherent := by
  unfold models.Transaction.Coherent
  infer_instance

/-! ## Repository calls seen by the service -/

/-- The methods of the repositories that `service.Account.TransferAccount` calls. -/
inductive Call
  | GetAccountCurrencyIDByID
  | GetAccountCurrencyIDByIban
  | GetAccountAmount
  | GetAccountIDByIban
  | CreateTransaction
  | TransferAccount
  | SetTransactionStatusToSent
  | CreateEvent
deriving DecidableEq, Repr

/-- The repository call that returns with the given statement, and whether it
returns nil.  The repository `TransferAccount` returns with a failed Begin, with
a Rollback (always an error) or with the Commit; the other statements of its
storage transaction end no call. -/
def Stmt.returns : Stmt × Bool → Option (Call × Bool)
  | (.GetAccountCurrencyIDByID, ok) => some (.GetAccountCurrencyIDByID, ok)
  | (.GetAccountCurrencyIDByIban, ok) => some (.GetAccountCurrencyIDByIban, ok)
  | (.GetAccountAmount, ok) => some (.GetAccountAmount, ok)
  | (.GetAccountIDByIban, ok) => some (.GetAccountIDByIban, ok)
  | (.CreateTransaction, ok) => some (.CreateTransaction, ok)
  | (.TransferBegin, false) => some (.TransferAccount, false)
  | (.TransferRollback, _) => some (.TransferAccount, false)
  | (.TransferCommit, ok) => some (.TransferAccount, ok)
  | (.SetTransactionStatusToSent, ok) => some (.SetTransactionStatusToSent, ok)
  | (.CreateEvent, ok) => some (.CreateEvent, ok)
  | _ => none

/-- The repository calls made between the state `w` and a later state `w'`, in
order, each with whether it returned nil. -/
def calls (w w' : World α) : List (Call × Bool) :=
  (executed w w').filterMap Stmt.returns

end Model

/-! ## Account maintenance -/

section Maintenance

variable {α : Type} [LinearOrderedAddCommGroup α]

namespace repository

def block : Bool := true
def unblock : Bool := false

namespace Account

/-- The method `DeleteAccount`: `DELETE FROM accounts WHERE id=$1`.  The rows of
the other tables stay as they are. -/
def DeleteAccount (env : Env) (w : World α) (accountID : Int) : Except String Unit × World α :=
  if env.fails .DeleteAccount then
    (.error (errors.Wrap driverErr "execution deleting account by accountID query error"),
      w.log .DeleteAccount false)
  else
    (.ok (), { w.log .DeleteAccount true with
                accounts := w.accounts.filter fun a => !(a.ID == accountID) })

/-- The statement `update accounts set blocked = $1 where id = $2 and user_id = $3`. -/
def setBlocked (accounts : List (models.Account α)) (blocked : Bool) (accountID userID : Int) :
    List (models.Account α) :=
  accounts.map fun a =>
    if a.ID == accountID && a.UserID == userID then { a with Blocked := blocked } else a

/-- The method `BlockAccount`. -/
def BlockAccount (env : Env) (w : World α) (accountID userID : Int) :
    Except String Unit × World α :=
  if env.fails .BlockAccount then
    (.error (errors.Wrap driverErr "execution updating account by ID and userID query error"),
      w.log .BlockAccount false)
  else
    (.ok (), { w.log .BlockAccount true with
                accounts := setBlocked w.accounts block accountID userID })

/-- The method `UnblockAccount`. -/
def UnblockAccount (env : Env) (w : World α) (accountID userID : Int) :
    Except String Unit × World α :=
  if env.fails .UnblockAccount then
    (.error (errors.Wrap driverErr "execution updating account by ID and userID query error"),
      w.log .UnblockAccount false)
  else
    (.ok (), { w.log .UnblockAccount true with
                accounts := setBlocked w.accounts unblock accountID userID })

/-- The comparison of two rows on a column of the table `accounts`; a name that is
not a column has none. -/
def compareColumn (field : String) :
    Option (models.Account α → models.Account α → Ordering) :=
  if field = "id" then some fun a b => compare a.ID b.ID
  else if field = "iban" then some fun a b => compare a.Iban b.Iban
  else if field = "user_id" then some fun a b => compare a.UserID b.UserID
  else if field = "currency_id" then some fun a b => compare a.CurrencyID b.CurrencyID
  else if field = "blocked" then some fun a b => compare a.Blocked b.Blocked
  else if field = "amount" then some fun a b => compare a.Amount b.Amount
  else none

/-- The terms of the ORDER BY clause built by the loop
`for field, direction := range ordering`, in the order of the visits; a term is
`field DIRECTION` with the direction in upper case, ascending for `ASC` and for
the empty direction, descending for `DESC`. -/
def orderTerms : domain.Orderings →
    Option (List (models.Account α → models.Account α → Ordering))
  | [] => some []
  | (field, direction) :: parts =>
    let term : Option (models.Account α → models.Account α → Ordering) :=
      match compareColumn field with
      | none => none
      | some c =>
        if strings.ToUpper direction = "ASC" ∨ strings.ToUpper direction = "" then some c
        else if strings.ToUpper direction = "DESC" then some fun a b => c b a
        else none
    match term, orderTerms parts with
    | some c, some cs => some (c :: cs)
    | _, _ => none

/-- The method `GetAccountsList`: `SELECT * FROM accounts WHERE user_id = $1`,
ordered by the terms of `ordering`, or by `id ASC` when `ordering` is nil, with
`LIMIT uint64(PerPage)` and `OFFSET uint64((Page - 1) * PerPage)`.  Before any
statement is issued, `make([]models.Account, 0, paginator.PerPage)` panics when
the capacity is negative or too large.  The guard is
`err != nil || rows.Err() != nil`, so a rejected query returns an error. -/
def GetAccountsList (env : Env) (w : World α) (userID : Int) (paginator : domain.Paginator)
    (ordering : Option domain.Orderings) : Except String (List (domain.Account α)) × World α :=
  if paginator.PerPage < 0 ∨ (env.maxCap : Int) < paginator.PerPage then
    (.error makeslicePanic, w)
  else
  let terms : Option (List (models.Account α → models.Account α → Ordering)) :=
    match ordering with
    | some parts => orderTerms parts
    | none => some [fun a b => compare a.ID b.ID]
  let limit := toUint64 paginator.PerPage
  let offset := toUint64 ((paginator.Page - 1) * paginator.PerPage)
  match terms with
  | none =>
    (.error (errors.Wrap driverErr "error execution getting accounts list query"),
      w.log .GetAccountsList false)
  | some cs =>
    if env.fails .GetAccountsList then
      (.error (errors.Wrap driverErr "error execution getting accounts list query"),
        w.log .GetAccountsList false)
    else if env.rejectsBigint && (decide (2 ^ 63 ≤ limit) || decide (2 ^ 63 ≤ offset)) then
      (.error (errors.Wrap driverErr "error execution getting accounts list query"),
        w.log .GetAccountsList false)
    else
      let listAccounts :=
        (((w.accounts.filter fun a => a.UserID == userID)
          |>.insertionSort fun a b => lexCompare cs a b ≠ .gt).drop offset).take limit
      (.ok (listAccounts.map fun account => account.ToDomain), w.log .GetAccountsList true)

end Account

end repository

namespace service

namespace Account

/-- The method `GetAccountsList` of the account service; a panic of the repository
call unwinds through it. -/
def GetAccountsList (env : Env) (w : World α) (userID : Int) (paginator : domain.Paginator)
    (ordering : Option domain.Orderings) : Except String (List (domain.Account α)) × World α :=
  match repository.Account.GetAccountsList env w userID paginator ordering with
  | (.error err, w) => (.error (unwindOrWrap err "getting account list error"), w)
  | (.ok list, w) => (.ok list, w)

/-- The method `DeleteAccount` of the account service; the event carries the
account id in the field `UserID`. -/
def DeleteAccount (env : Env) (w : World α) (accountID : Int) : Except String Unit × World α :=
  match repository.Account.DeleteAccount env w accountID with
  | (.error err, w) => (.error (errors.Wrap err "account deleting error"), w)
  | (.ok (), w) =>
  let event : domain.Event α :=
    { UserID := accountID, Type_ := domain.AccountDeletedEvent,
      Message := "account successfully deleted" }
  match repository.Event.CreateEvent env w event with
  | (.error err, w) => (.error (errors.Wrap err "account deleted event deletion error"), w)
  | (.ok (), w) => (.ok (), w)

/-- The method `BlockAccount` of the account service. -/
def BlockAccount (env : Env) (w : World α) (accountID userID : Int) :
    Except String Unit × World α :=
  match repository.Account.BlockAccount env w accountID userID with
  | (.error err, w) => (.error (errors.Wrap err "blocking account error"), w)
  | (.ok (), w) =>
  let event : domain.Event α :=
    { UserID := userID, Type_ := domain.AccountBlockedEvent,
      Message := "account blocked successfully",
      Metadata := [("account_id", .int accountID)] }
  match repository.Event.CreateEvent env w event with
  | (.error err, w) => (.error (errors.Wrap err "account blocking event blocking error"), w)
  | (.ok (), w) => (.ok (), w)

/-- The method `UnblockAccount` of the account service. -/
def UnblockAccount (env : Env) (w : World α) (accountID userID : Int) :
    Except String Unit × World α :=
  match repository.Account.UnblockAccount env w accountID userID with
  | (.error err, w) => (.error (errors.Wrap err "unblocking account error"), w)
  | (.ok (), w) =>
  let event : domain.Event α :=
    { UserID := userID, Type_ := domain.AccountUnblockedEvent,
      Message := "account unblocked successfully",
      Metadata := [("account_id", .int accountID)] }
  match repository.Event.CreateEvent env w event with
  | (.error err, w) => (.error (errors.Wrap err "account unblocking event unblocking error"), w)
  | (.ok (), w) => (.ok (), w)

end Account

end service

end Maintenance

/-! ## Lists of cards and events -/

section Lists

variable {α : Type} [LinearOrderedAddCommGroup α]

namespace repository

namespace Card

/-- The rows of `cards c INNER JOIN accounts a on a.id = c.account_id` whose
account satisfies `p`, each with the currency id of its account, ordered by
`a.currency_id DESC`; rows with equal currency keep the order of the tables. -/
def joinAccounts (w : World α) (p : models.Account α → Bool) : List models.Card :=
  let rows : List (Int × models.Card) :=
    w.cards.flatMap fun c =>
      (w.accounts.filter fun a => a.ID == c.AccountID && p a).map fun a => (a.CurrencyID, c)
  (rows.insertionSort fun x y => y.1 ≤ x.1).map fun row => row.2

/-- The method `GetCardListUser`:
`SELECT c.* FROM cards c INNER JOIN accounts a on a.id = c.account_id
WHERE a.user_id = $1 ORDER BY a.currency_id DESC`.  When the query fails, `rows`
is nil and the guard `err != nil && rows.Err() != nil` panics. -/
def GetCardListUser (env : Env) (w : World α) (userID : Int) :
    Except String (List domain.Card) × World α :=
  if env.fails .GetCardListUser then
    (.error nilRowsPanic, w.log .GetCardListUser false)
  else
    (.ok ((joinAccounts w fun a => a.UserID == userID).map fun card => card.ToDomain),
      w.log .GetCardListUser true)

/-- The method `GetCardListByAccount`: the same query with
`WHERE a.user_id = $1 AND a.id = $2`, and the same guard. -/
def GetCardListByAccount (env : Env) (w : World α) (userID accountID : Int) :
    Except String (List domain.Card) × World α :=
  if env.fails .GetCardListByAccount then
    (.error nilRowsPanic, w.log .GetCardListByAccount false)
  else
    (.ok ((joinAccounts w fun a => a.UserID == userID && a.ID == accountID).map
        fun card => card.ToDomain),
      w.log .GetCardListByAccount true)

end Card

namespace Event

/-- The text of the error of `StructScan` for a NULL in the column `message`, which
is scanned into a `string`. -/
def nullMessageErr : String :=
  "sql: Scan error on column index 3, name \"message\": converting NULL to string is unsupported"

/-- The method `metadata.Scan` on the receiver `c` and the content `value` of the
column.  The receiver is a value receiver, so `c` is a copy of the map header of
the field that is scanned; a copied map shares its storage with the original,
and `json.Unmarshal(b, &c)` puts the entries of the JSON object into the map it
finds in `c`.  The result is the content of that shared map after the call: the
entries of `value` are stored one by one, each replacing an entry with the same
key.  A JSON `null`, the encoding of a nil map, stores nothing.  Values are kept
as they were written: the change of representation through JSON (a number is
read back as a `float64`, a time as its text) is not modelled. -/
def metadataScan (c value : List (String × domain.MetaValue α)) :
    List (String × domain.MetaValue α) :=
  value.foldl (fun m entry => (m.filter fun x => x.1 != entry.1) ++ [entry]) c

/-- The body of the loop `for rows.Next()` of `GetEventsList` on the rows still to
be read: `StructScan` into a fresh `models.Event`, then
`NewEventTypeFromString`, then `append`.  For the field `Metadata`, which is a
nil map in the fresh struct, `StructScan` first makes an empty map
(`reflectx.FieldByIndexes` allocates a nil map on the way to a field) and then
calls `metadata.Scan` on it, so the field holds the entries of the column. -/
def scanRows (env : Env) :
    List (models.Event α) → List (domain.Event α) → Except String (List (domain.Event α))
  | [], eventsList => .ok eventsList
  | row :: rows, eventsList =>
    let message : Option String :=
      match row.Message with
      | some m => some m
      | none => env.messageDefault
    match message with
    | none => .error (errors.Wrap nullMessageErr "scanning event row error")
    | some mEventMessage =>
      let mEventMetadata : List (String × domain.MetaValue α) := metadataScan [] row.Metadata
      match domain.NewEventTypeFromString row.Type_ with
      | .error err => .error (errors.Wrap err "unsupported event type in row")
      | .ok eventType =>
        scanRows env rows
          (eventsList ++
            [{ ID := row.ID, UserID := row.UserID, Type_ := eventType, Message := mEventMessage,
               Metadata := mEventMetadata, DateTime := row.DateTime }])

/-- The method `GetEventsList`:
`SELECT * FROM event WHERE user_id = $1 ORDER BY time DESC`; rows with equal time
keep the order of the table. -/
def GetEventsList (env : Env) (w : World α) (userID : Int) :
    Except String (List (domain.Event α)) × World α :=
  if env.fails .GetEventsList then
    (.error (errors.Wrap driverErr "execution getting events list query error"),
      w.log .GetEventsList false)
  else
    let rows := (w.events.filter fun e => e.UserID == userID).insertionSort
      fun a b => b.DateTime ≤ a.DateTime
    match scanRows env rows [] with
    | .error err => (.error err, w.log .GetEventsList false)
    | .ok eventsList => (.ok eventsList, w.log .GetEventsList true)

end Event

end repository

namespace service

namespace Card

/-- The method `GetCardListUser` of the card service; a panic of the repository
call unwinds through it. -/
def GetCardListUser (env : Env) (w : World α) (userID : Int) :
    Except String (List domain.Card) × World α :=
  match repository.Card.GetCardListUser env w userID with
  | (.error err, w) => (.error (unwindOrWrap err "getting card list error"), w)
  | (.ok listCard, w) => (.ok listCard, w)

/-- The method `GetCardListByAccount` of the card service; a panic of the
repository call unwinds through it. -/
def GetCardListByAccount (env : Env) (w : World α) (userID accountID : Int) :
    Except String (List domain.Card) × World α :=
  match repository.Card.GetCardListByAccount env w userID accountID with
  | (.error err, w) => (.error (unwindOrWrap err "getting card list by account error"), w)
  | (.ok listCard, w) => (.ok listCard, w)

end Card

namespace Event

/-- The method `GetEventList` of the event service. -/
def GetEventList (env : Env) (w : World α) (userID : Int) :
    Except String (List (domain.Event α)) × World α :=
  match repository.Event.GetEventsList env w userID with
  | (.error err, w) => (.error (errors.Wrap err "getting events list error"), w)
  | (.ok list, w) => (.ok list, w)

end Event

end service

end Lists

/-! ## Users, roles and refresh sessions -/

namespace errors

/-- The function `errors.Is(err, target)` on the texts of errors: an error built by
`Wrap` around `target` ends with the text of `target`. -/
def Is (err target : String) : Bool :=
  err == target || (": " ++ target).toList.isSuffixOf err.toList

end errors

namespace strings

/-- The pieces of a list of runes between the occurrences of a separator rune. -/
def splitRunes (sep : Char) : List Char → List (List Char)
  | [] => [[]]
  | c :: cs =>
    if c = sep then [] :: splitRunes sep cs
    else
      match splitRunes sep cs with
      | [] => [[c]]
      | piece :: pieces => (c :: piece) :: pieces

/-- The function `strings.Split(s, sep)` for a separator of one rune. -/
def Split (s : String) (sep : Char) : List String :=
  (splitRunes sep s.toList).map String.mk

end strings

namespace strconv

/-- The function `strconv.Atoi`: an optional sign followed by decimal digits, within
the range of a 64-bit `int`. -/
def Atoi (s : String) : Except String Int :=
  let body : Bool × List Char :=
    match s.toList with
    | '-' :: digits => (true, digits)
    | '+' :: digits => (false, digits)
    | digits => (false, digits)
  if body.2 = [] ∨ ¬ body.2.all Char.isDigit then
    .error ("strconv.Atoi: parsing \"" ++ s ++ "\": invalid syntax")
  else
    let magnitude : Nat := body.2.foldl (fun acc c => 10 * acc + (c.toNat - '0'.toNat)) 0
    let value : Int := if body.1 then -(magnitude : Int) else magnitude
    if value < -(2 : Int) ^ 63 ∨ (2 : Int) ^ 63 ≤ value then
      .error ("strconv.Atoi: parsing \"" ++ s ++ "\": value out of range")
    else .ok value

end strconv

section Users

variable {α : Type} [LinearOrderedAddCommGroup α]

namespace repository

namespace Users

/-- The method `CheckBlockUser`: `SELECT blocked FROM users WHERE id = $1`, scanned
into one value. -/
def CheckBlockUser (env : Env) (w : World α) (userID : Int) : Except String Bool × World α :=
  if env.fails .CheckBlockUser then
    (.error (errors.Wrap driverErr "execution getting blocked from users query error"),
      w.log .CheckBlockUser false)
  else
    match w.users.find? fun u => u.ID == userID with
    | none =>
      (.error (errors.Wrap ErrNoRows "execution getting blocked from users query error"),
        w.log .CheckBlockUser false)
    | some u => (.ok (if u.Blocked then true else false), w.log .CheckBlockUser true)

/-- The method `Exists`: `select exists(select id from users where email = $1)`. -/
def Exists_ (env : Env) (w : World α) (email : String) : Except String Bool × World α :=
  if env.fails .UserExists then
    (.error (errors.Wrap driverErr "execution checking exists user query error"),
      w.log .UserExists false)
  else
    (.ok (w.users.any fun u => u.Email == email), w.log .UserExists true)

/-- The method `Create`: one INSERT with `registered_at = now()`; the column `id` is
not given and gets the next value of the sequence of the table. -/
def Create (env : Env) (w : World α) (user : domain.User) : Except String Unit × World α :=
  if env.fails .UserCreate then
    (.error (errors.Wrap driverErr "execution creating user query error"),
      w.log .UserCreate false)
  else
    let row : models.User :=
      { ID := w.usersSeq + 1, Name := user.Name, Surname := user.Surname, Email := user.Email,
        Password := user.Password, RoleId := user.RoleId, Blocked := user.Blocked,
        RegisteredAt := env.now .UserCreate }
    (.ok (), { w.log .UserCreate true with users := w.users ++ [row], usersSeq := w.usersSeq + 1 })

/-- The method `GetByCredentials`: the row selected by `email = $1 and password = $2`,
scanned into one struct. -/
def GetByCredentials (env : Env) (w : World α) (email password : String) :
    Except String domain.User × World α :=
  if env.fails .GetByCredentials then
    (.error (errors.Wrap driverErr "execution selecting user by credentials query error"),
      w.log .GetByCredentials false)
  else
    match w.users.find? fun u => u.Email == email && u.Password == password with
    | none =>
      (.error (errors.Wrap ErrNoRows "execution selecting user by credentials query error"),
        w.log .GetByCredentials false)
    | some u => (.ok u.ToDomain, w.log .GetByCredentials true)

/-- The method `GetByID`: the row selected by `id = $1`, scanned into one struct. -/
def GetByID (env : Env) (w : World α) (id : Int) : Except String domain.User × World α :=
  if env.fails .GetByID then
    (.error (errors.Wrap driverErr "execution getting user by ID query error"),
      w.log .GetByID false)
  else
    match w.users.find? fun u => u.ID == id with
    | none =>
      (.error (errors.Wrap ErrNoRows "execution getting user by ID query error"),
        w.log .GetByID false)
    | some u => (.ok u.ToDomain, w.log .GetByID true)

/-- The method `UnblockUser`: `update users set blocked= $1 where id = $2` with
`blocked = false`. -/
def UnblockUser (env : Env) (w : World α) (userID : Int) : Except String Unit × World α :=
  if env.fails .UnblockUser then
    (.error (errors.Wrap driverErr "execution updating blocked from user by ID query error"),
      w.log .UnblockUser false)
  else
    (.ok (), { w.log .UnblockUser true with
                users := w.users.map fun u =>
                  if u.ID == userID then { u with Blocked := unblock } else u })

end Users

namespace Roles

/-- The method `GetByName`: `SELECT * FROM roles WHERE name = $1`, one row. -/
def GetByName (env : Env) (w : World α) (name : String) : Except String domain.Role × World α :=
  if env.fails .RoleGetByName then
    (.error (errors.Wrap driverErr "execution getting name from query error"),
      w.log .RoleGetByName false)
  else
    match w.roles.find? fun r => r.Name == name with
    | none =>
      (.error (errors.Wrap ErrNoRows "execution getting name from query error"),
        w.log .RoleGetByName false)
    | some r => (.ok r.ToDomain, w.log .RoleGetByName true)

end Roles

namespace Tokens

/-- The method `Create`:
`INSERT INTO refresh_tokens (user_id, token, expires_at) VALUES ($1, $2, $3)`. -/
def Create (env : Env) (w : World α) (token : domain.RefreshSession) :
    Except String Unit × World α :=
  if env.fails .SessionCreate then
    (.error (errors.Wrap driverErr "execution inserting into refresh_tokens query error"),
      w.log .SessionCreate false)
  else
    let row : models.RefreshSession :=
      { ID := w.sessionsSeq + 1, UserID := token.UserID, Token := token.Token,
        ExpiresAt := token.ExpiresAt }
    (.ok (), { w.log .SessionCreate true with
                sessions := w.sessions ++ [row], sessionsSeq := w.sessionsSeq + 1 })

/-- The method `Get`: the row selected by `token=$1` is scanned, then
`DELETE FROM refresh_tokens WHERE user_id=$1` removes every session of its user. -/
def Get (env : Env) (w : World α) (token : String) :
    Except String domain.RefreshSession × World α :=
  if env.fails .SessionGet then
    (.error (errors.Wrap driverErr "scanning result into struct error"), w.log .SessionGet false)
  else
    match w.sessions.find? fun s => s.Token == token with
    | none =>
      (.error (errors.Wrap ErrNoRows "scanning result into struct error"),
        w.log .SessionGet false)
    | some refreshSession =>
      let w := w.log .SessionGet true
      if env.fails .SessionDelete then
        (.error (errors.Wrap driverErr "execution deleting from refresh_tokens query error"),
          w.log .SessionDelete false)
      else
        (.ok refreshSession.ToDomain,
          { w.log .SessionDelete true with
              sessions := w.sessions.filter fun s => !(s.UserID == refreshSession.UserID) })

end Tokens

end repository

end Users

/-! ## The user service -/

/-- The error `messages.ErrUserNotFound`. -/
def messages.ErrUserNotFound : String := "user with such credentials not found"

section UserService

variable {α : Type} [LinearOrderedAddCommGroup α]

namespace service

namespace User

def userRoleName : String := "user"

/-- The duration `time.Hour * 24 * 30` in seconds. -/
def refreshSessionTtl : Nat := 3600 * 24 * 30

/-- The function `newRefreshToken`: 32 bytes of the source seeded with
`time.Now().Unix()`, printed in hexadecimal; `Read` of `math/rand` returns no
error. -/
def newRefreshToken (env : Env) (seed : Nat) : Except String String :=
  .ok (env.randomHex seed)

/-- The method `generateTokens`; `tokenTtl` is the field of that name of the
service, in seconds, and `k` the number of readings of the clock made by the
caller before. -/
def generateTokens (env : Env) (w : World α) (tokenTtl : Nat) (k : Nat) (user : domain.User) :
    Except String (String × String) × World α :=
  let subject := toString user.ID ++ ":" ++ toString user.RoleId
  let issuedAt := env.clock k
  let expiresAt := env.clock (k + 1) + tokenTtl
  match env.signedString subject issuedAt expiresAt with
  | .error err =>
    (.error (errors.Wrap err "creating and returning a complete, signed JWT token error"), w)
  | .ok accessToken =>
  match newRefreshToken env (env.clock (k + 2)) with
  | .error err => (.error (errors.Wrap err "creating new refresh token error"), w)
  | .ok refreshToken =>
  match repository.Tokens.Create env w
      { ID := 0, UserID := user.ID, Token := refreshToken,
        ExpiresAt := env.clock (k + 3) + refreshSessionTtl } with
  | (.error err, w) => (.error (errors.Wrap err "creating refresh session error"), w)
  | (.ok (), w) => (.ok (accessToken, refreshToken), w)

/-- The method `SignUp` of the user service. -/
def SignUp (env : Env) (w : World α) (inp : domain.SignUpInput) : Except String Unit × World α :=
  match repository.Users.Exists_ env w inp.Email with
  | (.error err, w) => (.error (errors.Wrap err "user existence check error"), w)
  | (.ok true, w) => (.error (errors.New "user already exists error"), w)
  | (.ok false, w) =>
  match env.hash inp.Password with
  | .error err => (.error (errors.Wrap err "password hash error"), w)
  | .ok password =>
  match repository.Roles.GetByName env w userRoleName with
  | (.error err, w) => (.error (errors.Wrap err "role getting error"), w)
  | (.ok role, w) =>
  let user : domain.User :=
    { ID := 0, Name := inp.Name, Surname := inp.Surname, Email := inp.Email,
      Password := password, RoleId := role.ID, Blocked := false, RegisteredAt := 0 }
  match repository.Users.Create env w user with
  | (.error err, w) => (.error (errors.Wrap err "user creation error"), w)
  | (.ok (), w) => (.ok (), w)

/-- The method `SignIn` of the user service; the result is the pair of the access
token and the refresh token. -/
def SignIn (env : Env) (w : World α) (tokenTtl : Nat) (inp : domain.SignInInput) :
    Except String (String × String) × World α :=
  match env.hash inp.Password with
  | .error err => (.error (errors.Wrap err "password hash error"), w)
  | .ok password =>
  match repository.Users.GetByCredentials env w inp.Email password with
  | (.error err, w) =>
    if errors.Is err ErrNoRows then
      (.error (errors.Wrap messages.ErrUserNotFound "getting user by credential error"), w)
    else
      (.error (errors.Wrap err "getting user by credential error"), w)
  | (.ok user, w) =>
  match generateTokens env w tokenTtl 0 user with
  | (.error err, w) => (.error (errors.Wrap err "generating tokens error"), w)
  | (.ok tokens, w) => (.ok tokens, w)

/-- The method `ParseToken` of the user service; the result is the pair of the
user id and the role id.  The four calls `errors.Wrap(nil, ...)` return nil, so
these branches return `0, 0` and no error. -/
def ParseToken (env : Env) (w : World α) (token : String) :
    Except String (Int × Int) × World α :=
  match env.jwtParse token with
  | .error err => (.error (errors.Wrap err "jwt parsing error"), w)
  | .ok t =>
  if !t.Valid then
    match errors.WrapNilable none "invalid token error" with
    | some err => (.error err, w)
    | none => (.ok (0, 0), w)
  else if !t.MapClaims then
    match errors.WrapNilable none "invalid claims error" with
    | some err => (.error err, w)
    | none => (.ok (0, 0), w)
  else
  match t.sub with
  | none =>
    match errors.WrapNilable none "invalid subject error" with
    | some err => (.error err, w)
    | none => (.ok (0, 0), w)
  | some subject =>
  match strings.Split subject ':' with
  | [first, second] =>
    match strconv.Atoi first with
    | .error err => (.error (errors.Wrap err "invalid userID in from token subject"), w)
    | .ok userID =>
    match strconv.Atoi second with
    | .error err => (.error (errors.Wrap err "invalid userID in from token subject error"), w)
    | .ok roleID => (.ok (userID, roleID), w)
  | _ =>
    match errors.WrapNilable none "token subject content error" with
    | some err => (.error err, w)
    | none => (.ok (0, 0), w)

/-- The method `RefreshTokens` of the user service.  In the branch of an expired
session the code returns `errors.Wrap(err, "refresh token expired error")`, where
`err` is the nil error of `sessionRepo.Get`. -/
def RefreshTokens (env : Env) (w : World α) (tokenTtl : Nat) (refreshToken : String) :
    Except String (String × String) × World α :=
  match repository.Tokens.Get env w refreshToken with
  | (.error err, w) => (.error (errors.Wrap err "getting refresh session error"), w)
  | (.ok session, w) =>
  if session.ExpiresAt < env.clock 0 then
    match errors.WrapNilable none "refresh token expired error" with
    | some err => (.error err, w)
    | none => (.ok ("", ""), w)
  else
  match repository.Users.GetByID env w session.UserID with
  | (.error err, w) => (.error (errors.Wrap err "getting user by id error"), w)
  | (.ok user, w) =>
  match generateTokens env w tokenTtl 1 user with
  | (.error err, w) => (.error (errors.Wrap err "generating tokens error"), w)
  | (.ok tokens, w) => (.ok tokens, w)

/-- The method `UnblockUser` of the user service. -/
def UnblockUser (env : Env) (w : World α) (userID : Int) : Except String Unit × World α :=
  match repository.Users.UnblockUser env w userID with
  | (.error err, w) => (.error (errors.Wrap err "unblock user error"), w)
  | (.ok (), w) =>
  let event : domain.Event α :=
    { UserID := userID, Type_ := domain.UserUnblockedEvent,
      Message := "user unblocked successfully" }
  match repository.Event.CreateEvent env w event with
  | (.error err, w) => (.error (errors.Wrap err "user unblocking event unblocking error"), w)
  | (.ok (), w) => (.ok (), w)

/-- The method `CheckBlockUser` of the user service. -/
def CheckBlockUser (env : Env) (w : World α) (userID : Int) : Except String Bool × World α :=
  match repository.Users.CheckBlockUser env w userID with
  | (.error err, w) => (.error (errors.Wrap err "check block user error"), w)
  | (.ok checkBlock, w) => (.ok checkBlock, w)

end User

end service

end UserService

/-! ## Transport helpers (`internal/transport/rest/helpers.go`) -/

namespace rest

/-- The assignment `orderings[key] = value` on a map given by its entries: the
value of an existing key is replaced, a new key is added. -/
def assign (orderings : domain.Orderings) (key value : String) : domain.Orderings :=
  if orderings.any fun entry => entry.1 == key then
    orderings.map fun entry => if entry.1 == key then (key, value) else entry
  else orderings ++ [(key, value)]

/-- The loop `for _, fieldCondition := range fieldsCondition` of
`buildOrderingMessage` on the segments still to be visited. -/
def buildOrderingLoop (supportedFields : List String) :
    List String → domain.Orderings → Except String domain.Orderings
  | [], orderings => .ok orderings
  | fieldCondition :: fieldsCondition, orderings =>
    match strings.Split fieldCondition ':' with
    | [field, direction] =>
      let isSupportedField := supportedFields.any fun supported => field == supported
      if !isSupportedField then
        .error ("using unsupported ordering filter param [" ++ field ++ "]")
      else if direction = "asc" then
        buildOrderingLoop supportedFields fieldsCondition (assign orderings field "asc")
      else if direction = "desc" then
        buildOrderingLoop supportedFields fieldsCondition (assign orderings field "desc")
      else .error (errors.New "unsupported filtering direction")
    | _ => .error (errors.New "wrong ordering filter format")

/-- The function `buildOrderingMessage`; `none` is the nil map.  The entries of the
result are listed in the order of their first assignment; a later `range` over
the map may visit them in any order. -/
def buildOrderingMessage (input : String) (supportedFields : List String) :
    Except String (Option domain.Orderings) :=
  if input = "" then .ok none
  else
    match buildOrderingLoop supportedFields (strings.Split input '|') [] with
    | .error err => .error err
    | .ok orderings => .ok (some orderings)

end rest

/-! ## Further observations -/

/-- The store with the blocked flag of every account cleared.  Two stores differ
only in the blocked flag of some accounts exactly when clearing the flags gives
the same store. -/
def World.eraseBlocked {α : Type} (w : World α) : World α :=
  { w with accounts := w.accounts.map fun a => { a with Blocked := false } }

/-- The sum of all account balances. -/
def totalAmount {α : Type} [AddCommGroup α] (accounts : List (models.Account α)) : α :=
  (accounts.map fun a => a.Amount).sum

/-! ## The operations of the services -/

section Operations

variable {α : Type} [LinearOrderedAddCommGroup α]

/-- A call of a method of the account, card or user service, with its arguments;
`ibanGenerator`, `randomGenerator` and `tokenTtl` are the fields of the service
the method is called on. -/
inductive ServiceOp (α : Type)
  | AccountCreate (ibanGenerator : generator.Generator) (userID currencyID : Int)
  | GetAccountsList (userID : Int) (paginator : domain.Paginator)
      (ordering : Option domain.Orderings)
  | GetAccount (accountID userID : Int)
  | DeleteAccount (accountID : Int)
  | DepositAccount (accountID : Int) (amount : α)
  | TransferAccount (fromAccountID userID : Int) (amount : α) (toAccountIban : String)
  | BlockAccount (accountID userID : Int)
  | UnblockAccount (accountID userID : Int)
  | CreateCard (randomGenerator : generator.Generator) (accountID userID : Int)
  | GetCardListUser (userID : Int)
  | GetCardListByAccount (userID accountID : Int)
  | GetCard (cardID accountID userID : Int)
  | SignUp (inp : domain.SignUpInput)
  | SignIn (tokenTtl : Nat) (inp : domain.SignInInput)
  | ParseToken (token : String)
  | RefreshTokens (tokenTtl : Nat) (refreshToken : String)
  | BlockUser (blockUserID userID : Int)
  | UnblockUser (userID : Int)
  | CheckBlockUser (userID : Int)

/-- The store after a call of a service method, whatever the call returns. -/
def ServiceOp.run (env : Env) (w : World α) : ServiceOp α → World α
  | .AccountCreate ibanGenerator userID currencyID =>
    (service.Account.Create env w ibanGenerator userID currencyID).2
  | .GetAccountsList userID paginator ordering =>
    (service.Account.GetAccountsList env w userID paginator ordering).2
  | .GetAccount accountID userID => (service.Account.GetAccount env w accountID userID).2
  | .DeleteAccount accountID => (service.Account.DeleteAccount env w accountID).2
  | .DepositAccount accountID amount => (service.Account.DepositAccount env w accountID amount).2
  | .TransferAccount fromAccountID userID amount toAccountIban =>
    (service.Account.TransferAccount env w fromAccountID userID amount toAccountIban).2
  | .BlockAccount accountID userID => (service.Account.BlockAccount env w accountID userID).2
  | .UnblockAccount accountID userID => (service.Account.UnblockAccount env w accountID userID).2
  | .CreateCard randomGenerator accountID userID =>
    (service.Card.CreateCard env w randomGenerator accountID userID).2
  | .GetCardListUser userID => (service.Card.GetCardListUser env w userID).2
  | .GetCardListByAccount userID accountID =>
    (service.Card.GetCardListByAccount env w userID accountID).2
  | .GetCard cardID accountID userID => (service.Card.GetCard env w cardID accountID userID).2
  | .SignUp inp => (service.User.SignUp env w inp).2
  | .SignIn tokenTtl inp => (service.User.SignIn env w tokenTtl inp).2
  | .ParseToken token => (service.User.ParseToken env w token).2
  | .RefreshTokens tokenTtl refreshToken =>
    (service.User.RefreshTokens env w tokenTtl refreshToken).2
  | .BlockUser blockUserID userID => (service.User.BlockUser env w blockUserID userID).2
  | .UnblockUser userID => (service.User.UnblockUser env w userID).2
  | .CheckBlockUser userID => (service.User.CheckBlockUser env w userID).2

end Operations

/-! ## Interleaved transfers -/

section Interleaving

variable {α : Type} [LinearOrderedAddCommGroup α]

/-- The arguments of a call of `service.Account.TransferAccount`. -/
structure TransferArgs (α : Type) where
  fromAccountID : Int
  userID : Int
  amount : α
  toAccountIban : String
deriving DecidableEq, Repr

/-- The point a call of `service.Account.TransferAccount` has reached, with the
local values it still uses: one point before each repository call, and the
return. -/
inductive TransferPoint (α : Type)
  | start
  | haveFromCurrency (fromCurrency : Int)
  | currenciesMatch
  | enoughMoney
  | haveToAccountID (toAccountID : Int)
  | haveTransaction (toAccountID : Int) (transaction : domain.Transaction α)
  | transferred (toAccountID : Int) (transaction : domain.Transaction α)
  | statusSent (toAccountID : Int)
  | returned (result : Except String Unit)
deriving DecidableEq, Repr

/-- One step of a call of `service.Account.TransferAccount`: the next repository
call, on the store as it is at that moment, followed by the checks of the
service up to the next repository call.  The storage transaction of the
repository `TransferAccount` is taken as one step. -/
def TransferPoint.step (env : Env) (args : TransferArgs α) :
    TransferPoint α → World α → TransferPoint α × World α
  | .start, w =>
    match repository.Account.GetAccountCurrencyIDByID env w args.fromAccountID with
    | (.error err, w) =>
      (.returned (.error (errors.Wrap err "getting account currencyID by ID error")), w)
    | (.ok fromCurrency, w) => (.haveFromCurrency fromCurrency, w)
  | .haveFromCurrency fromCurrency, w =>
    match repository.Account.GetAccountCurrencyIDByIban env w args.toAccountIban with
    | (.error err, w) =>
      (.returned (.error (errors.Wrap err "getting account currencyID by iban error")), w)
    | (.ok toCurrency, w) =>
      if fromCurrency != toCurrency then
        (.returned (.error (errors.New "currency matching check error")), w)
      else (.currenciesMatch, w)
  | .currenciesMatch, w =>
    match repository.Account.GetAccountAmount env w args.fromAccountID args.userID with
    | (.error err, w) => (.returned (.error (errors.Wrap err "getting account amount error")), w)
    | (.ok enough, w) =>
      if enough < args.amount then
        (.returned
          (.error (errors.New "checking enough money in the account for the transfer error")), w)
      else (.enoughMoney, w)
  | .enoughMoney, w =>
    match repository.Account.GetAccountIDByIban env w args.toAccountIban with
    | (.error err, w) => (.returned (.error (errors.Wrap err "getting accountID by iban error")), w)
    | (.ok toAccountID, w) => (.haveToAccountID toAccountID, w)
  | .haveToAccountID toAccountID, w =>
    match repository.Transactions.CreateTransaction env w args.fromAccountID toAccountID
        args.amount with
    | (.error err, w) => (.returned (.error (errors.Wrap err "transaction created error")), w)
    | (.ok transaction, w) => (.haveTransaction toAccountID transaction, w)
  | .haveTransaction toAccountID transaction, w =>
    match repository.Account.TransferAccount env w args.fromAccountID args.userID args.amount
        args.toAccountIban with
    | (.error err, w) => (.returned (.error (errors.Wrap err "transfer to account error")), w)
    | (.ok (), w) => (.transferred toAccountID transaction, w)
  | .transferred toAccountID transaction, w =>
    match repository.Transactions.SetTransactionStatusToSent env w transaction.ID with
    | (.error err, w) =>
      (.returned (.error (errors.Wrap err "set transaction status to sent error")), w)
    | (.ok (), w) => (.statusSent toAccountID, w)
  | .statusSent toAccountID, w =>
    let event : domain.Event α :=
      { UserID := args.userID, Type_ := domain.WithdrawalEvent,
        Message := "money transfer successful",
        Metadata := [("from_account_id", .int args.fromAccountID),
          ("to_account_id", .int toAccountID), ("amount", .num args.amount)] }
    match repository.Event.CreateEvent env w event with
    | (.error err, w) =>
      (.returned (.error (errors.Wrap err "account transfer event withdrawal error")), w)
    | (.ok (), w) => (.returned (.ok ()), w)
  | .returned result, w => (.returned result, w)

/-- A call running alone: `n` steps in a row. -/
def TransferPoint.steps (env : Env) (args : TransferArgs α) :
    Nat → TransferPoint α × World α → TransferPoint α × World α
  | 0, s => s
  | n + 1, (point, w) => TransferPoint.steps env args n (TransferPoint.step env args point w)

/-- Two calls `a` and `b` of `service.Account.TransferAccount` on one store; the
schedule says which call makes the next step (`true` for `a`). -/
def interleave (envA envB : Env) (a b : TransferArgs α) :
    List Bool → TransferPoint α × TransferPoint α × World α →
      TransferPoint α × TransferPoint α × World α
  | [], s => s
  | true :: schedule, (pa, pb, w) =>
    match TransferPoint.step envA a pa w with
    | (pa, w) => interleave envA envB a b schedule (pa, pb, w)
  | false :: schedule, (pa, pb, w) =>
    match TransferPoint.step envB b pb w with
    | (pb, w) => interleave envA envB a b schedule (pa, pb, w)

end Interleaving

/-! ## Sample data -/

/-- An environment in which no statement fails and every statement sees time `t`. -/
def Env.calm (t : Nat) : Env := { fails := fun _ => false, now := fun _ => t }

/-- An environment in which exactly the statements of `bad` fail. -/
def Env.failing (bad : List Stmt) (t : Nat) : Env :=
  { fails := fun s => decide (s ∈ bad), now := fun _ => t }

/-- Two accounts of user 1 in currency 1 and one account of user 2 in currency 2,
with the two users. -/
def sampleWorld : World Int :=
  { accounts :=
      [ { ID := 1, Iban := "UA031234560000039096125330468", UserID := 1, CurrencyID := 1,
          Blocked := false, Amount := 100 },
        { ID := 2, Iban := "UA031234560000039096125330469", UserID := 1, CurrencyID := 1,
          Blocked := false, Amount := 50 },
        { ID := 3, Iban := "UA031234560000039096125330470", UserID := 2, CurrencyID := 2,
          Blocked := false, Amount := 50 } ],
    accountsSeq := 3,
    users :=
      [ { ID := 1, Name := "Ada", Surname := "Lovelace", Email := "ada@example.com",
          Password := "x", RoleId := 1, Blocked := false, RegisteredAt := 1 },
        { ID := 2, Name := "Alan", Surname := "Turing", Email := "alan@example.com",
          Password := "y", RoleId := 1, Blocked := false, RegisteredAt := 2 } ] }

/-- The generator built in `cmd/main.go`. -/
def sampleGenerator : generator.Generator := generator.NewGenerator "UA" "123456"

/-- A ledger with one PREPARED and one SENT transaction between the accounts of
the sample store. -/
def sampleLedger : World Int :=
  { sampleWorld with
    transactions :=
      [ { ID := 1, FromAccount := some 1, ToAccount := 2, Amount := 10, Status := "PREPARED",
          DateCreated := 3, DateUpdated := none },
        { ID := 2, FromAccount := none, ToAccount := 1, Amount := 20, Status := "SENT",
          DateCreated := 4, DateUpdated := some 5 } ],
    transactionsSeq := 2 }

/-- The sample store with one refresh session of user 1 that expires at time 100. -/
def sampleSessions : World Int :=
  { sampleWorld with
    sessions := [{ ID := 1, UserID := 1, Token := "refresh-1", ExpiresAt := 100 }],
    sessionsSeq := 1 }

/-- The event written by an accepted deposit of 5 to account 1, here with user 1. -/
def sampleEvent : domain.Event Int :=
  { UserID := 1, Type_ := domain.DepositEvent, Message := "deposit account successful",
    Metadata := [("account_id", .int 1), ("amount", .num 5)] }

/-- A transfer of 60 by user 1 from account 1 to the IBAN of account 2. -/
def sampleTransfer : TransferArgs Int :=
  { fromAccountID := 1, userID := 1, amount := 60,
    toAccountIban := "UA031234560000039096125330469" }

end Banking

/-! ## Lemmas that do not depend on the arithmetic of amounts -/

namespace Banking

section Frame

variable {α : Type}

/-! ### The statement log, lists and the schema invariant -/

@[simp] theorem World.log_accounts (w : World α) (s : Stmt) (b : Bool) :
    (w.log s b).accounts = w.accounts := rfl

@[simp] theorem World.log_transactions (w : World α) (s : Stmt) (b : Bool) :
    (w.log s b).transactions = w.transactions := rfl

@[simp] theorem World.log_events (w : World α) (s : Stmt) (b : Bool) :
    (w.log s b).events = w.events := rfl

@[simp] theorem World.log_transactionsSeq (w : World α) (s : Stmt) (b : Bool) :
    (w.log s b).transactionsSeq = w.transactionsSeq := rfl

@[simp] theorem World.log_eventSeq (w : World α) (s : Stmt) (b : Bool) :
    (w.log s b).eventSeq = w.eventSeq := rfl

@[simp] theorem World.log_trace (w : World α) (s : Stmt) (b : Bool) :
    (w.log s b).trace = w.trace ++ [(s, b)] := rfl

@[simp] theorem World.log_users (w : World α) (s : Stmt) (b : Bool) :
    (w.log s b).users = w.users := rfl

@[simp] theorem World.log_cards (w : World α) (s : Stmt) (b : Bool) :
    (w.log s b).cards = w.cards := rfl

@[simp] theorem World.log_accountsSeq (w : World α) (s : Stmt) (b : Bool) :
    (w.log s b).accountsSeq = w.accountsSeq := rfl

@[simp] theorem World.log_cardsSeq (w : World α) (s : Stmt) (b : Bool) :
    (w.log s b).cardsSeq = w.cardsSeq := rfl

@[simp] theorem World.log_sessions (w : World α) (s : Stmt) (b : Bool) :
    (w.log s b).sessions = w.sessions := rfl

@[simp] theorem World.log_roles (w : World α) (s : Stmt) (b : Bool) :
    (w.log s b).roles = w.roles := rfl

@[simp] theorem World.log_usersSeq (w : World α) (s : Stmt) (b : Bool) :
    (w.log s b).usersSeq = w.usersSeq := rfl

@[simp] theorem World.log_sessionsSeq (w : World α) (s : Stmt) (b : Bool) :
    (w.log s b).sessionsSeq = w.sessionsSeq := rfl

/-- Searching a list after a row-wise update that does not change the search
key finds the updated version of the row found before. -/
theorem find?_map_of_pres {β : Type} (p : β → Bool) (f : β → β) (hp : ∀ x, p (f x) = p x)
    (l : List β) : (l.map f).find? p = (l.find? p).map f := by
  induction l with
  | nil => rfl
  | cons x xs ih =>
    simp only [List.map_cons, List.find?_cons, hp]
    cases p x <;> simp [ih]

/-- In a table whose keys are pairwise distinct, looking up the key of a row
of the table finds that row. -/
theorem find?_key_of_mem {β κ : Type} [DecidableEq κ] (key : β → κ) (l : List β)
    (hnd : (l.map key).Nodup) (a : β) (ha : a ∈ l) :
    l.find? (fun x => key x == key a) = some a := by
  induction l with
  | nil => cases ha
  | cons x xs ih =>
    rw [List.map_cons, List.nodup_cons] at hnd
    rcases List.mem_cons.mp ha with rfl | hmem
    · simp
    · have hne : key x ≠ key a := by
        intro h
        exact hnd.1 (h ▸ List.mem_map_of_mem key hmem)
      simp [List.find?_cons, hne, ih hnd.2 hmem]

/-- Setting the status of the row just appended under a fresh id changes that
row only. -/
theorem updateStatus_append_fresh (transactions : List (models.Transaction α))
    (t : models.Transaction α) (status : String) (now : Nat)
    (hfresh : ∀ x ∈ transactions, x.ID < t.ID) :
    repository.Transactions.updateStatus (transactions ++ [t]) status now t.ID =
      transactions ++ [{ t with Status := status, DateUpdated := some now }] := by
  unfold repository.Transactions.updateStatus
  rw [List.map_append]
  congr 1
  · conv_rhs => rw [← List.map_id transactions]
    apply List.map_congr_left
    intro x hx
    have := hfresh x hx
    have hne : x.ID ≠ t.ID := ne_of_lt this
    simp [hne]
  · simp

/-- One ledger operation keeps every row at its position and changes at most its
status, from PREPARED to SENT, and its update time. -/
theorem LedgerOp.run_rows (env : Env) (w : World α) (op : LedgerOp α) (i : Nat)
    (t : models.Transaction α) (ht : w.transactions[i]? = some t) :
    ∃ t1, (op.run env w).transactions[i]? = some t1 ∧
      t1.ID = t.ID ∧ t1.FromAccount = t.FromAccount ∧ t1.ToAccount = t.ToAccount ∧
      t1.Amount = t.Amount ∧ t1.DateCreated = t.DateCreated ∧
      (t.Status = "SENT" → t1.Status = "SENT") ∧
      (t1.Status = "PREPARED" → t1 = t) := by
  cases op with
  | CreateTransaction src dst amount =>
    cases h : env.fails .CreateTransaction <;>
      simp only [LedgerOp.run, repository.Transactions.CreateTransaction, h, Bool.false_eq_true,
        ↓reduceIte, World.log_transactions]
    · refine ⟨t, ?_, rfl, rfl, rfl, rfl, rfl, id, fun _ => rfl⟩
      have hlt : i < w.transactions.length := (List.getElem?_eq_some_iff.mp ht).1
      simp only [List.getElem?_append_left hlt, ht]
    · exact ⟨t, ht, rfl, rfl, rfl, rfl, rfl, id, fun _ => rfl⟩
  | SetTransactionStatusToSent transactionID =>
    cases h : env.fails .SetTransactionStatusToSent <;>
      simp only [LedgerOp.run, repository.Transactions.SetTransactionStatusToSent, h,
        Bool.false_eq_true, ↓reduceIte, World.log_transactions]
    swap
    · exact ⟨t, ht, rfl, rfl, rfl, rfl, rfl, id, fun _ => rfl⟩
    · simp only [repository.Transactions.updateStatus, List.getElem?_map, ht, Option.map_some']
      refine ⟨_, rfl, ?_⟩
      split_ifs
      · refine ⟨rfl, rfl, rfl, rfl, rfl, fun _ => rfl, ?_⟩
        intro h
        simp [repository.transactionSentStatus] at h
      · exact ⟨rfl, rfl, rfl, rfl, rfl, id, fun _ => rfl⟩

/-- One ledger operation keeps every row in one of the two forms "PREPARED
without update time" and "SENT with update time". -/
theorem LedgerOp.run_coherent (env : Env) (w : World α) (op : LedgerOp α)
    (hco : ∀ t ∈ w.transactions, t.Coherent) :
    ∀ t ∈ (op.run env w).transactions, t.Coherent := by
  cases op with
  | CreateTransaction src dst amount =>
    cases h : env.fails .CreateTransaction <;>
      simp only [LedgerOp.run, repository.Transactions.CreateTransaction, h, Bool.false_eq_true,
        ↓reduceIte, World.log_transactions]
    swap
    · exact hco
    · intro t ht
      simp only [List.mem_append, List.mem_singleton] at ht
      rcases ht with ht | rfl
      · exact hco t ht
      · exact Or.inl ⟨rfl, rfl⟩
  | SetTransactionStatusToSent transactionID =>
    cases h : env.fails .SetTransactionStatusToSent <;>
      simp only [LedgerOp.run, repository.Transactions.SetTransactionStatusToSent, h,
        Bool.false_eq_true, ↓reduceIte, World.log_transactions]
    swap
    · exact hco
    · simp only [repository.Transactions.updateStatus, List.mem_map, forall_exists_index, and_imp]
      rintro _ t ht rfl
      split_ifs
      · exact Or.inr ⟨rfl, by simp⟩
      · exact hco t ht

/-- The schema invariant only looks at the keys of the accounts, the ids of the
transactions and the transaction id sequence. -/
theorem World.WF_of_keys (w w1 : World α) (hwf : w.WF)
    (hid : (w1.accounts.map fun a => a.ID) = w.accounts.map fun a => a.ID)
    (hiban : (w1.accounts.map fun a => a.Iban) = w.accounts.map fun a => a.Iban)
    (htx : ∀ t ∈ w1.transactions, t.ID ≤ w1.transactionsSeq) : w1.WF := by
  refine ⟨?_, ?_, htx⟩
  · rw [hid]; exact hwf.1
  · rw [hiban]; exact hwf.2.1

/-- Logging a statement keeps the schema invariant. -/
theorem World.log_WF (w : World α) (s : Stmt) (b : Bool) (hwf : w.WF) : (w.log s b).WF :=
  hwf

/-- A row-wise update of the balances keeps the ids and the IBANs. -/
theorem map_amount_keys (accounts : List (models.Account α)) (p : models.Account α → Bool)
    (f : α → α) :
    ((accounts.map fun a => if p a then { a with Amount := f a.Amount } else a).map
        fun a => a.ID) = accounts.map (fun a => a.ID) ∧
      ((accounts.map fun a => if p a then { a with Amount := f a.Amount } else a).map
        fun a => a.Iban) = accounts.map fun a => a.Iban := by
  constructor <;>
  · rw [List.map_map]
    apply List.map_congr_left
    intro a _
    simp only [Function.comp]
    split_ifs <;> rfl

/-- The lookup GetAccountIDByIban keeps the schema invariant. -/
theorem repository_GetAccountIDByIban_WF (env : Env) (w : World α) (iban : String)
    (hwf : w.WF) : (repository.Account.GetAccountIDByIban env w iban).2.WF := by
  unfold repository.Account.GetAccountIDByIban
  split_ifs
  · exact hwf
  · split <;> exact hwf

/-- The lookup GetAccountCurrencyIDByID keeps the schema invariant. -/
theorem repository_GetAccountCurrencyIDByID_WF (env : Env) (w : World α)
    (accountID : Int) (hwf : w.WF) :
    (repository.Account.GetAccountCurrencyIDByID env w accountID).2.WF := by
  unfold repository.Account.GetAccountCurrencyIDByID
  split_ifs
  · exact hwf
  · split <;> exact hwf

/-- The lookup GetAccountCurrencyIDByIban keeps the schema invariant. -/
theorem repository_GetAccountCurrencyIDByIban_WF (env : Env) (w : World α)
    (iban : String) (hwf : w.WF) :
    (repository.Account.GetAccountCurrencyIDByIban env w iban).2.WF := by
  unfold repository.Account.GetAccountCurrencyIDByIban
  split_ifs
  · exact hwf
  · split <;> exact hwf

/-- The lookup GetAccountAmount keeps the schema invariant. -/
theorem repository_GetAccountAmount_WF (env : Env) (w : World α)
    (accountID userID : Int) (hwf : w.WF) :
    (repository.Account.GetAccountAmount env w accountID userID).2.WF := by
  unfold repository.Account.GetAccountAmount
  split_ifs
  · exact hwf
  · split <;> exact hwf

/-- The existence check keeps the schema invariant. -/
theorem repository_ExistsAccount_WF (env : Env) (w : World α) (accountID : Int)
    (hwf : w.WF) : (repository.Account.ExistsAccount env w accountID).2.WF := by
  unfold repository.Account.ExistsAccount
  split_ifs <;> exact hwf

/-- The repository CreateTransaction keeps the schema invariant: the new row gets
the next value of the id sequence. -/
theorem repository_CreateTransaction_WF (env : Env) (w : World α)
    (fromAccountID toAccountID : Int) (amount : α) (hwf : w.WF) :
    (repository.Transactions.CreateTransaction env w fromAccountID toAccountID amount).2.WF := by
  unfold repository.Transactions.CreateTransaction
  cases h : env.fails .CreateTransaction <;> simp only [h, Bool.false_eq_true, ↓reduceIte]
  · refine World.WF_of_keys w _ hwf rfl rfl ?_
    intro t ht
    simp only [List.mem_append, List.mem_singleton] at ht
    rcases ht with ht | rfl
    · exact le_trans (hwf.2.2 t ht) (by simp)
    · exact le_refl _
  · exact hwf

/-- The repository SetTransactionStatusToSent keeps the schema invariant. -/
theorem repository_SetTransactionStatusToSent_WF (env : Env) (w : World α)
    (transactionID : Int) (hwf : w.WF) :
    (repository.Transactions.SetTransactionStatusToSent env w transactionID).2.WF := by
  unfold repository.Transactions.SetTransactionStatusToSent
  split_ifs
  · exact hwf
  · refine World.WF_of_keys w _ hwf rfl rfl ?_
    simp only [repository.Transactions.updateStatus, List.mem_map, forall_exists_index, and_imp,
      World.log_transactionsSeq]
    rintro _ t ht rfl
    split_ifs <;> exact hwf.2.2 t ht

/-- The repository CreateEvent keeps the schema invariant. -/
theorem repository_CreateEvent_WF (env : Env) (w : World α) (event : domain.Event α)
    (hwf : w.WF) : (repository.Event.CreateEvent env w event).2.WF := by
  unfold repository.Event.CreateEvent
  split_ifs <;> exact hwf

end Frame

section Service

variable {α : Type} [LinearOrderedAddCommGroup α]

/-! ### The schema invariant is kept by the repository and the service -/

/-- The repository DepositAccount keeps the schema invariant. -/
theorem repository_DepositAccount_WF (env : Env) (w : World α) (accountID : Int)
    (amount : α) (hwf : w.WF) :
    (repository.Account.DepositAccount env w accountID amount).2.WF := by
  unfold repository.Account.DepositAccount
  split_ifs
  · exact hwf
  · have h := map_amount_keys w.accounts (fun a => a.ID == accountID) (fun x => x + amount)
    exact World.WF_of_keys w _ hwf h.1 h.2 hwf.2.2

/-- The repository TransferAccount keeps the schema invariant. -/
theorem repository_TransferAccount_WF (env : Env) (w : World α)
    (fromAccountID userID : Int) (amount : α) (toAccountIban : String) (hwf : w.WF) :
    (repository.Account.TransferAccount env w fromAccountID userID amount toAccountIban).2.WF := by
  unfold repository.Account.TransferAccount
  have h1 := map_amount_keys w.accounts
    (fun a => a.ID == fromAccountID && a.UserID == userID) (fun x => x - amount)
  have h2 := map_amount_keys (repository.Account.debitByIDAndUser w.accounts amount
    fromAccountID userID) (fun a => a.Iban == toAccountIban) (fun x => x + amount)
  split_ifs
  all_goals first
    | exact hwf
    | exact World.WF_of_keys w _ hwf (h2.1.trans h1.1) (h2.2.trans h1.2) hwf.2.2

/-- The schema invariant is kept by DepositAccount, whatever its outcome. -/
theorem service_DepositAccount_WF (env : Env) (w : World α) (accountID : Int)
    (amount : α) (hwf : w.WF) : (service.Account.DepositAccount env w accountID amount).2.WF := by
  unfold service.Account.DepositAccount
  have w1 := repository_ExistsAccount_WF env w accountID hwf
  split <;> rename_i h1 <;> rw [h1] at w1
  · exact w1
  · exact w1
  rename_i wa
  have w2 := repository_CreateTransaction_WF env wa
    service.fromAccountIDForDeposit accountID amount w1
  split <;> rename_i h2 <;> rw [h2] at w2
  · exact w2
  rename_i tr wb
  have w3 := repository_DepositAccount_WF env wb accountID amount w2
  split <;> rename_i h3 <;> rw [h3] at w3
  · exact w3
  rename_i wc
  have w4 := repository_SetTransactionStatusToSent_WF env wc tr.ID w3
  split <;> rename_i h4 <;> rw [h4] at w4
  · exact w4
  rename_i wd
  dsimp only
  split <;> rename_i h5
  all_goals
    have h := congrArg Prod.snd h5
    dsimp only at h ⊢
    rw [← h]
    exact repository_CreateEvent_WF env wd _ w4

/-- The schema invariant is kept by TransferAccount, whatever its outcome. -/
theorem service_TransferAccount_WF (env : Env) (w : World α)
    (fromAccountID userID : Int) (amount : α) (toAccountIban : String) (hwf : w.WF) :
    (service.Account.TransferAccount env w fromAccountID userID amount toAccountIban).2.WF := by
  unfold service.Account.TransferAccount
  have w1 := repository_GetAccountCurrencyIDByID_WF env w fromAccountID hwf
  split <;> rename_i h1 <;> rw [h1] at w1
  · exact w1
  rename_i wa
  have w2 := repository_GetAccountCurrencyIDByIban_WF env wa toAccountIban w1
  split <;> rename_i h2 <;> rw [h2] at w2
  · exact w2
  rename_i wb
  split
  · exact w2
  have w3 := repository_GetAccountAmount_WF env wb fromAccountID userID w2
  split <;> rename_i h3 <;> rw [h3] at w3
  · exact w3
  rename_i wc
  split
  · exact w3
  have w4 := repository_GetAccountIDByIban_WF env wc toAccountIban w3
  split <;> rename_i h4 <;> rw [h4] at w4
  · exact w4
  rename_i toAccountID wd
  have w5 := repository_CreateTransaction_WF env wd fromAccountID toAccountID
    amount w4
  split <;> rename_i h5 <;> rw [h5] at w5
  · exact w5
  rename_i tr we
  have w6 := repository_TransferAccount_WF env we fromAccountID userID amount
    toAccountIban w5
  split <;> rename_i h6 <;> rw [h6] at w6
  · exact w6
  rename_i wf
  have w7 := repository_SetTransactionStatusToSent_WF env wf tr.ID w6
  split <;> rename_i h7 <;> rw [h7] at w7
  · exact w7
  rename_i wg
  dsimp only
  split <;> rename_i h8
  all_goals
    have h := congrArg Prod.snd h8
    dsimp only at h ⊢
    rw [← h]
    exact repository_CreateEvent_WF env wg _ w7

/-! ### Accepted calls and balances -/

/-- A transfer accepted by the service: every statement succeeded, the three
lookups found their rows, the currencies agree, the balance suffices, and the
final state is the one written out. -/
theorem TransferAccount_ok (env : Env) (w : World α) (fromAccountID userID : Int) (amount : α)
    (toAccountIban : String)
    (hok : (service.Account.TransferAccount env w fromAccountID userID amount toAccountIban).1
      = .ok ()) :
    ∃ a b c,
      w.accounts.find? (fun x => x.ID == fromAccountID && x.UserID == userID) = some a ∧
      w.accounts.find? (fun x => x.Iban == toAccountIban) = some b ∧
      w.accounts.find? (fun x => x.ID == fromAccountID) = some c ∧
      c.CurrencyID = b.CurrencyID ∧
      ¬ a.Amount < amount ∧
      (service.Account.TransferAccount env w fromAccountID userID amount toAccountIban).2 =
        { w with
          accounts := repository.Account.creditByIban
            (repository.Account.debitByIDAndUser w.accounts amount fromAccountID userID)
            amount toAccountIban,
          transactions := repository.Transactions.updateStatus
            (w.transactions ++
              [{ ID := w.transactionsSeq + 1,
                 FromAccount := if fromAccountID != 0 then some fromAccountID else none,
                 ToAccount := b.ID, Amount := amount,
                 Status := repository.transactionPreparedStatus,
                 DateCreated := env.now .CreateTransaction, DateUpdated := none }])
            repository.transactionSentStatus (env.now .SetTransactionStatusToSent)
            (w.transactionsSeq + 1),
          events := w.events ++
            [{ ID := w.eventSeq + 1, UserID := userID, Type_ := domain.WithdrawalEvent,
               Message := none,
               Metadata := [("from_account_id", .int fromAccountID),
                 ("to_account_id", .int b.ID), ("amount", .num amount)],
               DateTime := env.now .CreateEvent }],
          transactionsSeq := w.transactionsSeq + 1,
          eventSeq := w.eventSeq + 1,
          trace := w.trace ++
            [(.GetAccountCurrencyIDByID, true), (.GetAccountCurrencyIDByIban, true),
             (.GetAccountAmount, true), (.GetAccountIDByIban, true), (.CreateTransaction, true),
             (.TransferBegin, true), (.TransferDebit, true), (.TransferCredit, true),
             (.TransferCommit, true), (.SetTransactionStatusToSent, true),
             (.CreateEvent, true)] } := by
  generalize hr :
    service.Account.TransferAccount env w fromAccountID userID amount toAccountIban = r at hok ⊢
  unfold service.Account.TransferAccount at hr
  cases h1 : env.fails .GetAccountCurrencyIDByID <;>
    simp only [repository.Account.GetAccountCurrencyIDByID, h1, Bool.false_eq_true, ↓reduceIte,
      World.log_accounts] at hr
  swap
  · subst hr; simp at hok
  cases f1 : w.accounts.find? (fun x => x.ID == fromAccountID) <;> simp only [f1] at hr
  · subst hr; simp at hok
  rename_i c
  cases h2 : env.fails .GetAccountCurrencyIDByIban <;>
    simp only [repository.Account.GetAccountCurrencyIDByIban, h2, Bool.false_eq_true, ↓reduceIte,
      World.log_accounts] at hr
  swap
  · subst hr; simp at hok
  cases f2 : w.accounts.find? (fun x => x.Iban == toAccountIban) <;> simp only [f2] at hr
  · subst hr; simp at hok
  rename_i b
  by_cases hc : c.CurrencyID = b.CurrencyID
  swap
  · simp only [bne_iff_ne, ne_eq, hc, not_false_eq_true, ↓reduceIte] at hr
    subst hr; simp at hok
  simp only [bne_iff_ne, ne_eq, hc, not_true_eq_false, ↓reduceIte] at hr
  cases h3 : env.fails .GetAccountAmount <;>
    simp only [repository.Account.GetAccountAmount, h3, Bool.false_eq_true, ↓reduceIte,
      World.log_accounts] at hr
  swap
  · subst hr; simp at hok
  cases f3 : w.accounts.find? (fun x => x.ID == fromAccountID && x.UserID == userID) <;>
    simp only [f3] at hr
  · subst hr; simp at hok
  rename_i a
  by_cases hlt : a.Amount < amount
  · simp only [hlt, ↓reduceIte] at hr
    subst hr; simp at hok
  simp only [hlt, ↓reduceIte] at hr
  cases h4 : env.fails .GetAccountIDByIban <;>
    simp only [repository.Account.GetAccountIDByIban, h4, Bool.false_eq_true, ↓reduceIte,
      World.log_accounts, f2] at hr
  swap
  · subst hr; simp at hok
  cases h5 : env.fails .CreateTransaction <;>
    simp only [repository.Transactions.CreateTransaction, h5, Bool.false_eq_true, ↓reduceIte] at hr
  swap
  · subst hr; simp at hok
  cases h6 : env.fails .TransferBegin <;>
    simp only [repository.Account.TransferAccount, h6, Bool.false_eq_true, ↓reduceIte] at hr
  swap
  · subst hr; simp at hok
  cases h7 : env.fails .TransferDebit <;> simp only [h7, Bool.false_eq_true, ↓reduceIte] at hr
  swap
  · cases h7r : env.fails .TransferRollback <;>
      simp only [h7r, Bool.false_eq_true, ↓reduceIte] at hr <;> subst hr <;> simp at hok
  cases h8 : env.fails .TransferCredit <;> simp only [h8, Bool.false_eq_true, ↓reduceIte] at hr
  swap
  · cases h8r : env.fails .TransferRollback <;>
      simp only [h8r, Bool.false_eq_true, ↓reduceIte] at hr <;> subst hr <;> simp at hok
  cases h9 : env.fails .TransferCommit <;> simp only [h9, Bool.false_eq_true, ↓reduceIte] at hr
  swap
  · subst hr; simp at hok
  cases h10 : env.fails .SetTransactionStatusToSent <;>
    simp only [repository.Transactions.SetTransactionStatusToSent, h10, Bool.false_eq_true,
      ↓reduceIte] at hr
  swap
  · subst hr; simp at hok
  cases h11 : env.fails .CreateEvent <;>
    simp only [repository.Event.CreateEvent, h11, Bool.false_eq_true, ↓reduceIte] at hr
  swap
  · subst hr; simp at hok
  subst hr
  refine ⟨a, b, c, rfl, rfl, rfl, hc, hlt, ?_⟩
  simp [models.Transaction.ToDomain, World.log]

/-- A deposit accepted by the service: every statement succeeded, an account
with the given id exists, and the final state is the one written out. -/
theorem DepositAccount_ok (env : Env) (w : World α) (accountID : Int) (amount : α)
    (hok : (service.Account.DepositAccount env w accountID amount).1 = .ok ()) :
    (w.accounts.any fun a => a.ID == accountID) = true ∧
    (service.Account.DepositAccount env w accountID amount).2 =
      { w with
        accounts := repository.Account.creditByID w.accounts amount accountID,
        transactions := repository.Transactions.updateStatus
          (w.transactions ++
            [{ ID := w.transactionsSeq + 1, FromAccount := none, ToAccount := accountID,
               Amount := amount, Status := repository.transactionPreparedStatus,
               DateCreated := env.now .CreateTransaction, DateUpdated := none }])
          repository.transactionSentStatus (env.now .SetTransactionStatusToSent)
          (w.transactionsSeq + 1),
        events := w.events ++
          [{ ID := w.eventSeq + 1, UserID := 0, Type_ := domain.DepositEvent, Message := none,
             Metadata := [("account_id", .int accountID), ("amount", .num amount)],
             DateTime := env.now .CreateEvent }],
        transactionsSeq := w.transactionsSeq + 1,
        eventSeq := w.eventSeq + 1,
        trace := w.trace ++
          [(.ExistsAccount, true), (.CreateTransaction, true), (.DepositAccount, true),
           (.SetTransactionStatusToSent, true), (.CreateEvent, true)] } := by
  generalize hr : service.Account.DepositAccount env w accountID amount = r at hok ⊢
  unfold service.Account.DepositAccount at hr
  cases h1 : env.fails .ExistsAccount <;>
    simp only [repository.Account.ExistsAccount, h1, Bool.false_eq_true, ↓reduceIte] at hr
  swap
  · subst hr; simp at hok
  cases f1 : (w.accounts.any fun a => a.ID == accountID) <;> simp only [f1] at hr
  · subst hr; simp at hok
  cases h2 : env.fails .CreateTransaction <;>
    simp only [repository.Transactions.CreateTransaction, h2, Bool.false_eq_true, ↓reduceIte] at hr
  swap
  · subst hr; simp at hok
  cases h3 : env.fails .DepositAccount <;>
    simp only [repository.Account.DepositAccount, h3, Bool.false_eq_true, ↓reduceIte] at hr
  swap
  · subst hr; simp at hok
  cases h4 : env.fails .SetTransactionStatusToSent <;>
    simp only [repository.Transactions.SetTransactionStatusToSent, h4, Bool.false_eq_true,
      ↓reduceIte] at hr
  swap
  · subst hr; simp at hok
  cases h5 : env.fails .CreateEvent <;>
    simp only [repository.Event.CreateEvent, h5, Bool.false_eq_true, ↓reduceIte] at hr
  swap
  · subst hr; simp at hok
  subst hr
  refine ⟨rfl, ?_⟩
  simp [models.Transaction.ToDomain, World.log, service.fromAccountIDForDeposit]

/-- The balance of an account after the debit and the credit statement of a
transfer. -/
theorem balanceOf_transfer (accounts : List (models.Account α)) (amount : α)
    (fromAccountID userID : Int) (toAccountIban : String) (accountID : Int) :
    balanceOf (repository.Account.creditByIban
        (repository.Account.debitByIDAndUser accounts amount fromAccountID userID)
        amount toAccountIban) accountID =
      (accounts.find? fun a => a.ID == accountID).map fun a =>
        (if a.ID == fromAccountID && a.UserID == userID then a.Amount - amount else a.Amount) +
          (if a.Iban == toAccountIban then amount else 0) := by
  unfold balanceOf repository.Account.creditByIban repository.Account.debitByIDAndUser
  rw [List.map_map, find?_map_of_pres]
  · rw [Option.map_map]
    congr 1
    funext a
    simp only [Function.comp]
    split_ifs <;> simp_all
  · intro a
    simp only [Function.comp]
    split_ifs <;> rfl

/-- The balance of an account after the UPDATE statement of a deposit. -/
theorem balanceOf_creditByID (accounts : List (models.Account α)) (amount : α)
    (accountID id : Int) :
    balanceOf (repository.Account.creditByID accounts amount accountID) id =
      (accounts.find? fun a => a.ID == id).map fun a =>
        if a.ID == accountID then a.Amount + amount else a.Amount := by
  unfold balanceOf repository.Account.creditByID
  rw [find?_map_of_pres]
  · rw [Option.map_map]
    congr 1
    funext a
    simp only [Function.comp]
    split_ifs <;> rfl
  · intro a
    split_ifs <;> rfl

/-- Crediting a non-negative amount by id keeps non-negative balances non-negative. -/
theorem creditByID_nonneg (accounts : List (models.Account α)) (amount : α) (accountID : Int)
    (hnn : ∀ a ∈ accounts, 0 ≤ a.Amount) (hamount : 0 ≤ amount) :
    ∀ a ∈ repository.Account.creditByID accounts amount accountID, 0 ≤ a.Amount := by
  simp only [repository.Account.creditByID, List.mem_map, forall_exists_index, and_imp]
  rintro _ a ha rfl
  split_ifs
  · exact add_nonneg (hnn a ha) hamount
  · exact hnn a ha

/-- Crediting a non-negative amount by IBAN keeps non-negative balances non-negative. -/
theorem creditByIban_nonneg (accounts : List (models.Account α)) (amount : α) (iban : String)
    (hnn : ∀ a ∈ accounts, 0 ≤ a.Amount) (hamount : 0 ≤ amount) :
    ∀ a ∈ repository.Account.creditByIban accounts amount iban, 0 ≤ a.Amount := by
  simp only [repository.Account.creditByIban, List.mem_map, forall_exists_index, and_imp]
  rintro _ a ha rfl
  split_ifs
  · exact add_nonneg (hnn a ha) hamount
  · exact hnn a ha

/-- Debiting the only row of an id keeps balances non-negative when that row
holds at least the amount. -/
theorem debitByIDAndUser_nonneg (accounts : List (models.Account α)) (amount : α)
    (accountID userID : Int) (hnd : (accounts.map fun a => a.ID).Nodup)
    (hnn : ∀ a ∈ accounts, 0 ≤ a.Amount) (a0 : models.Account α)
    (fa : accounts.find? (fun x => x.ID == accountID && x.UserID == userID) = some a0)
    (hge : ¬ a0.Amount < amount) :
    ∀ a ∈ repository.Account.debitByIDAndUser accounts amount accountID userID,
      0 ≤ a.Amount := by
  simp only [repository.Account.debitByIDAndUser, List.mem_map, forall_exists_index, and_imp]
  rintro _ a ha rfl
  split_ifs with hm
  · have hida : a0.ID = accountID := by
      have := List.find?_some fa
      simp only [Bool.and_eq_true, beq_iff_eq] at this
      exact this.1
    have hid : a.ID = a0.ID := by
      simp only [Bool.and_eq_true, beq_iff_eq] at hm
      rw [hm.1, hida]
    have : a = a0 := List.inj_on_of_nodup_map hnd ha (List.mem_of_find?_eq_some fa) hid
    subst this
    exact sub_nonneg.mpr (not_lt.mp hge)
  · exact hnn a ha

/-! ### Claims on DepositAccount and TransferAccount (C1 to C7) -/

/-- C1 (amended).  In a store with pairwise distinct account ids and IBANs, a
transfer that returns no error and whose destination IBAN belongs to an account
other than the source leaves the source balance equal to its old value minus the
amount and the destination balance equal to its old value plus the amount; a
transfer to the IBAN of the source account itself leaves that balance as it was;
in both cases the sum of the two balances is unchanged. -/
theorem TransferAccount_moves_amount (env : Env) (w : World α) (hwf : w.WF)
    (fromAccountID userID : Int) (amount : α) (toAccountIban : String)
    (r : Except String Unit × World α)
    (hr : service.Account.TransferAccount env w fromAccountID userID amount toAccountIban = r)
    (hok : r.1 = .ok ()) :
    ∃ toAccountID src dst,
      (w.accounts.find? fun a => a.Iban == toAccountIban).map (fun a => a.ID) = some toAccountID ∧
      balanceOf w.accounts fromAccountID = some src ∧
      balanceOf w.accounts toAccountID = some dst ∧
      (toAccountID ≠ fromAccountID →
        balanceOf r.2.accounts fromAccountID = some (src - amount) ∧
        balanceOf r.2.accounts toAccountID = some (dst + amount)) ∧
      (toAccountID = fromAccountID → balanceOf r.2.accounts fromAccountID = some src) ∧
      ∃ src1 dst1,
        balanceOf r.2.accounts fromAccountID = some src1 ∧
        balanceOf r.2.accounts toAccountID = some dst1 ∧
        src1 + dst1 = src + dst := by
  subst hr
  obtain ⟨a, b, c, fa, fb, -, -, -, hw⟩ :=
    TransferAccount_ok env w fromAccountID userID amount toAccountIban hok
  rw [hw]
  simp only [balanceOf_transfer]
  obtain ⟨hida, hidu⟩ : a.ID = fromAccountID ∧ a.UserID = userID := by
    simpa using List.find?_some fa
  have hib : b.Iban = toAccountIban := by simpa using List.find?_some fb
  have ha := find?_key_of_mem (fun x : models.Account α => x.ID) w.accounts hwf.1 a
    (List.mem_of_find?_eq_some fa)
  have hb := find?_key_of_mem (fun x : models.Account α => x.ID) w.accounts hwf.1 b
    (List.mem_of_find?_eq_some fb)
  have hiban : a.Iban = b.Iban → a = b := fun h =>
    List.inj_on_of_nodup_map hwf.2.1 (List.mem_of_find?_eq_some fa)
      (List.mem_of_find?_eq_some fb) h
  simp only [hida] at ha
  refine ⟨b.ID, a.Amount, b.Amount, by simp [fb], by simp [balanceOf, ha],
    by simp [balanceOf, hb], ?_, ?_, ?_⟩
  · intro hne
    have h1 : a.Iban ≠ toAccountIban := fun h =>
      hne (by rw [← hiban (h.trans hib.symm)]; exact hida)
    simp [ha, hb, hida, hidu, hib, h1, hne]
  · intro heq
    have hab : a = b := by
      have := ha
      rw [← heq, hb] at this
      exact (Option.some.inj this).symm
    subst hab
    simp [ha, hida, hidu, hib]
  · by_cases heq : b.ID = fromAccountID
    · have hab : a = b := by
        have := ha
        rw [← heq, hb] at this
        exact (Option.some.inj this).symm
      subst hab
      refine ⟨a.Amount, a.Amount, ?_, ?_, rfl⟩ <;> simp [ha, hb, hida, hidu, hib]
    · have h1 : a.Iban ≠ toAccountIban := fun h =>
        heq (by rw [← hiban (h.trans hib.symm)]; exact hida)
      refine ⟨a.Amount - amount, b.Amount + amount, ?_, ?_, by abel⟩ <;>
        simp [ha, hb, hida, hidu, hib, h1, heq]

/-- C1, witness: a transfer of 60 from account 1 to account 2 in the sample store. -/
theorem TransferAccount_moves_amount_witness :
    sampleWorld.WF ∧
    (service.Account.TransferAccount (Env.calm 7) sampleWorld 1 1 60
      "UA031234560000039096125330469").1 = .ok () ∧
    ∃ toAccountID src dst,
      (sampleWorld.accounts.find? fun a => a.Iban == "UA031234560000039096125330469").map
        (fun a => a.ID) = some toAccountID ∧
      balanceOf sampleWorld.accounts 1 = some src ∧
      balanceOf sampleWorld.accounts toAccountID = some dst ∧
      (toAccountID ≠ 1 →
        balanceOf (service.Account.TransferAccount (Env.calm 7) sampleWorld 1 1 60
          "UA031234560000039096125330469").2.accounts 1 = some (src - 60) ∧
        balanceOf (service.Account.TransferAccount (Env.calm 7) sampleWorld 1 1 60
          "UA031234560000039096125330469").2.accounts toAccountID = some (dst + 60)) ∧
      (toAccountID = 1 →
        balanceOf (service.Account.TransferAccount (Env.calm 7) sampleWorld 1 1 60
          "UA031234560000039096125330469").2.accounts 1 = some src) ∧
      ∃ src1 dst1,
        balanceOf (service.Account.TransferAccount (Env.calm 7) sampleWorld 1 1 60
          "UA031234560000039096125330469").2.accounts 1 = some src1 ∧
        balanceOf (service.Account.TransferAccount (Env.calm 7) sampleWorld 1 1 60
          "UA031234560000039096125330469").2.accounts toAccountID = some dst1 ∧
        src1 + dst1 = src + dst :=
  ⟨by decide, by decide,
    TransferAccount_moves_amount (Env.calm 7) sampleWorld (by decide) 1 1 60
      "UA031234560000039096125330469" _ rfl (by decide)⟩

/-- C1, counterexample: a transfer of 60 from account 1 to its own IBAN is
accepted and leaves the balance at 100, not at 100 - 60. -/
theorem TransferAccount_self_transfer_keeps_balance :
    sampleWorld.WF ∧
    (service.Account.TransferAccount (Env.calm 7) sampleWorld 1 1 60
      "UA031234560000039096125330468").1 = .ok () ∧
    balanceOf sampleWorld.accounts 1 = some 100 ∧
    balanceOf (service.Account.TransferAccount (Env.calm 7) sampleWorld 1 1 60
      "UA031234560000039096125330468").2.accounts 1 = some 100 ∧
    balanceOf (service.Account.TransferAccount (Env.calm 7) sampleWorld 1 1 60
      "UA031234560000039096125330468").2.accounts 1 ≠ some (100 - 60) := by
  decide

/-- C2.  When the balance returned for the pair (source account id, caller) is
strictly less than the amount, TransferAccount returns an error, the tables of
accounts, transactions and events are unchanged, and the only statements
executed are the two currency lookups and the balance lookup: in particular
neither CreateTransaction nor SetTransactionStatusToSent nor CreateEvent nor a
statement of the storage transaction is executed. -/
theorem TransferAccount_insufficient_funds (env : Env) (w : World α)
    (fromAccountID userID : Int) (amount : α) (toAccountIban : String) (balance : α)
    (hbal : (w.accounts.find? fun a => a.ID == fromAccountID && a.UserID == userID).map
      (fun a => a.Amount) = some balance)
    (hlt : balance < amount)
    (r : Except String Unit × World α)
    (hr : service.Account.TransferAccount env w fromAccountID userID amount toAccountIban = r) :
    (∃ err, r.1 = .error err) ∧
    r.2.accounts = w.accounts ∧
    r.2.transactions = w.transactions ∧
    r.2.events = w.events ∧
    (∀ e ∈ executed w r.2,
      e.1 = .GetAccountCurrencyIDByID ∨ e.1 = .GetAccountCurrencyIDByIban ∨
        e.1 = .GetAccountAmount) ∧
    (∀ ok, (Stmt.CreateTransaction, ok) ∉ executed w r.2) ∧
    (∀ ok, (Stmt.SetTransactionStatusToSent, ok) ∉ executed w r.2) ∧
    (∀ ok, (Stmt.CreateEvent, ok) ∉ executed w r.2) := by
  obtain ⟨a, fa, hamt⟩ : ∃ a, w.accounts.find?
      (fun a => a.ID == fromAccountID && a.UserID == userID) = some a ∧ a.Amount = balance := by
    simpa [Option.map_eq_some'] using hbal
  unfold service.Account.TransferAccount at hr
  cases h1 : env.fails .GetAccountCurrencyIDByID <;>
    simp only [repository.Account.GetAccountCurrencyIDByID, h1, Bool.false_eq_true, ↓reduceIte,
      World.log_accounts] at hr
  swap
  · subst hr; simp [executed]
  cases f1 : w.accounts.find? (fun x => x.ID == fromAccountID) <;> simp only [f1] at hr
  · subst hr; simp [executed]
  rename_i c
  cases h2 : env.fails .GetAccountCurrencyIDByIban <;>
    simp only [repository.Account.GetAccountCurrencyIDByIban, h2, Bool.false_eq_true, ↓reduceIte,
      World.log_accounts] at hr
  swap
  · subst hr; simp [executed]
  cases f2 : w.accounts.find? (fun x => x.Iban == toAccountIban) <;> simp only [f2] at hr
  · subst hr; simp [executed]
  rename_i b
  by_cases hc : c.CurrencyID = b.CurrencyID
  swap
  · simp only [bne_iff_ne, ne_eq, hc, not_false_eq_true, ↓reduceIte] at hr
    subst hr; simp [executed]
  simp only [bne_iff_ne, ne_eq, hc, not_true_eq_false, ↓reduceIte] at hr
  cases h3 : env.fails .GetAccountAmount <;>
    simp only [repository.Account.GetAccountAmount, h3, Bool.false_eq_true, ↓reduceIte,
      World.log_accounts, fa, hamt, hlt] at hr
  all_goals subst hr; simp [executed]

/-- C2, witness: account 2 holds 50 and its owner asks to transfer 60 to
account 1, which has the same currency. -/
theorem TransferAccount_insufficient_funds_witness :
    (sampleWorld.accounts.find? fun a => a.ID == 2 && a.UserID == 1).map
      (fun a => a.Amount) = some 50 ∧
    (50 : Int) < 60 ∧
    (∃ err, (service.Account.TransferAccount (Env.calm 7) sampleWorld 2 1 60
      "UA031234560000039096125330468").1 = .error err) ∧
    (service.Account.TransferAccount (Env.calm 7) sampleWorld 2 1 60
      "UA031234560000039096125330468").2.accounts = sampleWorld.accounts ∧
    (service.Account.TransferAccount (Env.calm 7) sampleWorld 2 1 60
      "UA031234560000039096125330468").2.transactions = sampleWorld.transactions ∧
    (service.Account.TransferAccount (Env.calm 7) sampleWorld 2 1 60
      "UA031234560000039096125330468").2.events = sampleWorld.events ∧
    (∀ e ∈ executed sampleWorld (service.Account.TransferAccount (Env.calm 7) sampleWorld 2 1 60
        "UA031234560000039096125330468").2,
      e.1 = .GetAccountCurrencyIDByID ∨ e.1 = .GetAccountCurrencyIDByIban ∨
        e.1 = .GetAccountAmount) ∧
    (∀ ok, (Stmt.CreateTransaction, ok) ∉ executed sampleWorld
      (service.Account.TransferAccount (Env.calm 7) sampleWorld 2 1 60
        "UA031234560000039096125330468").2) ∧
    (∀ ok, (Stmt.SetTransactionStatusToSent, ok) ∉ executed sampleWorld
      (service.Account.TransferAccount (Env.calm 7) sampleWorld 2 1 60
        "UA031234560000039096125330468").2) ∧
    (∀ ok, (Stmt.CreateEvent, ok) ∉ executed sampleWorld
      (service.Account.TransferAccount (Env.calm 7) sampleWorld 2 1 60
        "UA031234560000039096125330468").2) :=
  ⟨by decide, by decide,
    TransferAccount_insufficient_funds (Env.calm 7) sampleWorld 2 1 60
      "UA031234560000039096125330468" 50 (by decide) (by decide) _ rfl⟩

/-- C3.  In a store in which every balance is non-negative, a DepositAccount or
TransferAccount call that returns no error leaves every balance non-negative.
The store is one of the schema (pairwise distinct account ids) and the amount is
one that reaches the service: the amount of a deposit or transfer "must be > 0,
validated upstream", and the request bodies of the transport layer bind it with
`gte=1`; the theorem covers every amount from 0 on. -/
theorem balances_stay_nonnegative (env : Env) (w : World α) (hwf : w.WF)
    (hnn : ∀ a ∈ w.accounts, 0 ≤ a.Amount) (amount : α) (hamount : 0 ≤ amount)
    (accountID fromAccountID userID : Int) (toAccountIban : String) :
    ((service.Account.DepositAccount env w accountID amount).1 = .ok () →
      ∀ a ∈ (service.Account.DepositAccount env w accountID amount).2.accounts, 0 ≤ a.Amount) ∧
    ((service.Account.TransferAccount env w fromAccountID userID amount toAccountIban).1 = .ok () →
      ∀ a ∈ (service.Account.TransferAccount env w fromAccountID userID amount
        toAccountIban).2.accounts, 0 ≤ a.Amount) := by
  constructor
  · intro hok
    rw [(DepositAccount_ok env w accountID amount hok).2]
    exact creditByID_nonneg w.accounts amount accountID hnn hamount
  · intro hok
    obtain ⟨a0, b, c, fa, -, -, -, hge, hw⟩ :=
      TransferAccount_ok env w fromAccountID userID amount toAccountIban hok
    rw [hw]
    exact creditByIban_nonneg _ amount toAccountIban
      (debitByIDAndUser_nonneg w.accounts amount fromAccountID userID hwf.1 hnn a0 fa hge) hamount

/-- C3, witness: a deposit of 60 into account 2 and a transfer of 60 from account
1 to account 2 in the sample store. -/
theorem balances_stay_nonnegative_witness :
    sampleWorld.WF ∧ (∀ a ∈ sampleWorld.accounts, 0 ≤ a.Amount) ∧ (0 : Int) ≤ 60 ∧
    (service.Account.DepositAccount (Env.calm 7) sampleWorld 2 60).1 = .ok () ∧
    (service.Account.TransferAccount (Env.calm 7) sampleWorld 1 1 60
      "UA031234560000039096125330469").1 = .ok () ∧
    (∀ a ∈ (service.Account.DepositAccount (Env.calm 7) sampleWorld 2 60).2.accounts,
      0 ≤ a.Amount) ∧
    (∀ a ∈ (service.Account.TransferAccount (Env.calm 7) sampleWorld 1 1 60
      "UA031234560000039096125330469").2.accounts, 0 ≤ a.Amount) :=
  ⟨by decide, by decide, by decide, by decide, by decide,
    (balances_stay_nonnegative (Env.calm 7) sampleWorld (by decide) (by decide) 60 (by decide)
      2 1 1 "UA031234560000039096125330469").1 (by decide),
    (balances_stay_nonnegative (Env.calm 7) sampleWorld (by decide) (by decide) 60 (by decide)
      2 1 1 "UA031234560000039096125330469").2 (by decide)⟩

/-- The bound on the amount is checked upstream of the service only: called
directly with an amount below zero, which no request of the transport layer
carries, the two methods do not look at the sign.  A deposit of -160 into
account 1, which holds 100, and a transfer of -60 from account 1 to account 2,
which holds 50, return nil. -/
theorem negative_amount_drives_balance_negative :
    sampleWorld.WF ∧ (∀ a ∈ sampleWorld.accounts, 0 ≤ a.Amount) ∧
    (service.Account.DepositAccount (Env.calm 7) sampleWorld 1 (-160)).1 = .ok () ∧
    balanceOf (service.Account.DepositAccount (Env.calm 7) sampleWorld 1 (-160)).2.accounts 1
      = some (-60) ∧
    ¬ (∀ a ∈ (service.Account.DepositAccount (Env.calm 7) sampleWorld 1 (-160)).2.accounts,
      0 ≤ a.Amount) ∧
    (service.Account.TransferAccount (Env.calm 7) sampleWorld 1 1 (-60)
      "UA031234560000039096125330469").1 = .ok () ∧
    balanceOf (service.Account.TransferAccount (Env.calm 7) sampleWorld 1 1 (-60)
      "UA031234560000039096125330469").2.accounts 2 = some (-10) ∧
    ¬ (∀ a ∈ (service.Account.TransferAccount (Env.calm 7) sampleWorld 1 1 (-60)
      "UA031234560000039096125330469").2.accounts, 0 ≤ a.Amount) := by
  decide

/-- C4.  When the account with the source id and the account with the
destination IBAN have different currency ids, TransferAccount returns an error
whatever the balance and the amount are; the three tables are unchanged, only
the two currency lookups are executed (GetAccountAmount is not), and when both
lookups succeed the error is the currency mismatch. -/
theorem TransferAccount_currency_mismatch (env : Env) (w : World α)
    (fromAccountID userID : Int) (amount : α) (toAccountIban : String)
    (src dst : models.Account α)
    (hsrc : w.accounts.find? (fun a => a.ID == fromAccountID) = some src)
    (hdst : w.accounts.find? (fun a => a.Iban == toAccountIban) = some dst)
    (hne : src.CurrencyID ≠ dst.CurrencyID)
    (r : Except String Unit × World α)
    (hr : service.Account.TransferAccount env w fromAccountID userID amount toAccountIban = r) :
    (∃ err, r.1 = .error err) ∧
    r.2.accounts = w.accounts ∧
    r.2.transactions = w.transactions ∧
    r.2.events = w.events ∧
    (∀ e ∈ executed w r.2,
      e.1 = .GetAccountCurrencyIDByID ∨ e.1 = .GetAccountCurrencyIDByIban) ∧
    (∀ ok, (Stmt.GetAccountAmount, ok) ∉ executed w r.2) ∧
    (env.fails .GetAccountCurrencyIDByID = false →
      env.fails .GetAccountCurrencyIDByIban = false →
      r.1 = .error "currency matching check error") := by
  unfold service.Account.TransferAccount at hr
  cases h1 : env.fails .GetAccountCurrencyIDByID <;>
    simp only [repository.Account.GetAccountCurrencyIDByID, h1, Bool.false_eq_true, ↓reduceIte,
      World.log_accounts, hsrc] at hr
  swap
  · subst hr; simp [executed]
  cases h2 : env.fails .GetAccountCurrencyIDByIban <;>
    simp only [repository.Account.GetAccountCurrencyIDByIban, h2, Bool.false_eq_true, ↓reduceIte,
      World.log_accounts, hdst] at hr
  swap
  · subst hr; simp [executed]
  simp only [bne_iff_ne, ne_eq, hne, not_false_eq_true, ↓reduceIte] at hr
  subst hr
  simp [executed, errors.New]

/-- C4, witness: account 1 has currency 1 and the IBAN of account 3 has
currency 2. -/
theorem TransferAccount_currency_mismatch_witness :
    sampleWorld.accounts.find? (fun a => a.ID == 1) =
      some { ID := 1, Iban := "UA031234560000039096125330468", UserID := 1, CurrencyID := 1,
             Blocked := false, Amount := 100 } ∧
    sampleWorld.accounts.find? (fun a => a.Iban == "UA031234560000039096125330470") =
      some { ID := 3, Iban := "UA031234560000039096125330470", UserID := 2, CurrencyID := 2,
             Blocked := false, Amount := 50 } ∧
    (1 : Int) ≠ 2 ∧
    (∃ err, (service.Account.TransferAccount (Env.calm 7) sampleWorld 1 1 60
      "UA031234560000039096125330470").1 = .error err) ∧
    (service.Account.TransferAccount (Env.calm 7) sampleWorld 1 1 60
      "UA031234560000039096125330470").2.accounts = sampleWorld.accounts ∧
    (service.Account.TransferAccount (Env.calm 7) sampleWorld 1 1 60
      "UA031234560000039096125330470").2.transactions = sampleWorld.transactions ∧
    (service.Account.TransferAccount (Env.calm 7) sampleWorld 1 1 60
      "UA031234560000039096125330470").2.events = sampleWorld.events ∧
    (∀ e ∈ executed sampleWorld (service.Account.TransferAccount (Env.calm 7) sampleWorld 1 1 60
        "UA031234560000039096125330470").2,
      e.1 = .GetAccountCurrencyIDByID ∨ e.1 = .GetAccountCurrencyIDByIban) ∧
    (∀ ok, (Stmt.GetAccountAmount, ok) ∉ executed sampleWorld
      (service.Account.TransferAccount (Env.calm 7) sampleWorld 1 1 60
        "UA031234560000039096125330470").2) ∧
    ((Env.calm 7).fails .GetAccountCurrencyIDByID = false →
      (Env.calm 7).fails .GetAccountCurrencyIDByIban = false →
      (service.Account.TransferAccount (Env.calm 7) sampleWorld 1 1 60
        "UA031234560000039096125330470").1 = .error "currency matching check error") :=
  ⟨by decide, by decide, by decide,
    TransferAccount_currency_mismatch (Env.calm 7) sampleWorld 1 1 60
      "UA031234560000039096125330470" _ _ rfl rfl (by decide) _ rfl⟩

/-- C5.  In a store that satisfies the schema invariant, a DepositAccount call
that returns no error leaves the balance of the
account equal to its old balance plus the amount, appends exactly one
transaction row (source NULL, which reads back as the sentinel id 0, the
account as destination, the amount, status SENT) and appends exactly one event
of type DEPOSIT whose metadata holds account_id and amount. -/
theorem DepositAccount_success (env : Env) (w : World α) (hwf : w.WF) (accountID : Int)
    (amount : α) (r : Except String Unit × World α)
    (hr : service.Account.DepositAccount env w accountID amount = r)
    (hok : r.1 = .ok ()) :
    ∃ balance t e,
      balanceOf w.accounts accountID = some balance ∧
      balanceOf r.2.accounts accountID = some (balance + amount) ∧
      r.2.transactions = w.transactions ++ [t] ∧
      t.FromAccount = none ∧ t.ToDomain.FromAccount = service.fromAccountIDForDeposit ∧
      t.ToAccount = accountID ∧ t.Amount = amount ∧ t.Status = "SENT" ∧
      r.2.events = w.events ++ [e] ∧
      e.Type_ = "DEPOSIT" ∧
      e.Metadata = [("account_id", .int accountID), ("amount", .num amount)] := by
  subst hr
  obtain ⟨hex, hw⟩ := DepositAccount_ok env w accountID amount hok
  obtain ⟨a, hmem, ha⟩ := List.any_eq_true.mp hex
  obtain ⟨a1, fa⟩ : ∃ a1, w.accounts.find? (fun x => x.ID == accountID) = some a1 := by
    cases hf : w.accounts.find? (fun x => x.ID == accountID) with
    | some a1 => exact ⟨a1, rfl⟩
    | none =>
      rw [List.find?_eq_none] at hf
      exact absurd ha (hf a hmem)
  have hid : a1.ID = accountID := by simpa using List.find?_some fa
  rw [hw]
  refine ⟨a1.Amount,
    { ID := w.transactionsSeq + 1, FromAccount := none, ToAccount := accountID,
      Amount := amount, Status := repository.transactionSentStatus,
      DateCreated := env.now .CreateTransaction,
      DateUpdated := some (env.now .SetTransactionStatusToSent) },
    { ID := w.eventSeq + 1, UserID := 0, Type_ := domain.DepositEvent, Message := none,
      Metadata := [("account_id", .int accountID), ("amount", .num amount)],
      DateTime := env.now .CreateEvent },
    by simp [balanceOf, fa], ?_, ?_, rfl, rfl, rfl, rfl, rfl, rfl, rfl, rfl⟩
  · simp [balanceOf_creditByID, fa, hid]
  · exact updateStatus_append_fresh w.transactions
      { ID := w.transactionsSeq + 1, FromAccount := none, ToAccount := accountID,
        Amount := amount, Status := repository.transactionPreparedStatus,
        DateCreated := env.now .CreateTransaction, DateUpdated := none }
      repository.transactionSentStatus (env.now .SetTransactionStatusToSent)
      (fun x hx => Int.lt_add_one_iff.mpr (hwf.2.2 x hx))

/-- C5, witness: a deposit of 100 into account 2 of the sample store. -/
theorem DepositAccount_success_witness :
    sampleWorld.WF ∧
    (service.Account.DepositAccount (Env.calm 7) sampleWorld 2 100).1 = .ok () ∧
    ∃ balance t e,
      balanceOf sampleWorld.accounts 2 = some balance ∧
      balanceOf (service.Account.DepositAccount (Env.calm 7) sampleWorld 2 100).2.accounts 2 =
        some (balance + 100) ∧
      (service.Account.DepositAccount (Env.calm 7) sampleWorld 2 100).2.transactions =
        sampleWorld.transactions ++ [t] ∧
      t.FromAccount = none ∧ t.ToDomain.FromAccount = service.fromAccountIDForDeposit ∧
      t.ToAccount = 2 ∧ t.Amount = 100 ∧ t.Status = "SENT" ∧
      (service.Account.DepositAccount (Env.calm 7) sampleWorld 2 100).2.events =
        sampleWorld.events ++ [e] ∧
      e.Type_ = "DEPOSIT" ∧
      e.Metadata = [("account_id", .int 2), ("amount", .num 100)] :=
  ⟨by decide, by decide,
    DepositAccount_success (Env.calm 7) sampleWorld (by decide) 2 100 _ rfl (by decide)⟩

/-- C6.  When ExistsAccount reports false for the account id, DepositAccount
returns the error "account does not exist error"; the three tables are
unchanged and no statement other than the existence check is executed. -/
theorem DepositAccount_account_missing (env : Env) (w : World α) (accountID : Int) (amount : α)
    (hex : (repository.Account.ExistsAccount env w accountID).1 = .ok false)
    (r : Except String Unit × World α)
    (hr : service.Account.DepositAccount env w accountID amount = r) :
    r.1 = .error "account does not exist error" ∧
    r.2.accounts = w.accounts ∧
    r.2.transactions = w.transactions ∧
    r.2.events = w.events ∧
    executed w r.2 = [(.ExistsAccount, true)] := by
  unfold service.Account.DepositAccount at hr
  unfold repository.Account.ExistsAccount at hex hr
  cases h1 : env.fails .ExistsAccount <;>
    simp only [h1, Bool.false_eq_true, ↓reduceIte] at hr hex
  swap
  · simp at hex
  cases f1 : (w.accounts.any fun a => a.ID == accountID) <;> simp only [f1] at hr hex
  swap
  · simp at hex
  subst hr
  simp [executed, errors.New]

/-- C6, witness: the sample store has no account 9. -/
theorem DepositAccount_account_missing_witness :
    (repository.Account.ExistsAccount (Env.calm 7) sampleWorld 9).1 = .ok false ∧
    (service.Account.DepositAccount (Env.calm 7) sampleWorld 9 100).1 =
      .error "account does not exist error" ∧
    (service.Account.DepositAccount (Env.calm 7) sampleWorld 9 100).2.accounts =
      sampleWorld.accounts ∧
    (service.Account.DepositAccount (Env.calm 7) sampleWorld 9 100).2.transactions =
      sampleWorld.transactions ∧
    (service.Account.DepositAccount (Env.calm 7) sampleWorld 9 100).2.events =
      sampleWorld.events ∧
    executed sampleWorld (service.Account.DepositAccount (Env.calm 7) sampleWorld 9 100).2 =
      [(.ExistsAccount, true)] :=
  ⟨by decide,
    DepositAccount_account_missing (Env.calm 7) sampleWorld 9 100 (by decide) _ rfl⟩

/-- C7.  (1) CreateTransaction inserts the row with status PREPARED and no update
time.  (2) In DepositAccount, when the balance UPDATE is attempted the existence
check and a successful CreateTransaction come first; the status is set to SENT
only after the UPDATE succeeded; and when the UPDATE fails the call returns an
error, the balances are unchanged and the one new row is PREPARED with no update
time.  (3) The same holds in TransferAccount for the storage transaction of the
repository TransferAccount: it begins only after the four lookups and a
successful CreateTransaction, SENT is set only after Commit succeeded, and when
Begin, the debit, the credit or Commit fails the call returns an error, the
balances are unchanged and the one new row is PREPARED with no update time. -/
theorem transaction_prepared_before_mutation (env : Env) (w : World α)
    (accountID fromAccountID userID : Int) (amount : α) (toAccountIban : String) :
    (∀ src dst t, (repository.Transactions.CreateTransaction env w src dst amount).1 = .ok t →
      ∃ row, (repository.Transactions.CreateTransaction env w src dst amount).2.transactions =
          w.transactions ++ [row] ∧
        row.Status = "PREPARED" ∧ row.DateUpdated = none ∧ row.ToDomain = t) ∧
    ((∀ ok, (Stmt.DepositAccount, ok) ∈
          executed w (service.Account.DepositAccount env w accountID amount).2 →
        (executed w (service.Account.DepositAccount env w accountID amount).2).take 3 =
          [(.ExistsAccount, true), (.CreateTransaction, true), (.DepositAccount, ok)]) ∧
      (∀ ok, (Stmt.SetTransactionStatusToSent, ok) ∈
          executed w (service.Account.DepositAccount env w accountID amount).2 →
        (Stmt.DepositAccount, true) ∈
          executed w (service.Account.DepositAccount env w accountID amount).2) ∧
      ((Stmt.DepositAccount, false) ∈
          executed w (service.Account.DepositAccount env w accountID amount).2 →
        (∃ err, (service.Account.DepositAccount env w accountID amount).1 = .error err) ∧
        (service.Account.DepositAccount env w accountID amount).2.accounts = w.accounts ∧
        ∃ row, (service.Account.DepositAccount env w accountID amount).2.transactions =
            w.transactions ++ [row] ∧
          row.ToAccount = accountID ∧ row.Status = "PREPARED" ∧ row.DateUpdated = none)) ∧
    ((∀ ok, (Stmt.TransferBegin, ok) ∈
          executed w (service.Account.TransferAccount env w fromAccountID userID amount
            toAccountIban).2 →
        (executed w (service.Account.TransferAccount env w fromAccountID userID amount
            toAccountIban).2).take 6 =
          [(.GetAccountCurrencyIDByID, true), (.GetAccountCurrencyIDByIban, true),
           (.GetAccountAmount, true), (.GetAccountIDByIban, true), (.CreateTransaction, true),
           (.TransferBegin, ok)]) ∧
      (∀ ok, (Stmt.SetTransactionStatusToSent, ok) ∈
          executed w (service.Account.TransferAccount env w fromAccountID userID amount
            toAccountIban).2 →
        (Stmt.TransferCommit, true) ∈
          executed w (service.Account.TransferAccount env w fromAccountID userID amount
            toAccountIban).2) ∧
      (∀ s, s = Stmt.TransferBegin ∨ s = Stmt.TransferDebit ∨ s = Stmt.TransferCredit ∨
          s = Stmt.TransferCommit →
        (s, false) ∈
          executed w (service.Account.TransferAccount env w fromAccountID userID amount
            toAccountIban).2 →
        (∃ err, (service.Account.TransferAccount env w fromAccountID userID amount
          toAccountIban).1 = .error err) ∧
        (service.Account.TransferAccount env w fromAccountID userID amount
          toAccountIban).2.accounts = w.accounts ∧
        ∃ row, (service.Account.TransferAccount env w fromAccountID userID amount
            toAccountIban).2.transactions = w.transactions ++ [row] ∧
          row.ToDomain.FromAccount = fromAccountID ∧ row.Status = "PREPARED" ∧
          row.DateUpdated = none)) := by
  refine ⟨?_, ?_, ?_⟩
  · intro src dst t h
    unfold repository.Transactions.CreateTransaction at h ⊢
    cases h1 : env.fails .CreateTransaction <;>
      simp only [h1, Bool.false_eq_true, ↓reduceIte] at h ⊢
    · simp only [Except.ok.injEq] at h
      exact ⟨_, rfl, rfl, rfl, h⟩
    · simp at h
  · generalize hr : service.Account.DepositAccount env w accountID amount = r
    unfold service.Account.DepositAccount at hr
    cases h1 : env.fails .ExistsAccount <;>
      simp only [repository.Account.ExistsAccount, h1, Bool.false_eq_true, ↓reduceIte] at hr
    swap
    · subst hr; simp [executed]
    cases f1 : (w.accounts.any fun a => a.ID == accountID) <;> simp only [f1] at hr
    · subst hr; simp [executed]
    cases h2 : env.fails .CreateTransaction <;>
      simp only [repository.Transactions.CreateTransaction, h2, Bool.false_eq_true,
        ↓reduceIte] at hr
    swap
    · subst hr; simp [executed]
    cases h3 : env.fails .DepositAccount <;>
      simp only [repository.Account.DepositAccount, h3, Bool.false_eq_true, ↓reduceIte] at hr
    swap
    · subst hr
      simp [executed, repository.transactionPreparedStatus, service.fromAccountIDForDeposit]
    cases h4 : env.fails .SetTransactionStatusToSent <;>
      simp only [repository.Transactions.SetTransactionStatusToSent, h4, Bool.false_eq_true,
        ↓reduceIte] at hr
    swap
    · subst hr; simp [executed]
    cases h5 : env.fails .CreateEvent <;>
      simp only [repository.Event.CreateEvent, h5, Bool.false_eq_true, ↓reduceIte] at hr
    all_goals subst hr; simp [executed]
  · generalize hr :
      service.Account.TransferAccount env w fromAccountID userID amount toAccountIban = r
    unfold service.Account.TransferAccount at hr
    cases h1 : env.fails .GetAccountCurrencyIDByID <;>
      simp only [repository.Account.GetAccountCurrencyIDByID, h1, Bool.false_eq_true,
        ↓reduceIte, World.log_accounts] at hr
    swap
    · subst hr; simp [executed]
    cases f1 : w.accounts.find? (fun x => x.ID == fromAccountID) <;> simp only [f1] at hr
    · subst hr; simp [executed]
    rename_i c
    cases h2 : env.fails .GetAccountCurrencyIDByIban <;>
      simp only [repository.Account.GetAccountCurrencyIDByIban, h2, Bool.false_eq_true,
        ↓reduceIte, World.log_accounts] at hr
    swap
    · subst hr; simp [executed]
    cases f2 : w.accounts.find? (fun x => x.Iban == toAccountIban) <;> simp only [f2] at hr
    · subst hr; simp [executed]
    rename_i b
    by_cases hc : c.CurrencyID = b.CurrencyID
    swap
    · simp only [bne_iff_ne, ne_eq, hc, not_false_eq_true, ↓reduceIte] at hr
      subst hr; simp [executed]
    simp only [bne_iff_ne, ne_eq, hc, not_true_eq_false, ↓reduceIte] at hr
    cases h3 : env.fails .GetAccountAmount <;>
      simp only [repository.Account.GetAccountAmount, h3, Bool.false_eq_true, ↓reduceIte,
        World.log_accounts] at hr
    swap
    · subst hr; simp [executed]
    cases f3 : w.accounts.find? (fun x => x.ID == fromAccountID && x.UserID == userID) <;>
      simp only [f3] at hr
    · subst hr; simp [executed]
    rename_i a
    by_cases hlt : a.Amount < amount
    · simp only [hlt, ↓reduceIte] at hr
      subst hr; simp [executed]
    simp only [hlt, ↓reduceIte] at hr
    cases h4 : env.fails .GetAccountIDByIban <;>
      simp only [repository.Account.GetAccountIDByIban, h4, Bool.false_eq_true, ↓reduceIte,
        World.log_accounts, f2] at hr
    swap
    · subst hr; simp [executed]
    cases h5 : env.fails .CreateTransaction <;>
      simp only [repository.Transactions.CreateTransaction, h5, Bool.false_eq_true,
        ↓reduceIte] at hr
    swap
    · subst hr; simp [executed]
    cases h6 : env.fails .TransferBegin <;>
      simp only [repository.Account.TransferAccount, h6, Bool.false_eq_true, ↓reduceIte] at hr
    swap
    · subst hr
      simp [executed, repository.transactionPreparedStatus]
      by_cases h0 : fromAccountID = 0 <;> simp [models.Transaction.ToDomain, h0]
    cases h7 : env.fails .TransferDebit <;> simp only [h7, Bool.false_eq_true, ↓reduceIte] at hr
    swap
    · cases h7r : env.fails .TransferRollback <;>
        simp only [h7r, Bool.false_eq_true, ↓reduceIte] at hr <;> subst hr <;>
        simp [executed, repository.transactionPreparedStatus] <;>
        by_cases h0 : fromAccountID = 0 <;> simp [models.Transaction.ToDomain, h0]
    cases h8 : env.fails .TransferCredit <;> simp only [h8, Bool.false_eq_true, ↓reduceIte] at hr
    swap
    · cases h8r : env.fails .TransferRollback <;>
        simp only [h8r, Bool.false_eq_true, ↓reduceIte] at hr <;> subst hr <;>
        simp [executed, repository.transactionPreparedStatus] <;>
        by_cases h0 : fromAccountID = 0 <;> simp [models.Transaction.ToDomain, h0]
    cases h9 : env.fails .TransferCommit <;> simp only [h9, Bool.false_eq_true, ↓reduceIte] at hr
    swap
    · subst hr
      simp [executed, repository.transactionPreparedStatus]
      by_cases h0 : fromAccountID = 0 <;> simp [models.Transaction.ToDomain, h0]
    cases h10 : env.fails .SetTransactionStatusToSent <;>
      simp only [repository.Transactions.SetTransactionStatusToSent, h10, Bool.false_eq_true,
        ↓reduceIte] at hr
    swap
    · subst hr; simp [executed]
    cases h11 : env.fails .CreateEvent <;>
      simp only [repository.Event.CreateEvent, h11, Bool.false_eq_true, ↓reduceIte] at hr
    all_goals subst hr; simp [executed]

/-- C7, witness: in the sample store a deposit whose UPDATE is rejected and a
transfer whose credit statement is rejected each leave one PREPARED row and
return an error. -/
theorem transaction_prepared_before_mutation_witness :
    (Stmt.DepositAccount, false) ∈ executed sampleWorld
      (service.Account.DepositAccount (Env.failing [.DepositAccount] 7) sampleWorld 2 100).2 ∧
    ((∃ err, (service.Account.DepositAccount (Env.failing [.DepositAccount] 7) sampleWorld
        2 100).1 = .error err) ∧
      (service.Account.DepositAccount (Env.failing [.DepositAccount] 7) sampleWorld
        2 100).2.accounts = sampleWorld.accounts ∧
      ∃ row, (service.Account.DepositAccount (Env.failing [.DepositAccount] 7) sampleWorld
          2 100).2.transactions = sampleWorld.transactions ++ [row] ∧
        row.ToAccount = 2 ∧ row.Status = "PREPARED" ∧ row.DateUpdated = none) ∧
    (Stmt.TransferCredit, false) ∈ executed sampleWorld
      (service.Account.TransferAccount (Env.failing [.TransferCredit] 7) sampleWorld 1 1 60
        "UA031234560000039096125330469").2 ∧
    ((∃ err, (service.Account.TransferAccount (Env.failing [.TransferCredit] 7) sampleWorld 1 1 60
        "UA031234560000039096125330469").1 = .error err) ∧
      (service.Account.TransferAccount (Env.failing [.TransferCredit] 7) sampleWorld 1 1 60
        "UA031234560000039096125330469").2.accounts = sampleWorld.accounts ∧
      ∃ row, (service.Account.TransferAccount (Env.failing [.TransferCredit] 7) sampleWorld 1 1 60
          "UA031234560000039096125330469").2.transactions = sampleWorld.transactions ++ [row] ∧
        row.ToDomain.FromAccount = 1 ∧ row.Status = "PREPARED" ∧ row.DateUpdated = none) :=
  ⟨by decide,
    (transaction_prepared_before_mutation (Env.failing [.DepositAccount] 7) sampleWorld 2 1 1
      100 "UA031234560000039096125330469").2.1.2.2 (by decide),
    by decide,
    (transaction_prepared_before_mutation (Env.failing [.TransferCredit] 7) sampleWorld 2 1 1
      60 "UA031234560000039096125330469").2.2.2.2 .TransferCredit
      (Or.inr (Or.inr (Or.inl rfl))) (by decide)⟩

end Service

section Ledger

variable {α : Type}

/-! ### Claim on the transaction ledger (C8) -/

/-- C8 (amended).  Over every sequence of CreateTransaction and
SetTransactionStatusToSent operations, started in a ledger whose rows are each
either PREPARED without update time or SENT with an update time: every row stays
in one of these two forms (so the update time is null while the status is
PREPARED), every row keeps its position, id, source, destination, amount and
creation time, a SENT row stays SENT, and a row that is still PREPARED has not
changed at all; a further SetTransactionStatusToSent that succeeds writes the
status SENT and the time of that call into every row with the given id,
whatever the status of the row was. -/
theorem ledger_status_monotone (ops : List (Env × LedgerOp α)) (w : World α)
    (hco : ∀ t ∈ w.transactions, t.Coherent) :
    (∀ t ∈ (runLedger w ops).transactions, t.Coherent) ∧
    (∀ (i : Nat) (t : models.Transaction α), w.transactions[i]? = some t →
      ∃ t1, (runLedger w ops).transactions[i]? = some t1 ∧
        t1.ID = t.ID ∧ t1.FromAccount = t.FromAccount ∧ t1.ToAccount = t.ToAccount ∧
        t1.Amount = t.Amount ∧ t1.DateCreated = t.DateCreated ∧
        (t.Status = "SENT" → t1.Status = "SENT") ∧
        (t1.Status = "PREPARED" → t1 = t)) ∧
    ∀ (env : Env) (i : Nat) (t : models.Transaction α),
      env.fails .SetTransactionStatusToSent = false →
      (runLedger w ops).transactions[i]? = some t →
      ∃ t1, ((LedgerOp.SetTransactionStatusToSent t.ID).run env
          (runLedger w ops)).transactions[i]? = some t1 ∧
        t1.Status = "SENT" ∧ t1.DateUpdated = some (env.now .SetTransactionStatusToSent) := by
  refine ⟨?_, ?_, ?_⟩
  rotate_left 2
  · intro env i t hf ht
    simp only [LedgerOp.run, repository.Transactions.SetTransactionStatusToSent, hf,
      Bool.false_eq_true, ↓reduceIte, repository.Transactions.updateStatus, List.getElem?_map, ht,
      Option.map_some', beq_self_eq_true]
    exact ⟨_, rfl, rfl, rfl⟩
  · induction ops generalizing w with
    | nil => exact hco
    | cons eo ops ih => exact ih (eo.2.run eo.1 w) (LedgerOp.run_coherent eo.1 w eo.2 hco)
  · induction ops generalizing w with
    | nil => exact fun i t ht => ⟨t, ht, rfl, rfl, rfl, rfl, rfl, id, fun _ => rfl⟩
    | cons eo ops ih =>
      intro i t ht
      obtain ⟨t1, ht1, a1, a2, a3, a4, a5, a6, a7⟩ := LedgerOp.run_rows eo.1 w eo.2 i t ht
      obtain ⟨t2, ht2, b1, b2, b3, b4, b5, b6, b7⟩ :=
        ih (eo.2.run eo.1 w) (LedgerOp.run_coherent eo.1 w eo.2 hco) i t1 ht1
      refine ⟨t2, ht2, b1.trans a1, b2.trans a2, b3.trans a3, b4.trans a4, b5.trans a5,
        fun h => b6 (a6 h), ?_⟩
      intro h
      have h21 := b7 h
      subst h21
      exact a7 h

/-- C8, witness: the sample ledger, on which the PREPARED transaction 1 is set to
SENT at time 8 and a new transaction is created at time 9. -/
theorem ledger_status_monotone_witness :
    (∀ t ∈ sampleLedger.transactions, t.Coherent) ∧
    (∀ t ∈ (runLedger sampleLedger
        [(Env.calm 8, .SetTransactionStatusToSent 1),
         (Env.calm 9, .CreateTransaction 1 2 60)]).transactions, t.Coherent) ∧
    (∀ (i : Nat) (t : models.Transaction Int), sampleLedger.transactions[i]? = some t →
      ∃ t1, (runLedger sampleLedger
          [(Env.calm 8, .SetTransactionStatusToSent 1),
           (Env.calm 9, .CreateTransaction 1 2 60)]).transactions[i]? = some t1 ∧
        t1.ID = t.ID ∧ t1.FromAccount = t.FromAccount ∧ t1.ToAccount = t.ToAccount ∧
        t1.Amount = t.Amount ∧ t1.DateCreated = t.DateCreated ∧
        (t.Status = "SENT" → t1.Status = "SENT") ∧
        (t1.Status = "PREPARED" → t1 = t)) ∧
    ∀ (env : Env) (i : Nat) (t : models.Transaction Int),
      env.fails .SetTransactionStatusToSent = false →
      (runLedger sampleLedger
        [(Env.calm 8, .SetTransactionStatusToSent 1),
         (Env.calm 9, .CreateTransaction 1 2 60)]).transactions[i]? = some t →
      ∃ t1, ((LedgerOp.SetTransactionStatusToSent t.ID).run env
          (runLedger sampleLedger
            [(Env.calm 8, .SetTransactionStatusToSent 1),
             (Env.calm 9, .CreateTransaction 1 2 60)])).transactions[i]? = some t1 ∧
        t1.Status = "SENT" ∧ t1.DateUpdated = some (env.now .SetTransactionStatusToSent) :=
  ⟨by decide,
    ledger_status_monotone
      [(Env.calm 8, .SetTransactionStatusToSent 1), (Env.calm 9, .CreateTransaction 1 2 60)]
      sampleLedger (by decide)⟩

/-- C8, counterexample: a transaction is created at time 1 and set to SENT at
time 2; a second SetTransactionStatusToSent at time 3, on the transaction that is
already SENT, changes its update time from 2 to 3. -/
theorem SetTransactionStatusToSent_restamps_sent_row :
    (runLedger ({} : World Int)
      [(Env.calm 1, .CreateTransaction 1 2 60),
       (Env.calm 2, .SetTransactionStatusToSent 1)]).transactions =
      [{ ID := 1, FromAccount := some 1, ToAccount := 2, Amount := 60, Status := "SENT",
         DateCreated := 1, DateUpdated := some 2 }] ∧
    (runLedger ({} : World Int)
      [(Env.calm 1, .CreateTransaction 1 2 60),
       (Env.calm 2, .SetTransactionStatusToSent 1),
       (Env.calm 3, .SetTransactionStatusToSent 1)]).transactions =
      [{ ID := 1, FromAccount := some 1, ToAccount := 2, Amount := 60, Status := "SENT",
         DateCreated := 1, DateUpdated := some 3 }] := by
  decide

end Ledger

section Outcome

variable {α : Type} [LinearOrderedAddCommGroup α]

/-! ### Claims on the accepted transfer and on the storage transaction (C9, C10) -/

/-- C9.  In a store that satisfies the schema invariant, a TransferAccount call
that returns no error appends exactly one
transaction row, whose source reads back as the source account id (the column
holds that id unless the id is 0, which is stored as NULL), whose destination
is the id of the account with the destination IBAN, with the given amount and
status SENT, and appends exactly one event of type WITHDRAWAL with the caller as
user and the two account ids and the amount as metadata. -/
theorem TransferAccount_success (env : Env) (w : World α) (hwf : w.WF)
    (fromAccountID userID : Int) (amount : α) (toAccountIban : String)
    (r : Except String Unit × World α)
    (hr : service.Account.TransferAccount env w fromAccountID userID amount toAccountIban = r)
    (hok : r.1 = .ok ()) :
    ∃ toAccountID t e,
      (w.accounts.find? fun a => a.Iban == toAccountIban).map (fun a => a.ID) = some toAccountID ∧
      r.2.transactions = w.transactions ++ [t] ∧
      t.ToDomain.FromAccount = fromAccountID ∧
      (fromAccountID ≠ 0 → t.FromAccount = some fromAccountID) ∧
      t.ToAccount = toAccountID ∧ t.Amount = amount ∧ t.Status = "SENT" ∧
      r.2.events = w.events ++ [e] ∧
      e.Type_ = "WITHDRAWAL" ∧ e.UserID = userID ∧
      e.Metadata = [("from_account_id", .int fromAccountID), ("to_account_id", .int toAccountID),
        ("amount", .num amount)] := by
  subst hr
  obtain ⟨a, b, c, -, fb, -, -, -, hw⟩ :=
    TransferAccount_ok env w fromAccountID userID amount toAccountIban hok
  rw [hw]
  refine ⟨b.ID,
    { ID := w.transactionsSeq + 1,
      FromAccount := if fromAccountID != 0 then some fromAccountID else none,
      ToAccount := b.ID, Amount := amount, Status := repository.transactionSentStatus,
      DateCreated := env.now .CreateTransaction,
      DateUpdated := some (env.now .SetTransactionStatusToSent) },
    { ID := w.eventSeq + 1, UserID := userID, Type_ := domain.WithdrawalEvent, Message := none,
      Metadata := [("from_account_id", .int fromAccountID), ("to_account_id", .int b.ID),
        ("amount", .num amount)],
      DateTime := env.now .CreateEvent },
    by simp [fb], ?_, ?_, ?_, rfl, rfl, rfl, rfl, rfl, rfl, rfl⟩
  · exact updateStatus_append_fresh w.transactions
      { ID := w.transactionsSeq + 1,
        FromAccount := if fromAccountID != 0 then some fromAccountID else none,
        ToAccount := b.ID, Amount := amount, Status := repository.transactionPreparedStatus,
        DateCreated := env.now .CreateTransaction, DateUpdated := none }
      repository.transactionSentStatus (env.now .SetTransactionStatusToSent)
      (fun x hx => Int.lt_add_one_iff.mpr (hwf.2.2 x hx))
  · by_cases h0 : fromAccountID = 0 <;> simp [models.Transaction.ToDomain, h0]
  · intro h0
    simp [h0]

/-- C9, witness: a transfer of 60 from account 1 to account 2 in the sample
store. -/
theorem TransferAccount_success_witness :
    sampleWorld.WF ∧
    (service.Account.TransferAccount (Env.calm 7) sampleWorld 1 1 60
      "UA031234560000039096125330469").1 = .ok () ∧
    ∃ toAccountID t e,
      (sampleWorld.accounts.find? fun a => a.Iban == "UA031234560000039096125330469").map
        (fun a => a.ID) = some toAccountID ∧
      (service.Account.TransferAccount (Env.calm 7) sampleWorld 1 1 60
        "UA031234560000039096125330469").2.transactions = sampleWorld.transactions ++ [t] ∧
      t.ToDomain.FromAccount = 1 ∧
      ((1 : Int) ≠ 0 → t.FromAccount = some 1) ∧
      t.ToAccount = toAccountID ∧ t.Amount = 60 ∧ t.Status = "SENT" ∧
      (service.Account.TransferAccount (Env.calm 7) sampleWorld 1 1 60
        "UA031234560000039096125330469").2.events = sampleWorld.events ++ [e] ∧
      e.Type_ = "WITHDRAWAL" ∧ e.UserID = 1 ∧
      e.Metadata = [("from_account_id", .int 1), ("to_account_id", .int toAccountID),
        ("amount", .num 60)] :=
  ⟨by decide, by decide,
    TransferAccount_success (Env.calm 7) sampleWorld (by decide) 1 1 60
      "UA031234560000039096125330469" _ rfl (by decide)⟩

/-- C10.  The repository TransferAccount is all-or-nothing: either it returns no
error and the table of accounts is the old one with both the debit and the
credit applied, or it returns an error and the table is the old one; the other
tables are never touched.  In particular, when the storage transaction begins,
the debit statement is applied and the credit statement fails, Rollback is
called and Commit is not, the call returns an error, and every account balance
equals its value before the call. -/
theorem repository_TransferAccount_all_or_nothing (env : Env) (w : World α)
    (fromAccountID userID : Int) (amount : α) (toAccountIban : String)
    (r : Except String Unit × World α)
    (hr : repository.Account.TransferAccount env w fromAccountID userID amount toAccountIban = r) :
    ((r.1 = .ok () ∧
        r.2.accounts = repository.Account.creditByIban
          (repository.Account.debitByIDAndUser w.accounts amount fromAccountID userID)
          amount toAccountIban) ∨
      ((∃ err, r.1 = .error err) ∧ r.2.accounts = w.accounts)) ∧
    r.2.transactions = w.transactions ∧
    r.2.events = w.events ∧
    (env.fails .TransferBegin = false → env.fails .TransferDebit = false →
      env.fails .TransferCredit = true →
      (∃ err, r.1 = .error err) ∧
      r.2.accounts = w.accounts ∧
      (∀ accountID, balanceOf r.2.accounts accountID = balanceOf w.accounts accountID) ∧
      executed w r.2 =
        [(.TransferBegin, true), (.TransferDebit, true), (.TransferCredit, false),
         (.TransferRollback, !env.fails .TransferRollback)]) := by
  unfold repository.Account.TransferAccount at hr
  cases h1 : env.fails .TransferBegin <;> simp only [h1, Bool.false_eq_true, ↓reduceIte] at hr
  swap
  · subst hr; simp
  cases h2 : env.fails .TransferDebit <;> simp only [h2, Bool.false_eq_true, ↓reduceIte] at hr
  swap
  · cases h : env.fails .TransferRollback <;>
      simp only [h, Bool.false_eq_true, ↓reduceIte] at hr <;> subst hr <;> simp
  cases h3 : env.fails .TransferCredit <;> simp only [h3, Bool.false_eq_true, ↓reduceIte] at hr
  swap
  · cases h : env.fails .TransferRollback <;>
      simp only [h, Bool.false_eq_true, ↓reduceIte] at hr <;> subst hr <;> simp [executed]
  cases h4 : env.fails .TransferCommit <;> simp only [h4, Bool.false_eq_true, ↓reduceIte] at hr <;>
    subst hr <;> simp

/-- C10, witness: the credit statement of a transfer of 60 from account 1 to
account 2 is rejected. -/
theorem repository_TransferAccount_all_or_nothing_witness :
    (Env.failing [.TransferCredit] 7).fails .TransferBegin = false ∧
    (Env.failing [.TransferCredit] 7).fails .TransferDebit = false ∧
    (Env.failing [.TransferCredit] 7).fails .TransferCredit = true ∧
    (∃ err, (repository.Account.TransferAccount (Env.failing [.TransferCredit] 7) sampleWorld
      1 1 60 "UA031234560000039096125330469").1 = .error err) ∧
    (repository.Account.TransferAccount (Env.failing [.TransferCredit] 7) sampleWorld
      1 1 60 "UA031234560000039096125330469").2.accounts = sampleWorld.accounts ∧
    (∀ accountID, balanceOf (repository.Account.TransferAccount
        (Env.failing [.TransferCredit] 7) sampleWorld 1 1 60
        "UA031234560000039096125330469").2.accounts accountID =
      balanceOf sampleWorld.accounts accountID) ∧
    executed sampleWorld (repository.Account.TransferAccount (Env.failing [.TransferCredit] 7)
      sampleWorld 1 1 60 "UA031234560000039096125330469").2 =
      [(.TransferBegin, true), (.TransferDebit, true), (.TransferCredit, false),
       (.TransferRollback, !(Env.failing [.TransferCredit] 7).fails .TransferRollback)] :=
  ⟨by decide, by decide, by decide,
    (repository_TransferAccount_all_or_nothing (Env.failing [.TransferCredit] 7) sampleWorld
      1 1 60 "UA031234560000039096125330469" _ rfl).2.2.2 (by decide) (by decide) (by decide)⟩

end Outcome

/-! ## Ownership checks -/

section CardOwner

variable {α : Type}

/-- When the account belongs to another user than the caller, the card service
`CreateCard` returns the zero card with a nil error and stops after the lookup
of the owner. -/
theorem CreateCard_mismatch (env : Env) (w : World α) (gen : generator.Generator)
    (accountID userID owner : Int)
    (hown : (repository.Account.GetUserIDByAccountID env w accountID).1 = .ok owner)
    (hne : owner ≠ userID) :
    service.Card.CreateCard env w gen accountID userID =
      (.ok domain.Card.zero, w.log .GetUserIDByAccountID true) := by
  unfold service.Card.CreateCard
  unfold repository.Account.GetUserIDByAccountID at hown ⊢
  cases h1 : env.fails .GetUserIDByAccountID <;>
    simp only [h1, Bool.false_eq_true, ↓reduceIte] at hown ⊢
  swap
  · simp at hown
  cases f1 : w.accounts.find? (fun a => a.ID == accountID) <;> simp only [f1] at hown ⊢
  · simp at hown
  rename_i a
  simp only [Except.ok.injEq] at hown
  simp [hown, hne, errors.WrapNilable]

end CardOwner

section Ownership
variable {α : Type} [LinearOrderedAddCommGroup α]

/-- C11, evaluation at the failing input: account 1 of the sample store belongs to
user 1 and the caller is user 2.  `GetCard` and `GetTransactionList` return the
error "userID matching check error"; `CreateCard` returns the zero card and no
error. -/
theorem CreateCard_mismatch_returns_no_error :
    (repository.Account.GetUserIDByAccountID (Env.calm 7) sampleWorld 1).1 = .ok 1 ∧
    (service.Card.GetCard (Env.calm 7) sampleWorld 1 1 2).1 =
      .error "userID matching check error" ∧
    (service.Transaction.GetTransactionList (Env.calm 7) sampleWorld 1 2 none
      { Page := 1, PerPage := 5 }).1 = .error "userID matching check error" ∧
    (service.Card.CreateCard (Env.calm 7) sampleWorld sampleGenerator 1 2).1 =
      .ok domain.Card.zero := by
  decide

/-- C12.  When no account row matches both the source account id and the caller,
TransferAccount returns an error, the tables of accounts, transactions and
events are unchanged, and no statement beyond the two currency lookups and the
balance lookup is executed; when the two currency lookups succeed with equal
currencies and the balance lookup is not rejected, the error is the one of the
balance lookup that found no row. -/
theorem TransferAccount_not_owner (env : Env) (w : World α)
    (fromAccountID userID : Int) (amount : α) (toAccountIban : String)
    (hnone : w.accounts.find? (fun a => a.ID == fromAccountID && a.UserID == userID) = none)
    (r : Except String Unit × World α)
    (hr : service.Account.TransferAccount env w fromAccountID userID amount toAccountIban = r) :
    (∃ err, r.1 = .error err) ∧
    r.2.accounts = w.accounts ∧
    r.2.transactions = w.transactions ∧
    r.2.events = w.events ∧
    (∀ e ∈ executed w r.2,
      e.1 = .GetAccountCurrencyIDByID ∨ e.1 = .GetAccountCurrencyIDByIban ∨
        e.1 = .GetAccountAmount) ∧
    (∀ (src dst : models.Account α),
      w.accounts.find? (fun a => a.ID == fromAccountID) = some src →
      w.accounts.find? (fun a => a.Iban == toAccountIban) = some dst →
      src.CurrencyID = dst.CurrencyID →
      env.fails .GetAccountCurrencyIDByID = false →
      env.fails .GetAccountCurrencyIDByIban = false →
      env.fails .GetAccountAmount = false →
      r.1 = .error "getting account amount error: scanning amount error: sql: no rows in result set" ∧
      executed w r.2 = [(.GetAccountCurrencyIDByID, true), (.GetAccountCurrencyIDByIban, true),
        (.GetAccountAmount, false)]) := by
  unfold service.Account.TransferAccount at hr
  cases h1 : env.fails .GetAccountCurrencyIDByID <;>
    simp only [repository.Account.GetAccountCurrencyIDByID, h1, Bool.false_eq_true, ↓reduceIte,
      World.log_accounts] at hr
  swap
  · subst hr; simp [executed]
  cases f1 : w.accounts.find? (fun x => x.ID == fromAccountID) <;> simp only [f1] at hr
  · subst hr; simp [executed]
  rename_i c
  cases h2 : env.fails .GetAccountCurrencyIDByIban <;>
    simp only [repository.Account.GetAccountCurrencyIDByIban, h2, Bool.false_eq_true, ↓reduceIte,
      World.log_accounts] at hr
  swap
  · subst hr; simp [executed]
  cases f2 : w.accounts.find? (fun x => x.Iban == toAccountIban) <;> simp only [f2] at hr
  · subst hr; simp [executed]
  rename_i b
  by_cases hc : c.CurrencyID = b.CurrencyID
  swap
  · simp only [bne_iff_ne, ne_eq, hc, not_false_eq_true, ↓reduceIte] at hr
    subst hr; simp [executed, hc]
  simp only [bne_iff_ne, ne_eq, hc, not_true_eq_false, ↓reduceIte] at hr
  cases h3 : env.fails .GetAccountAmount <;>
    simp only [repository.Account.GetAccountAmount, h3, Bool.false_eq_true, ↓reduceIte,
      World.log_accounts, hnone] at hr
  all_goals subst hr; simp [executed, errors.Wrap, ErrNoRows]

/-- C12, witness: account 1 of the sample store belongs to user 1; user 2 asks to
transfer 60 from it to account 2, which has the same currency. -/
theorem TransferAccount_not_owner_witness :
    sampleWorld.accounts.find? (fun a => a.ID == 1 && a.UserID == 2) = none ∧
    (service.Account.TransferAccount (Env.calm 7) sampleWorld 1 2 60
      "UA031234560000039096125330469").1 =
      .error "getting account amount error: scanning amount error: sql: no rows in result set" ∧
    (service.Account.TransferAccount (Env.calm 7) sampleWorld 1 2 60
      "UA031234560000039096125330469").2.accounts = sampleWorld.accounts ∧
    (service.Account.TransferAccount (Env.calm 7) sampleWorld 1 2 60
      "UA031234560000039096125330469").2.transactions = sampleWorld.transactions ∧
    (service.Account.TransferAccount (Env.calm 7) sampleWorld 1 2 60
      "UA031234560000039096125330469").2.events = sampleWorld.events ∧
    executed sampleWorld (service.Account.TransferAccount (Env.calm 7) sampleWorld 1 2 60
      "UA031234560000039096125330469").2 =
      [(.GetAccountCurrencyIDByID, true), (.GetAccountCurrencyIDByIban, true),
        (.GetAccountAmount, false)] :=
  have h := TransferAccount_not_owner (Env.calm 7) sampleWorld 1 2 60
    "UA031234560000039096125330469" (by decide) _ rfl
  ⟨by decide, (h.2.2.2.2.2 _ _ rfl rfl (by decide) (by decide) (by decide) (by decide)).1,
    h.2.1, h.2.2.1, h.2.2.2.1,
    (h.2.2.2.2.2 _ _ rfl rfl (by decide) (by decide) (by decide) (by decide)).2⟩

end Ownership

/-! ## Account creation -/

section Creation
variable {α : Type} [LinearOrderedAddCommGroup α]

/-- C13.  An `Account.Create` call that returns no error appends exactly one row
to the table of accounts, owned by the given user, with the given currency, the
IBAN drawn from the generator, balance 0 and `blocked = false`; it returns that
row, and appends exactly one event of type ACCOUNT_CREATED with the user as
`UserID` and the id, the currency and the IBAN of the row as metadata. -/
theorem Create_success (env : Env) (w : World α) (ibanGenerator : generator.Generator)
    (userID currencyID : Int) (account : domain.Account α)
    (r : Except String (domain.Account α) × World α)
    (hr : service.Account.Create env w ibanGenerator userID currencyID = r)
    (hok : r.1 = .ok account) :
    ∃ row e,
      r.2.accounts = w.accounts ++ [row] ∧
      row.UserID = userID ∧ row.CurrencyID = currencyID ∧
      row.Iban = ibanGenerator.GenerateRandomIban env.rand ∧
      row.Amount = 0 ∧ row.Blocked = false ∧
      account = row.ToDomain ∧
      r.2.events = w.events ++ [e] ∧
      e.Type_ = "ACCOUNT_CREATED" ∧ e.UserID = userID ∧
      e.Metadata = [("account_id", .int account.ID), ("currency_id", .int account.CurrencyID),
        ("iban", .str account.Iban)] ∧
      r.2.transactions = w.transactions := by
  unfold service.Account.Create at hr
  cases h1 : env.fails .AccountCreate <;>
    simp only [repository.Account.Create, h1, Bool.false_eq_true, ↓reduceIte] at hr
  swap
  · subst hr; simp at hok
  cases f1 : (w.accounts.any fun a =>
      a.Iban == ibanGenerator.GenerateRandomIban env.rand) <;>
    simp only [f1, Bool.false_eq_true, ↓reduceIte] at hr
  swap
  · subst hr; simp at hok
  cases h2 : env.fails .CreateEvent <;>
    simp only [repository.Event.CreateEvent, h2, Bool.false_eq_true, ↓reduceIte] at hr
  swap
  · subst hr; simp at hok
  subst hr
  simp only [Except.ok.injEq] at hok
  subst hok
  exact ⟨_, _, rfl, rfl, rfl, rfl, rfl, rfl, rfl, rfl, rfl, rfl, rfl, rfl⟩

/-- C13, witness: user 2 opens an account in currency 3 in the sample store. -/
theorem Create_success_witness :
    (service.Account.Create (Env.calm 7) sampleWorld sampleGenerator 2 3).1 =
      .ok { ID := 4, Iban := "UA111234560000011111111111111", UserID := 2, CurrencyID := 3,
            Blocked := false, Amount := 0 } ∧
    ∃ row e,
      (service.Account.Create (Env.calm 7) sampleWorld sampleGenerator 2 3).2.accounts =
        sampleWorld.accounts ++ [row] ∧
      row.UserID = 2 ∧ row.CurrencyID = 3 ∧
      row.Iban = sampleGenerator.GenerateRandomIban (Env.calm 7).rand ∧
      row.Amount = 0 ∧ row.Blocked = false ∧
      ({ ID := 4, Iban := "UA111234560000011111111111111", UserID := 2, CurrencyID := 3,
         Blocked := false, Amount := 0 } : domain.Account Int) = row.ToDomain ∧
      (service.Account.Create (Env.calm 7) sampleWorld sampleGenerator 2 3).2.events =
        sampleWorld.events ++ [e] ∧
      e.Type_ = "ACCOUNT_CREATED" ∧ e.UserID = 2 ∧
      e.Metadata = [("account_id", .int 4), ("currency_id", .int 3),
        ("iban", .str "UA111234560000011111111111111")] ∧
      (service.Account.Create (Env.calm 7) sampleWorld sampleGenerator 2 3).2.transactions =
        sampleWorld.transactions :=
  ⟨by decide,
    Create_success (Env.calm 7) sampleWorld sampleGenerator 2 3 _ _ rfl (by decide)⟩

end Creation

/-! ## A failing event write -/

section EventFailure
variable {α : Type} [LinearOrderedAddCommGroup α]

/-- The outcome of `Account.Create`, `DepositAccount` and `TransferAccount` when
`CreateEvent` is reached and fails, with the table of transactions written as
the result of the UPDATE statement of `SetTransactionStatusToSent`, and with the
rows that the lookups before have found. -/
theorem event_failure_outcome (env : Env) (w : World α)
    (ibanGenerator : generator.Generator) (userID currencyID accountID fromAccountID : Int)
    (amount : α) (toAccountIban : String) :
    ((Stmt.CreateEvent, false) ∈
        executed w (service.Account.Create env w ibanGenerator userID currencyID).2 →
      (∃ err, (service.Account.Create env w ibanGenerator userID currencyID).1 = .error err) ∧
      (service.Account.Create env w ibanGenerator userID currencyID).2.events = w.events ∧
      (service.Account.Create env w ibanGenerator userID currencyID).2.accounts =
        w.accounts ++
          [{ ID := w.accountsSeq + 1, Iban := ibanGenerator.GenerateRandomIban env.rand,
             UserID := userID, CurrencyID := currencyID, Blocked := false, Amount := 0 }]) ∧
    ((Stmt.CreateEvent, false) ∈
        executed w (service.Account.DepositAccount env w accountID amount).2 →
      (∃ err, (service.Account.DepositAccount env w accountID amount).1 = .error err) ∧
      (service.Account.DepositAccount env w accountID amount).2.events = w.events ∧
      (service.Account.DepositAccount env w accountID amount).2.accounts =
        repository.Account.creditByID w.accounts amount accountID ∧
      (w.accounts.any fun a => a.ID == accountID) = true ∧
      (service.Account.DepositAccount env w accountID amount).2.transactions =
        repository.Transactions.updateStatus
          (w.transactions ++
            [{ ID := w.transactionsSeq + 1, FromAccount := none, ToAccount := accountID,
               Amount := amount, Status := "PREPARED",
               DateCreated := env.now .CreateTransaction, DateUpdated := none }])
          "SENT" (env.now .SetTransactionStatusToSent) (w.transactionsSeq + 1)) ∧
    ((Stmt.CreateEvent, false) ∈
        executed w (service.Account.TransferAccount env w fromAccountID userID amount
          toAccountIban).2 →
      (∃ err, (service.Account.TransferAccount env w fromAccountID userID amount
        toAccountIban).1 = .error err) ∧
      (service.Account.TransferAccount env w fromAccountID userID amount
        toAccountIban).2.events = w.events ∧
      (service.Account.TransferAccount env w fromAccountID userID amount
        toAccountIban).2.accounts =
        repository.Account.creditByIban
          (repository.Account.debitByIDAndUser w.accounts amount fromAccountID userID)
          amount toAccountIban ∧
      (∃ src, w.accounts.find? (fun x => x.ID == fromAccountID && x.UserID == userID)
        = some src) ∧
      ∃ dst, w.accounts.find? (fun a => a.Iban == toAccountIban) = some dst ∧
        (service.Account.TransferAccount env w fromAccountID userID amount
          toAccountIban).2.transactions =
          repository.Transactions.updateStatus
            (w.transactions ++
              [{ ID := w.transactionsSeq + 1,
                 FromAccount := if fromAccountID = 0 then none else some fromAccountID,
                 ToAccount := dst.ID, Amount := amount, Status := "PREPARED",
                 DateCreated := env.now .CreateTransaction, DateUpdated := none }])
            "SENT" (env.now .SetTransactionStatusToSent) (w.transactionsSeq + 1)) := by
  refine ⟨?_, ?_, ?_⟩
  · generalize hr : service.Account.Create env w ibanGenerator userID currencyID = r
    unfold service.Account.Create at hr
    cases h1 : env.fails .AccountCreate <;>
      simp only [repository.Account.Create, h1, Bool.false_eq_true, ↓reduceIte] at hr
    swap
    · subst hr; simp [executed]
    cases f1 : (w.accounts.any fun a =>
        a.Iban == ibanGenerator.GenerateRandomIban env.rand) <;>
      simp only [f1, Bool.false_eq_true, ↓reduceIte] at hr
    swap
    · subst hr; simp [executed]
    cases h2 : env.fails .CreateEvent <;>
      simp only [repository.Event.CreateEvent, h2, Bool.false_eq_true, ↓reduceIte] at hr
    all_goals subst hr; simp [executed, repository.accountsAmountDefault]
  · generalize hr : service.Account.DepositAccount env w accountID amount = r
    unfold service.Account.DepositAccount at hr
    cases h1 : env.fails .ExistsAccount <;>
      simp only [repository.Account.ExistsAccount, h1, Bool.false_eq_true, ↓reduceIte] at hr
    swap
    · subst hr; simp [executed]
    cases f1 : (w.accounts.any fun a => a.ID == accountID) <;> simp only [f1] at hr
    · subst hr; simp [executed]
    cases h2 : env.fails .CreateTransaction <;>
      simp only [repository.Transactions.CreateTransaction, h2, Bool.false_eq_true,
        ↓reduceIte] at hr
    swap
    · subst hr; simp [executed]
    cases h3 : env.fails .DepositAccount <;>
      simp only [repository.Account.DepositAccount, h3, Bool.false_eq_true, ↓reduceIte] at hr
    swap
    · subst hr; simp [executed]
    cases h4 : env.fails .SetTransactionStatusToSent <;>
      simp only [repository.Transactions.SetTransactionStatusToSent, h4, Bool.false_eq_true,
        ↓reduceIte] at hr
    swap
    · subst hr; simp [executed]
    cases h5 : env.fails .CreateEvent <;>
      simp only [repository.Event.CreateEvent, h5, Bool.false_eq_true, ↓reduceIte] at hr
    all_goals
      subst hr
      simp [executed, models.Transaction.ToDomain, service.fromAccountIDForDeposit,
        repository.transactionPreparedStatus, repository.transactionSentStatus]
  · generalize hr :
      service.Account.TransferAccount env w fromAccountID userID amount toAccountIban = r
    unfold service.Account.TransferAccount at hr
    cases h1 : env.fails .GetAccountCurrencyIDByID <;>
      simp only [repository.Account.GetAccountCurrencyIDByID, h1, Bool.false_eq_true,
        ↓reduceIte, World.log_accounts] at hr
    swap
    · subst hr; simp [executed]
    cases f1 : w.accounts.find? (fun x => x.ID == fromAccountID) <;> simp only [f1] at hr
    · subst hr; simp [executed]
    rename_i c
    cases h2 : env.fails .GetAccountCurrencyIDByIban <;>
      simp only [repository.Account.GetAccountCurrencyIDByIban, h2, Bool.false_eq_true,
        ↓reduceIte, World.log_accounts] at hr
    swap
    · subst hr; simp [executed]
    cases f2 : w.accounts.find? (fun x => x.Iban == toAccountIban) <;> simp only [f2] at hr
    · subst hr; simp [executed]
    rename_i b
    by_cases hc : c.CurrencyID = b.CurrencyID
    swap
    · simp only [bne_iff_ne, ne_eq, hc, not_false_eq_true, ↓reduceIte] at hr
      subst hr; simp [executed]
    simp only [bne_iff_ne, ne_eq, hc, not_true_eq_false, ↓reduceIte] at hr
    cases h3 : env.fails .GetAccountAmount <;>
      simp only [repository.Account.GetAccountAmount, h3, Bool.false_eq_true, ↓reduceIte,
        World.log_accounts] at hr
    swap
    · subst hr; simp [executed]
    cases f3 : w.accounts.find? (fun x => x.ID == fromAccountID && x.UserID == userID) <;>
      simp only [f3] at hr
    · subst hr; simp [executed]
    rename_i a
    by_cases hlt : a.Amount < amount
    · simp only [hlt, ↓reduceIte] at hr
      subst hr; simp [executed]
    simp only [hlt, ↓reduceIte] at hr
    cases h4 : env.fails .GetAccountIDByIban <;>
      simp only [repository.Account.GetAccountIDByIban, h4, Bool.false_eq_true, ↓reduceIte,
        World.log_accounts, f2] at hr
    swap
    · subst hr; simp [executed]
    cases h5 : env.fails .CreateTransaction <;>
      simp only [repository.Transactions.CreateTransaction, h5, Bool.false_eq_true,
        ↓reduceIte] at hr
    swap
    · subst hr; simp [executed]
    cases h6 : env.fails .TransferBegin <;>
      simp only [repository.Account.TransferAccount, h6, Bool.false_eq_true, ↓reduceIte] at hr
    swap
    · subst hr; simp [executed]
    cases h7 : env.fails .TransferDebit <;> simp only [h7, Bool.false_eq_true, ↓reduceIte] at hr
    swap
    · cases h7r : env.fails .TransferRollback <;>
        simp only [h7r, Bool.false_eq_true, ↓reduceIte] at hr <;> subst hr <;> simp [executed]
    cases h8 : env.fails .TransferCredit <;> simp only [h8, Bool.false_eq_true, ↓reduceIte] at hr
    swap
    · cases h8r : env.fails .TransferRollback <;>
        simp only [h8r, Bool.false_eq_true, ↓reduceIte] at hr <;> subst hr <;> simp [executed]
    cases h9 : env.fails .TransferCommit <;> simp only [h9, Bool.false_eq_true, ↓reduceIte] at hr
    swap
    · subst hr; simp [executed]
    cases h10 : env.fails .SetTransactionStatusToSent <;>
      simp only [repository.Transactions.SetTransactionStatusToSent, h10, Bool.false_eq_true,
        ↓reduceIte] at hr
    swap
    · subst hr; simp [executed]
    cases h11 : env.fails .CreateEvent <;>
      simp only [repository.Event.CreateEvent, h11, Bool.false_eq_true, ↓reduceIte] at hr
    all_goals
      subst hr
      simp [executed, models.Transaction.ToDomain, repository.transactionPreparedStatus,
        repository.transactionSentStatus]

/-- The balances after the UPDATE statement of a deposit into an account that
exists: that account holds its old balance plus the amount, every other account
its old balance. -/
theorem deposit_balances (accounts : List (models.Account α)) (amount : α) (accountID : Int)
    (hex : (accounts.any fun a => a.ID == accountID) = true) :
    (∃ balance, balanceOf accounts accountID = some balance ∧
      balanceOf (repository.Account.creditByID accounts amount accountID) accountID =
        some (balance + amount)) ∧
    ∀ id, id ≠ accountID →
      balanceOf (repository.Account.creditByID accounts amount accountID) id =
        balanceOf accounts id := by
  constructor
  · cases hf : accounts.find? (fun a => a.ID == accountID) with
    | none =>
      obtain ⟨a, ha, hid⟩ := List.any_eq_true.mp hex
      have := List.find?_eq_none.mp hf a ha
      exact absurd hid this
    | some b =>
      have hb : b.ID = accountID := by simpa using List.find?_some hf
      refine ⟨b.Amount, by simp [balanceOf, hf], ?_⟩
      rw [balanceOf_creditByID, hf]
      simp [hb]
  · intro id hne
    rw [balanceOf_creditByID]
    unfold balanceOf
    cases hf : accounts.find? (fun a => a.ID == id) with
    | none => rfl
    | some b =>
      have hb : b.ID = id := by simpa using List.find?_some hf
      simp [hb, hne]

/-- The balances after the debit and the credit statement of a transfer, in a
table with pairwise distinct ids and IBANs in which the lookups have found the
source row `a` and the destination row `b`: when the two rows differ, the source
holds its old balance minus the amount and the destination its old balance plus
the amount; when they are one row, it holds its old balance; every other
account holds its old balance. -/
theorem transfer_balances (accounts : List (models.Account α))
    (hid : (accounts.map fun a => a.ID).Nodup) (hiban : (accounts.map fun a => a.Iban).Nodup)
    (amount : α) (fromAccountID userID : Int) (toAccountIban : String)
    (a b : models.Account α)
    (fa : accounts.find? (fun x => x.ID == fromAccountID && x.UserID == userID) = some a)
    (fb : accounts.find? (fun x => x.Iban == toAccountIban) = some b) :
    balanceOf accounts fromAccountID = some a.Amount ∧
    balanceOf accounts b.ID = some b.Amount ∧
    (b.ID ≠ fromAccountID →
      balanceOf (repository.Account.creditByIban
        (repository.Account.debitByIDAndUser accounts amount fromAccountID userID)
        amount toAccountIban) fromAccountID = some (a.Amount - amount) ∧
      balanceOf (repository.Account.creditByIban
        (repository.Account.debitByIDAndUser accounts amount fromAccountID userID)
        amount toAccountIban) b.ID = some (b.Amount + amount)) ∧
    (b.ID = fromAccountID →
      balanceOf (repository.Account.creditByIban
        (repository.Account.debitByIDAndUser accounts amount fromAccountID userID)
        amount toAccountIban) fromAccountID = some a.Amount) ∧
    ∀ id, id ≠ fromAccountID → id ≠ b.ID →
      balanceOf (repository.Account.creditByIban
        (repository.Account.debitByIDAndUser accounts amount fromAccountID userID)
        amount toAccountIban) id = balanceOf accounts id := by
  simp only [balanceOf_transfer]
  obtain ⟨hida, hidu⟩ : a.ID = fromAccountID ∧ a.UserID = userID := by
    simpa using List.find?_some fa
  have hib : b.Iban = toAccountIban := by simpa using List.find?_some fb
  have ha := find?_key_of_mem (fun x : models.Account α => x.ID) accounts hid a
    (List.mem_of_find?_eq_some fa)
  have hb := find?_key_of_mem (fun x : models.Account α => x.ID) accounts hid b
    (List.mem_of_find?_eq_some fb)
  have hinj : ∀ x ∈ accounts, x.Iban = b.Iban → x = b := fun x hx h =>
    List.inj_on_of_nodup_map hiban hx (List.mem_of_find?_eq_some fb) h
  simp only [hida] at ha
  refine ⟨by simp [balanceOf, ha], by simp [balanceOf, hb], ?_, ?_, ?_⟩
  · intro hne
    have h1 : a.Iban ≠ toAccountIban := fun h =>
      hne (by rw [← hinj a (List.mem_of_find?_eq_some fa) (h.trans hib.symm)]; exact hida)
    simp [ha, hb, hida, hidu, hib, h1, hne]
  · intro heq
    have hab : a = b := by
      have := ha
      rw [← heq, hb] at this
      exact (Option.some.inj this).symm
    subst hab
    simp [ha, hida, hidu, hib]
  · intro id hne1 hne2
    unfold balanceOf
    cases hf : accounts.find? (fun x => x.ID == id) with
    | none => rfl
    | some x =>
      have hx : x.ID = id := by simpa using List.find?_some hf
      have h2 : x.Iban ≠ toAccountIban := fun h =>
        hne2 (by rw [← hinj x (List.mem_of_find?_eq_some hf) (h.trans hib.symm)]; exact hx.symm)
      simp [hx, hne1, h2]

/-- The result of `Create` of the account service and the pair of its Go return
values agree: the store after the call is the same; when the pair holds nil,
`Create` gives the account of the pair; when it holds an error, `Create` gives
that error and the account of the pair is the zero value. -/
theorem CreateValues_agrees (env : Env) (w : World α) (ibanGenerator : generator.Generator)
    (userID currencyID : Int) :
    (service.Account.CreateValues env w ibanGenerator userID currencyID).2 =
      (service.Account.Create env w ibanGenerator userID currencyID).2 ∧
    ((service.Account.CreateValues env w ibanGenerator userID currencyID).1.2 = none →
      (service.Account.Create env w ibanGenerator userID currencyID).1 =
        .ok (service.Account.CreateValues env w ibanGenerator userID currencyID).1.1) ∧
    (∀ err, (service.Account.CreateValues env w ibanGenerator userID currencyID).1.2 = some err →
      (service.Account.Create env w ibanGenerator userID currencyID).1 = .error err ∧
      (service.Account.CreateValues env w ibanGenerator userID currencyID).1.1 =
        domain.Account.zero) := by
  unfold service.Account.CreateValues service.Account.Create
  dsimp only
  generalize repository.Account.Create env w userID currencyID _ = x
  obtain ⟨r, w1⟩ := x
  rcases r with e | account
  · simp
  dsimp only
  generalize repository.Event.CreateEvent env w1 _ = y
  obtain ⟨r2, w2⟩ := y
  rcases r2 with e | u
  · simp
  · simp

/-- The two values that `Create` of the account service returns when
`CreateEvent` is reached and fails: the zero Account and the wrapped error of
the INSERT. -/
theorem CreateValues_event_failure (env : Env) (w : World α)
    (ibanGenerator : generator.Generator) (userID currencyID : Int)
    (h : (Stmt.CreateEvent, false) ∈
      executed w (service.Account.CreateValues env w ibanGenerator userID currencyID).2) :
    (service.Account.CreateValues env w ibanGenerator userID currencyID).1 =
      (domain.Account.zero,
        some (errors.Wrap (errors.Wrap driverErr "execution event insertion query error")
          "account created event creation error")) := by
  generalize hr : service.Account.CreateValues env w ibanGenerator userID currencyID = r at h ⊢
  unfold service.Account.CreateValues at hr
  cases h1 : env.fails .AccountCreate <;>
    simp only [repository.Account.Create, h1, Bool.false_eq_true, ↓reduceIte] at hr
  swap
  · subst hr; simp [executed] at h
  cases f1 : (w.accounts.any fun a =>
      a.Iban == ibanGenerator.GenerateRandomIban env.rand) <;>
    simp only [f1, Bool.false_eq_true, ↓reduceIte] at hr
  swap
  · subst hr; simp [executed] at h
  cases h2 : env.fails .CreateEvent <;>
    simp only [repository.Event.CreateEvent, h2, Bool.false_eq_true, ↓reduceIte] at hr
  · subst hr; simp [executed] at h
  · subst hr; rfl

/-- C14.  When every step before the event write succeeds and `CreateEvent`
fails, `Account.Create`, `DepositAccount` and `TransferAccount` return an error
and append no event, while the primary mutation stays in place.  For `Create`
the two returned values are the zero Account and the wrapped error of the
INSERT, and the new account row is in the table.  For a deposit the account
holds its old balance plus the amount, every other balance is as before, and
the transaction is SENT.  For a transfer between two different accounts the
source holds its old balance minus the amount and the destination its old
balance plus the amount (a transfer to the IBAN of the source itself leaves its
balance as it was), every other balance is as before, and the transaction is
SENT. -/
theorem event_failure_keeps_mutation (env : Env) (w : World α) (hwf : w.WF)
    (ibanGenerator : generator.Generator) (userID currencyID accountID fromAccountID : Int)
    (amount : α) (toAccountIban : String) :
    ((Stmt.CreateEvent, false) ∈
        executed w (service.Account.Create env w ibanGenerator userID currencyID).2 →
      (∃ err, (service.Account.Create env w ibanGenerator userID currencyID).1 = .error err) ∧
      (service.Account.Create env w ibanGenerator userID currencyID).2.events = w.events ∧
      (service.Account.Create env w ibanGenerator userID currencyID).2.accounts =
        w.accounts ++
          [{ ID := w.accountsSeq + 1, Iban := ibanGenerator.GenerateRandomIban env.rand,
             UserID := userID, CurrencyID := currencyID, Blocked := false, Amount := 0 }] ∧
      (service.Account.CreateValues env w ibanGenerator userID currencyID).1 =
        ({ ID := 0, Iban := "", UserID := 0, CurrencyID := 0, Blocked := false, Amount := 0 },
          some (errors.Wrap (errors.Wrap driverErr "execution event insertion query error")
            "account created event creation error")) ∧
      (service.Account.Create env w ibanGenerator userID currencyID).1 =
        .error (errors.Wrap (errors.Wrap driverErr "execution event insertion query error")
          "account created event creation error") ∧
      (service.Account.CreateValues env w ibanGenerator userID currencyID).2 =
        (service.Account.Create env w ibanGenerator userID currencyID).2) ∧
    ((Stmt.CreateEvent, false) ∈
        executed w (service.Account.DepositAccount env w accountID amount).2 →
      (∃ err, (service.Account.DepositAccount env w accountID amount).1 = .error err) ∧
      (service.Account.DepositAccount env w accountID amount).2.events = w.events ∧
      (service.Account.DepositAccount env w accountID amount).2.accounts =
        repository.Account.creditByID w.accounts amount accountID ∧
      (service.Account.DepositAccount env w accountID amount).2.transactions =
        w.transactions ++
          [{ ID := w.transactionsSeq + 1, FromAccount := none, ToAccount := accountID,
             Amount := amount, Status := "SENT",
             DateCreated := env.now .CreateTransaction,
             DateUpdated := some (env.now .SetTransactionStatusToSent) }] ∧
      (∃ balance, balanceOf w.accounts accountID = some balance ∧
        balanceOf (service.Account.DepositAccount env w accountID amount).2.accounts accountID =
          some (balance + amount)) ∧
      (∀ id, id ≠ accountID →
        balanceOf (service.Account.DepositAccount env w accountID amount).2.accounts id =
          balanceOf w.accounts id)) ∧
    ((Stmt.CreateEvent, false) ∈
        executed w (service.Account.TransferAccount env w fromAccountID userID amount
          toAccountIban).2 →
      (∃ err, (service.Account.TransferAccount env w fromAccountID userID amount
        toAccountIban).1 = .error err) ∧
      (service.Account.TransferAccount env w fromAccountID userID amount
        toAccountIban).2.events = w.events ∧
      (service.Account.TransferAccount env w fromAccountID userID amount
        toAccountIban).2.accounts =
        repository.Account.creditByIban
          (repository.Account.debitByIDAndUser w.accounts amount fromAccountID userID)
          amount toAccountIban ∧
      ∃ dst, w.accounts.find? (fun a => a.Iban == toAccountIban) = some dst ∧
        (service.Account.TransferAccount env w fromAccountID userID amount
          toAccountIban).2.transactions =
          w.transactions ++
            [{ ID := w.transactionsSeq + 1,
               FromAccount := if fromAccountID = 0 then none else some fromAccountID,
               ToAccount := dst.ID, Amount := amount, Status := "SENT",
               DateCreated := env.now .CreateTransaction,
               DateUpdated := some (env.now .SetTransactionStatusToSent) }] ∧
        ∃ srcBalance,
          balanceOf w.accounts fromAccountID = some srcBalance ∧
          balanceOf w.accounts dst.ID = some dst.Amount ∧
          (dst.ID ≠ fromAccountID →
            balanceOf (service.Account.TransferAccount env w fromAccountID userID amount
              toAccountIban).2.accounts fromAccountID = some (srcBalance - amount) ∧
            balanceOf (service.Account.TransferAccount env w fromAccountID userID amount
              toAccountIban).2.accounts dst.ID = some (dst.Amount + amount)) ∧
          (dst.ID = fromAccountID →
            balanceOf (service.Account.TransferAccount env w fromAccountID userID amount
              toAccountIban).2.accounts fromAccountID = some srcBalance) ∧
          ∀ id, id ≠ fromAccountID → id ≠ dst.ID →
            balanceOf (service.Account.TransferAccount env w fromAccountID userID amount
              toAccountIban).2.accounts id = balanceOf w.accounts id) := by
  have h := event_failure_outcome env w ibanGenerator userID currencyID accountID fromAccountID
    amount toAccountIban
  have hfresh : ∀ (t : models.Transaction α), t.ID = w.transactionsSeq + 1 →
      ∀ x ∈ w.transactions, x.ID < t.ID := fun t ht x hx => by
    rw [ht]; exact Int.lt_add_one_iff.mpr (hwf.2.2 x hx)
  have hagree := CreateValues_agrees env w ibanGenerator userID currencyID
  refine ⟨?_, ?_, ?_⟩
  · intro hmem
    obtain ⟨h1, h2, h3⟩ := h.1 hmem
    have hv := CreateValues_event_failure env w ibanGenerator userID currencyID
      (by rw [hagree.1]; exact hmem)
    refine ⟨h1, h2, h3, hv, ?_, hagree.1⟩
    exact (hagree.2.2 _ (by rw [hv])).1
  · intro hmem
    obtain ⟨h1, h2, h3, hex, h4⟩ := h.2.1 hmem
    have hb := deposit_balances w.accounts amount accountID hex
    refine ⟨h1, h2, h3, ?_, ?_, ?_⟩
    · rw [h4]
      exact updateStatus_append_fresh w.transactions _ _ _ (hfresh _ rfl)
    · rw [h3]; exact hb.1
    · rw [h3]; exact hb.2
  · intro hmem
    obtain ⟨h1, h2, h3, ⟨src, hs⟩, dst, hd, h4⟩ := h.2.2 hmem
    have hb := transfer_balances w.accounts hwf.1 hwf.2.1 amount fromAccountID userID
      toAccountIban src dst hs hd
    refine ⟨h1, h2, h3, dst, hd, ?_, src.Amount, ?_⟩
    · rw [h4]
      exact updateStatus_append_fresh w.transactions _ _ _ (hfresh _ rfl)
    · rw [h3]; exact hb

/-- C14, witness: in the sample store, where account 1 holds 100 and accounts 2
and 3 hold 50 each, every statement but the INSERT of the event succeeds.  User
2 opens an account: the call returns the zero Account with an error and the
fourth account row is in the table.  A deposit of 100 into account 2 returns an
error and account 2 holds 150.  A transfer of 60 from account 1 to account 2
returns an error, account 1 holds 40 and account 2 holds 110. -/
theorem event_failure_keeps_mutation_witness :
    sampleWorld.WF ∧
    ((∃ err, (service.Account.Create (Env.failing [.CreateEvent] 7) sampleWorld sampleGenerator
        2 3).1 = .error err) ∧
      (service.Account.Create (Env.failing [.CreateEvent] 7) sampleWorld sampleGenerator
        2 3).2.events = sampleWorld.events ∧
      (service.Account.Create (Env.failing [.CreateEvent] 7) sampleWorld sampleGenerator
        2 3).2.accounts =
        sampleWorld.accounts ++
          [{ ID := sampleWorld.accountsSeq + 1,
             Iban := sampleGenerator.GenerateRandomIban (Env.failing [.CreateEvent] 7).rand,
             UserID := 2, CurrencyID := 3, Blocked := false, Amount := 0 }] ∧
      (service.Account.CreateValues (Env.failing [.CreateEvent] 7) sampleWorld sampleGenerator
        2 3).1 =
        ({ ID := 0, Iban := "", UserID := 0, CurrencyID := 0, Blocked := false, Amount := 0 },
          some (errors.Wrap (errors.Wrap driverErr "execution event insertion query error")
            "account created event creation error")) ∧
      (service.Account.Create (Env.failing [.CreateEvent] 7) sampleWorld sampleGenerator
        2 3).1 =
        .error (errors.Wrap (errors.Wrap driverErr "execution event insertion query error")
          "account created event creation error") ∧
      (service.Account.CreateValues (Env.failing [.CreateEvent] 7) sampleWorld sampleGenerator
        2 3).2 =
        (service.Account.Create (Env.failing [.CreateEvent] 7) sampleWorld sampleGenerator
          2 3).2) ∧
    ((service.Account.Create (Env.failing [.CreateEvent] 7) sampleWorld sampleGenerator
        2 3).2.accounts.map fun a => (a.ID, a.UserID, a.CurrencyID, a.Amount)) =
      [(1, 1, 1, 100), (2, 1, 1, 50), (3, 2, 2, 50), (4, 2, 3, 0)] ∧
    ((∃ err, (service.Account.DepositAccount (Env.failing [.CreateEvent] 7) sampleWorld
        2 100).1 = .error err) ∧
      (service.Account.DepositAccount (Env.failing [.CreateEvent] 7) sampleWorld
        2 100).2.events = sampleWorld.events ∧
      (service.Account.DepositAccount (Env.failing [.CreateEvent] 7) sampleWorld
        2 100).2.accounts = repository.Account.creditByID sampleWorld.accounts 100 2 ∧
      (service.Account.DepositAccount (Env.failing [.CreateEvent] 7) sampleWorld
        2 100).2.transactions =
        sampleWorld.transactions ++
          [{ ID := sampleWorld.transactionsSeq + 1, FromAccount := none, ToAccount := 2,
             Amount := 100, Status := "SENT",
             DateCreated := (Env.failing [.CreateEvent] 7).now .CreateTransaction,
             DateUpdated :=
               some ((Env.failing [.CreateEvent] 7).now .SetTransactionStatusToSent) }] ∧
      (∃ balance, balanceOf sampleWorld.accounts 2 = some balance ∧
        balanceOf (service.Account.DepositAccount (Env.failing [.CreateEvent] 7) sampleWorld
          2 100).2.accounts 2 = some (balance + 100)) ∧
      (∀ id, id ≠ 2 →
        balanceOf (service.Account.DepositAccount (Env.failing [.CreateEvent] 7) sampleWorld
          2 100).2.accounts id = balanceOf sampleWorld.accounts id)) ∧
    ((service.Account.DepositAccount (Env.failing [.CreateEvent] 7) sampleWorld
        2 100).2.accounts.map fun a => (a.ID, a.Amount)) = [(1, 100), (2, 150), (3, 50)] ∧
    ((∃ err, (service.Account.TransferAccount (Env.failing [.CreateEvent] 7) sampleWorld 1 1 60
        "UA031234560000039096125330469").1 = .error err) ∧
      (service.Account.TransferAccount (Env.failing [.CreateEvent] 7) sampleWorld 1 1 60
        "UA031234560000039096125330469").2.events = sampleWorld.events ∧
      (service.Account.TransferAccount (Env.failing [.CreateEvent] 7) sampleWorld 1 1 60
        "UA031234560000039096125330469").2.accounts =
        repository.Account.creditByIban
          (repository.Account.debitByIDAndUser sampleWorld.accounts 60 1 1)
          60 "UA031234560000039096125330469" ∧
      ∃ dst, sampleWorld.accounts.find?
          (fun a => a.Iban == "UA031234560000039096125330469") = some dst ∧
        (service.Account.TransferAccount (Env.failing [.CreateEvent] 7) sampleWorld 1 1 60
          "UA031234560000039096125330469").2.transactions =
          sampleWorld.transactions ++
            [{ ID := sampleWorld.transactionsSeq + 1,
               FromAccount := if (1 : Int) = 0 then none else some 1,
               ToAccount := dst.ID, Amount := 60, Status := "SENT",
               DateCreated := (Env.failing [.CreateEvent] 7).now .CreateTransaction,
               DateUpdated :=
                 some ((Env.failing [.CreateEvent] 7).now .SetTransactionStatusToSent) }] ∧
        ∃ srcBalance,
          balanceOf sampleWorld.accounts 1 = some srcBalance ∧
          balanceOf sampleWorld.accounts dst.ID = some dst.Amount ∧
          (dst.ID ≠ 1 →
            balanceOf (service.Account.TransferAccount (Env.failing [.CreateEvent] 7)
              sampleWorld 1 1 60 "UA031234560000039096125330469").2.accounts 1 =
              some (srcBalance - 60) ∧
            balanceOf (service.Account.TransferAccount (Env.failing [.CreateEvent] 7)
              sampleWorld 1 1 60 "UA031234560000039096125330469").2.accounts dst.ID =
              some (dst.Amount + 60)) ∧
          (dst.ID = 1 →
            balanceOf (service.Account.TransferAccount (Env.failing [.CreateEvent] 7)
              sampleWorld 1 1 60 "UA031234560000039096125330469").2.accounts 1 =
              some srcBalance) ∧
          ∀ id, id ≠ 1 → id ≠ dst.ID →
            balanceOf (service.Account.TransferAccount (Env.failing [.CreateEvent] 7)
              sampleWorld 1 1 60 "UA031234560000039096125330469").2.accounts id =
              balanceOf sampleWorld.accounts id) ∧
    ((service.Account.TransferAccount (Env.failing [.CreateEvent] 7) sampleWorld 1 1 60
        "UA031234560000039096125330469").2.accounts.map fun a => (a.ID, a.Amount)) =
      [(1, 40), (2, 110), (3, 50)] ∧
    ((service.Account.TransferAccount (Env.failing [.CreateEvent] 7) sampleWorld 1 1 60
        "UA031234560000039096125330469").2.transactions.map fun t =>
          (t.ID, t.FromAccount, t.ToAccount, t.Amount, t.Status)) =
      [(1, some 1, 2, 60, "SENT")] :=
  ⟨by decide,
    (event_failure_keeps_mutation (Env.failing [.CreateEvent] 7) sampleWorld (by decide)
      sampleGenerator 2 3 2 1 100 "UA031234560000039096125330469").1 (by decide),
    by decide,
    (event_failure_keeps_mutation (Env.failing [.CreateEvent] 7) sampleWorld (by decide)
      sampleGenerator 2 3 2 1 100 "UA031234560000039096125330469").2.1 (by decide),
    by decide,
    (event_failure_keeps_mutation (Env.failing [.CreateEvent] 7) sampleWorld (by decide)
      sampleGenerator 1 3 2 1 60 "UA031234560000039096125330469").2.2 (by decide),
    by decide, by decide⟩

end EventFailure

/-! ## The calls of a transfer -/

section Protocol
variable {α : Type} [LinearOrderedAddCommGroup α]

/-- C15.  `TransferAccount` returns nil exactly when no statement of the protocol
is rejected, the two currency lookups find rows with equal currency ids, and
the balance lookup finds a row whose balance is not less than the amount;
equivalently, exactly when the eight repository calls are made and all return
nil.  The calls made are always an initial part of the sequence
GetAccountCurrencyIDByID, GetAccountCurrencyIDByIban, GetAccountAmount,
GetAccountIDByIban, CreateTransaction, TransferAccount,
SetTransactionStatusToSent, CreateEvent, so each is made at most once, and every
call but the last one made returned nil. -/
theorem TransferAccount_nil_iff (env : Env) (w : World α)
    (fromAccountID userID : Int) (amount : α) (toAccountIban : String)
    (r : Except String Unit × World α)
    (hr : service.Account.TransferAccount env w fromAccountID userID amount toAccountIban = r) :
    (r.1 = .ok () ↔
      env.fails .GetAccountCurrencyIDByID = false ∧
      env.fails .GetAccountCurrencyIDByIban = false ∧
      env.fails .GetAccountAmount = false ∧
      env.fails .GetAccountIDByIban = false ∧
      env.fails .CreateTransaction = false ∧
      env.fails .TransferBegin = false ∧
      env.fails .TransferDebit = false ∧
      env.fails .TransferCredit = false ∧
      env.fails .TransferCommit = false ∧
      env.fails .SetTransactionStatusToSent = false ∧
      env.fails .CreateEvent = false ∧
      ∃ src dst own,
        w.accounts.find? (fun a => a.ID == fromAccountID) = some src ∧
        w.accounts.find? (fun a => a.Iban == toAccountIban) = some dst ∧
        src.CurrencyID = dst.CurrencyID ∧
        w.accounts.find? (fun a => a.ID == fromAccountID && a.UserID == userID) = some own ∧
        ¬ own.Amount < amount) ∧
    (r.1 = .ok () ↔
      calls w r.2 =
        [(.GetAccountCurrencyIDByID, true), (.GetAccountCurrencyIDByIban, true),
         (.GetAccountAmount, true), (.GetAccountIDByIban, true), (.CreateTransaction, true),
         (.TransferAccount, true), (.SetTransactionStatusToSent, true),
         (.CreateEvent, true)]) ∧
    (calls w r.2).map Prod.fst =
      [Call.GetAccountCurrencyIDByID, .GetAccountCurrencyIDByIban, .GetAccountAmount,
       .GetAccountIDByIban, .CreateTransaction, .TransferAccount,
       .SetTransactionStatusToSent, .CreateEvent].take (calls w r.2).length ∧
    (∀ c ∈ (calls w r.2).dropLast, c.2 = true) := by
  unfold service.Account.TransferAccount at hr
  cases h1 : env.fails .GetAccountCurrencyIDByID <;>
    simp only [repository.Account.GetAccountCurrencyIDByID, h1, Bool.false_eq_true,
      ↓reduceIte, World.log_accounts] at hr
  swap
  · subst hr; simp [executed, calls, Stmt.returns]
  cases f1 : w.accounts.find? (fun x => x.ID == fromAccountID) <;> simp only [f1] at hr
  · subst hr; simp [executed, calls, Stmt.returns]
  rename_i c
  cases h2 : env.fails .GetAccountCurrencyIDByIban <;>
    simp only [repository.Account.GetAccountCurrencyIDByIban, h2, Bool.false_eq_true,
      ↓reduceIte, World.log_accounts] at hr
  swap
  · subst hr; simp [executed, calls, Stmt.returns]
  cases f2 : w.accounts.find? (fun x => x.Iban == toAccountIban) <;> simp only [f2] at hr
  · subst hr; simp [executed, calls, Stmt.returns]
  rename_i b
  by_cases hc : c.CurrencyID = b.CurrencyID
  swap
  · simp only [bne_iff_ne, ne_eq, hc, not_false_eq_true, ↓reduceIte] at hr
    subst hr; simp [executed, calls, Stmt.returns, hc]
  simp only [bne_iff_ne, ne_eq, hc, not_true_eq_false, ↓reduceIte] at hr
  cases h3 : env.fails .GetAccountAmount <;>
    simp only [repository.Account.GetAccountAmount, h3, Bool.false_eq_true, ↓reduceIte,
      World.log_accounts] at hr
  swap
  · subst hr; simp [executed, calls, Stmt.returns]
  cases f3 : w.accounts.find? (fun x => x.ID == fromAccountID && x.UserID == userID) <;>
    simp only [f3] at hr
  · subst hr; simp [executed, calls, Stmt.returns]
  rename_i a
  by_cases hlt : a.Amount < amount
  · simp only [hlt, ↓reduceIte] at hr
    subst hr; simp [executed, calls, Stmt.returns, hlt]
  simp only [hlt, ↓reduceIte] at hr
  cases h4 : env.fails .GetAccountIDByIban <;>
    simp only [repository.Account.GetAccountIDByIban, h4, Bool.false_eq_true, ↓reduceIte,
      World.log_accounts, f2] at hr
  swap
  · subst hr; simp [executed, calls, Stmt.returns]
  cases h5 : env.fails .CreateTransaction <;>
    simp only [repository.Transactions.CreateTransaction, h5, Bool.false_eq_true,
      ↓reduceIte] at hr
  swap
  · subst hr; simp [executed, calls, Stmt.returns]
  cases h6 : env.fails .TransferBegin <;>
    simp only [repository.Account.TransferAccount, h6, Bool.false_eq_true, ↓reduceIte] at hr
  swap
  · subst hr; simp [executed, calls, Stmt.returns]
  cases h7 : env.fails .TransferDebit <;> simp only [h7, Bool.false_eq_true, ↓reduceIte] at hr
  swap
  · cases h7r : env.fails .TransferRollback <;>
      simp only [h7r, Bool.false_eq_true, ↓reduceIte] at hr <;> subst hr <;>
      simp [executed, calls, Stmt.returns]
  cases h8 : env.fails .TransferCredit <;> simp only [h8, Bool.false_eq_true, ↓reduceIte] at hr
  swap
  · cases h8r : env.fails .TransferRollback <;>
      simp only [h8r, Bool.false_eq_true, ↓reduceIte] at hr <;> subst hr <;>
      simp [executed, calls, Stmt.returns]
  cases h9 : env.fails .TransferCommit <;> simp only [h9, Bool.false_eq_true, ↓reduceIte] at hr
  swap
  · subst hr; simp [executed, calls, Stmt.returns]
  cases h10 : env.fails .SetTransactionStatusToSent <;>
    simp only [repository.Transactions.SetTransactionStatusToSent, h10, Bool.false_eq_true,
      ↓reduceIte] at hr
  swap
  · subst hr; simp [executed, calls, Stmt.returns]
  cases h11 : env.fails .CreateEvent <;>
    simp only [repository.Event.CreateEvent, h11, Bool.false_eq_true, ↓reduceIte] at hr
  all_goals subst hr; simp [executed, calls, Stmt.returns, hc, not_lt.mp hlt]

/-- C15, witness: in the sample store user 1 sends 30 from account 1 to account
2 with no statement rejected; the call returns nil and the eight repository
calls are made in order. -/
theorem TransferAccount_nil_iff_witness :
    (service.Account.TransferAccount (Env.calm 7) sampleWorld 1 1 30
      "UA031234560000039096125330469").1 = .ok () ∧
    calls sampleWorld (service.Account.TransferAccount (Env.calm 7) sampleWorld 1 1 30
      "UA031234560000039096125330469").2 =
      [(.GetAccountCurrencyIDByID, true), (.GetAccountCurrencyIDByIban, true),
       (.GetAccountAmount, true), (.GetAccountIDByIban, true), (.CreateTransaction, true),
       (.TransferAccount, true), (.SetTransactionStatusToSent, true),
       (.CreateEvent, true)] :=
  ⟨by decide,
    (TransferAccount_nil_iff (Env.calm 7) sampleWorld 1 1 30
      "UA031234560000039096125330469" _ rfl).2.1.mp (by decide)⟩

end Protocol

/-! ## Generated values -/

section Generators

/-- Every rune drawn from the runes of a constructed generator is a decimal digit. -/
theorem digitRunes_isDigit (c b : String) (k : Nat) :
    ((generator.NewGenerator c b).digitRunes.getD
      (k % (generator.NewGenerator c b).digitRunes.length) '0').isDigit = true := by
  have h : ∀ i : Fin 10, ("1234567890".toList.getD i.val '0').isDigit = true := by decide
  exact h ⟨k % 10, Nat.mod_lt _ (by decide)⟩

/-- The string built by `randStringRunes` has `n` runes. -/
theorem randStringRunes_length (g : generator.Generator) (rand : Nat → Nat) (n : Nat) :
    (g.randStringRunes rand n).length = n := by
  simp [generator.Generator.randStringRunes, String.length]

/-- The runes built by `randStringRunes` of a constructed generator are decimal digits. -/
theorem randStringRunes_digits (c b : String) (rand : Nat → Nat) (n : Nat) :
    ∀ x ∈ ((generator.NewGenerator c b).randStringRunes rand n).toList, x.isDigit = true := by
  intro x hx
  change x ∈ List.map _ (List.range n) at hx
  obtain ⟨i, -, rfl⟩ := List.mem_map.mp hx
  exact digitRunes_isDigit c b (rand i)

/-- C16.  For a generator built by `NewGenerator c b` and every random source:
the IBAN is `c`, two decimal digits, `b`, the literal `00000` and fourteen
decimal digits, and has `c.length + b.length + 21` runes; the card number has
exactly 16 runes, all decimal digits; the CVV has exactly 3 runes, all decimal
digits. -/
theorem generated_values_shape (c b : String) (rand : Nat → Nat) :
    (∃ check tail : String,
      check.length = 2 ∧ (∀ x ∈ check.toList, x.isDigit = true) ∧
      tail.length = 14 ∧ (∀ x ∈ tail.toList, x.isDigit = true) ∧
      (generator.NewGenerator c b).GenerateRandomIban rand =
        c ++ check ++ b ++ "00000" ++ tail) ∧
    ((generator.NewGenerator c b).GenerateRandomIban rand).length = c.length + b.length + 21 ∧
    ((generator.NewGenerator c b).GenerateRandomCardNumber rand).length = 16 ∧
    (∀ x ∈ ((generator.NewGenerator c b).GenerateRandomCardNumber rand).toList,
      x.isDigit = true) ∧
    ((generator.NewGenerator c b).GenerateRandomCvv rand).length = 3 ∧
    (∀ x ∈ ((generator.NewGenerator c b).GenerateRandomCvv rand).toList,
      x.isDigit = true) := by
  refine ⟨⟨(generator.NewGenerator c b).randStringRunes rand 2,
      (generator.NewGenerator c b).randStringRunes (fun i => rand (2 + i)) 14,
      randStringRunes_length _ _ _, randStringRunes_digits c b _ _,
      randStringRunes_length _ _ _, randStringRunes_digits c b _ _, rfl⟩, ?_,
    randStringRunes_length _ _ _, randStringRunes_digits c b _ _,
    randStringRunes_length _ _ _, randStringRunes_digits c b _ _⟩
  simp only [generator.Generator.GenerateRandomIban, String.length_append,
    randStringRunes_length]
  have h5 : "00000".length = 5 := by decide
  rw [h5]
  show (generator.NewGenerator c b).countryCode.length + 2 +
    (generator.NewGenerator c b).bankCode.length + 5 + 14 = c.length + b.length + 21
  simp only [generator.NewGenerator]
  omega

end Generators

/-! ## Transaction lists -/

section Tags

variable {α : Type}

/-- The tag of a row. -/
theorem tagType_Type (accountID : Int) (t : models.Transaction α) :
    (repository.Transactions.tagType accountID t).Type_ =
      if t.ToAccount = accountID then repository.ingoingTransactionType
      else repository.outgoingTransactionType := by
  unfold repository.Transactions.tagType
  by_cases h : t.ToAccount = accountID <;> simp [models.Transaction.ToDomain, h]

end Tags

section Listing
variable {α : Type} [LinearOrderedAddCommGroup α]

/-- An accepted call of the repository `GetTransactionList` returns the tagged rows
of one page of the sorted selection. -/
theorem GetTransactionList_rows (env : Env) (w : World α) (accountID : Int)
    (ordering : Option domain.Orderings) (paginator : domain.Paginator)
    (list : List (domain.Transaction α))
    (hok : (repository.Transactions.GetTransactionList env w accountID ordering paginator).1 =
      .ok list) :
    ∃ cs : List (models.Transaction α → models.Transaction α → Ordering),
      (ordering = none → cs = [fun a b => compare a.ID b.ID]) ∧
      (∀ parts, ordering = some parts → repository.Transactions.orderTerms parts = some cs) ∧
      list =
        ((((w.transactions.filter fun t =>
              t.FromAccount == some accountID || t.ToAccount == accountID).insertionSort
            fun a b => lexCompare cs a b ≠ .gt).drop
          (toUint64 ((paginator.Page - 1) * paginator.PerPage))).take
          (toUint64 paginator.PerPage)).map (repository.Transactions.tagType accountID) := by
  unfold repository.Transactions.GetTransactionList at hok
  split at hok
  · simp at hok
  dsimp only at hok
  split at hok
  · simp at hok
  · rename_i cs hcs
    refine ⟨cs, ?_, ?_, ?_⟩
    · rintro rfl
      simpa using hcs.symm
    · rintro parts rfl
      simpa using hcs
    split at hok
    · simp at hok
    · split at hok
      · simp at hok
      · simpa using hok.symm

/-- C17, counterexample: after user 1 of the sample store transfers 60 from
account 1 to the IBAN of account 1, the ledger row has account 1 as its source,
and the list of account 1 returns it with Type `ingoing`, not `outgoing`. -/
theorem self_transfer_row_tagged_ingoing :
    (service.Account.TransferAccount (Env.calm 7) sampleWorld 1 1 60
      "UA031234560000039096125330468").2.transactions =
      [{ ID := 1, FromAccount := some 1, ToAccount := 1, Amount := 60, Status := "SENT",
         DateCreated := 7, DateUpdated := some 7 }] ∧
    (repository.Transactions.GetTransactionList (Env.calm 8)
      (service.Account.TransferAccount (Env.calm 7) sampleWorld 1 1 60
        "UA031234560000039096125330468").2 1 none { Page := 1, PerPage := 10 }).1 =
      .ok [{ ID := 1, FromAccount := 1, ToAccount := 1, Amount := 60, Type_ := "ingoing",
             Status := "SENT", DateCreated := 7, DateUpdated := 7 }] := by
  decide

/-- C17.  Every transaction returned by the repository `GetTransactionList` is a
row of the table that has the account as its source or its destination; its Type
is `ingoing` exactly when the account is the destination of the row and
`outgoing` exactly when it is not, and the account is then the source; for a row
whose source and destination differ the Type is `outgoing` exactly when the
account is the source. -/
theorem GetTransactionList_tags (env : Env) (w : World α) (accountID : Int)
    (ordering : Option domain.Orderings) (paginator : domain.Paginator)
    (list : List (domain.Transaction α))
    (hok : (repository.Transactions.GetTransactionList env w accountID ordering paginator).1 =
      .ok list) :
    ∀ d ∈ list, ∃ t ∈ w.transactions,
      d = { t.ToDomain with Type_ := d.Type_ } ∧
      (t.FromAccount = some accountID ∨ t.ToAccount = accountID) ∧
      (d.Type_ = repository.ingoingTransactionType ∨
        d.Type_ = repository.outgoingTransactionType) ∧
      (d.Type_ = repository.ingoingTransactionType ↔ t.ToAccount = accountID) ∧
      (d.Type_ = repository.outgoingTransactionType ↔ t.ToAccount ≠ accountID) ∧
      (d.Type_ = repository.outgoingTransactionType → t.FromAccount = some accountID) ∧
      (t.FromAccount ≠ some t.ToAccount →
        (d.Type_ = repository.outgoingTransactionType ↔ t.FromAccount = some accountID)) := by
  obtain ⟨cs, -, -, rfl⟩ := GetTransactionList_rows env w accountID ordering paginator list hok
  intro d hd
  obtain ⟨t, ht, rfl⟩ := List.mem_map.mp hd
  have ht := (List.mem_insertionSort _).mp (List.mem_of_mem_drop (List.mem_of_mem_take ht))
  obtain ⟨hmem, hsel⟩ := List.mem_filter.mp ht
  have hsel : t.FromAccount = some accountID ∨ t.ToAccount = accountID := by
    simpa using hsel
  refine ⟨t, hmem, ?_, hsel, ?_⟩
  · unfold repository.Transactions.tagType
    by_cases h : t.ToAccount = accountID <;> simp [models.Transaction.ToDomain, h]
  rw [tagType_Type]
  by_cases h : t.ToAccount = accountID
  · subst h
    simp [repository.ingoingTransactionType, repository.outgoingTransactionType]
  · have hfrom : t.FromAccount = some accountID := hsel.resolve_right h
    simp [repository.ingoingTransactionType, repository.outgoingTransactionType, h, hfrom]

/-- C17, witness: the list of account 1 in the sample ledger has the transfer to
account 2 as `outgoing` and the deposit as `ingoing`. -/
theorem GetTransactionList_tags_witness :
    (repository.Transactions.GetTransactionList (Env.calm 8) sampleLedger 1 none
      { Page := 1, PerPage := 10 }).1 =
      .ok [{ ID := 1, FromAccount := 1, ToAccount := 2, Amount := 10, Type_ := "outgoing",
             Status := "PREPARED", DateCreated := 3, DateUpdated := 0 },
           { ID := 2, FromAccount := 0, ToAccount := 1, Amount := 20, Type_ := "ingoing",
             Status := "SENT", DateCreated := 4, DateUpdated := 5 }] ∧
    ∃ t ∈ sampleLedger.transactions,
      (t.FromAccount = some 1 ∨ t.ToAccount = 1) ∧
      (repository.outgoingTransactionType = repository.outgoingTransactionType ↔
        t.ToAccount ≠ 1) :=
  ⟨by decide,
    let ⟨t, ht, _, h1, _, _, h2, _⟩ :=
      GetTransactionList_tags (Env.calm 8) sampleLedger 1 none { Page := 1, PerPage := 10 }
        [{ ID := 1, FromAccount := 1, ToAccount := 2, Amount := 10, Type_ := "outgoing",
           Status := "PREPARED", DateCreated := 3, DateUpdated := 0 },
         { ID := 2, FromAccount := 0, ToAccount := 1, Amount := 20, Type_ := "ingoing",
           Status := "SENT", DateCreated := 4, DateUpdated := 5 }]
        (by decide)
        { ID := 1, FromAccount := 1, ToAccount := 2, Amount := 10, Type_ := "outgoing",
          Status := "PREPARED", DateCreated := 3, DateUpdated := 0 } (by simp)
    ⟨t, ht, h1, h2⟩⟩

end Listing

/-! ## Pagination -/

section Sorting

/-- Sorting by two relations that agree gives the same list. -/
theorem insertionSort_congr {β : Type} (r s : β → β → Prop) [DecidableRel r] [DecidableRel s]
    (h : ∀ a b, r a b ↔ s a b) (l : List β) :
    l.insertionSort r = l.insertionSort s := by
  have hins : ∀ (a : β) (l : List β), l.orderedInsert r a = l.orderedInsert s a := by
    intro a l
    induction l with
    | nil => rfl
    | cons b l ih =>
      by_cases hab : r a b
      · simp [List.orderedInsert, hab, (h a b).mp hab]
      · have hs : ¬ s a b := fun hs => hab ((h a b).mpr hs)
        simp [List.orderedInsert, hab, hs, ih]
  induction l with
  | nil => rfl
  | cons a l ih => simp [List.insertionSort, ih, hins]

/-- The order `id ASC` on two rows. -/
theorem lexCompare_id {α : Type} (a b : models.Transaction α) :
    lexCompare [fun x y : models.Transaction α => compare x.ID y.ID] a b ≠ .gt ↔
      a.ID ≤ b.ID := by
  simp only [lexCompare]
  rcases lt_trichotomy a.ID b.ID with h | h | h
  · simp [compare_lt_iff_lt.mpr h, Ordering.then, h.le]
  · simp [compare_eq_iff_eq.mpr h, Ordering.then, h.le]
  · simp [compare_gt_iff_gt.mpr h, Ordering.then, h]

/-- The conversion `uint64(x)` keeps a value between `0` and `2 ^ 63`. -/
theorem toUint64_of_nonneg (x : Int) (h0 : 0 ≤ x) (h1 : x < 2 ^ 63) : toUint64 x = x.toNat := by
  unfold toUint64
  rw [Int.emod_eq_of_lt h0 (by omega)]

end Sorting

section Paging
variable {α : Type} [LinearOrderedAddCommGroup α]

/-- C18, counterexample: on the sample ledger, page 1 with per-page -1 panics in
`make([]models.Transaction, 0, -1)` before any statement is issued; page 0 with
per-page 1 sends the offset `uint64(-1) = 18446744073709551615`, and the call
panics on the nil rows when the storage rejects it.  Neither call returns the
elements at the offsets of its page. -/
theorem GetTransactionList_negative_per_page :
    repository.Transactions.GetTransactionList (Env.calm 8) sampleLedger 1 none
      { Page := 1, PerPage := -1 } = (.error makeslicePanic, sampleLedger) ∧
    toUint64 ((0 - 1) * 1) = 18446744073709551615 ∧
    (repository.Transactions.GetTransactionList (Env.calm 8) sampleLedger 1 none
      { Page := 0, PerPage := 1 }).1 = .error nilRowsPanic := by
  decide

/-- C18.  With no ordering, page `p ≥ 1` and per-page `n ≥ 0` that is a capacity
`make` accepts, limit `n` and offset `(p - 1) * n` below `2 ^ 63`, and the query
not rejected, the repository `GetTransactionList` returns the tagged elements at offsets
`(p - 1) * n` up to `(p - 1) * n + n - 1` of the transactions of the account
sorted by ascending id: at most `n` elements, in ascending id order. -/
theorem GetTransactionList_page (env : Env) (w : World α) (accountID : Int) (p n : Int)
    (hq : env.fails .GetTransactionList = false)
    (hp : 1 ≤ p) (hn : 0 ≤ n) (hcap : n ≤ env.maxCap) (hlim : n < 2 ^ 63)
    (hoff : (p - 1) * n < 2 ^ 63) :
    ∃ (ordered : List (models.Transaction α)) (list : List (domain.Transaction α)),
      ordered = (w.transactions.filter fun t =>
        t.FromAccount == some accountID || t.ToAccount == accountID).insertionSort
          (fun a b => a.ID ≤ b.ID) ∧
      ordered.Perm (w.transactions.filter fun t =>
        t.FromAccount == some accountID || t.ToAccount == accountID) ∧
      ordered.Sorted (fun a b => a.ID ≤ b.ID) ∧
      (repository.Transactions.GetTransactionList env w accountID none
        { Page := p, PerPage := n }).1 = .ok list ∧
      list = ((ordered.drop ((p - 1) * n).toNat).take n.toNat).map
        (repository.Transactions.tagType accountID) ∧
      (list.length : Int) ≤ n ∧
      (∀ i : Nat, (i : Int) < n →
        list[i]? = (ordered.map (repository.Transactions.tagType accountID))[
          ((p - 1) * n).toNat + i]?) ∧
      (list.map fun d => d.ID).Sorted (fun a b => a ≤ b) := by
  have hoff0 : 0 ≤ (p - 1) * n := mul_nonneg (by omega) hn
  have hsorted : ((w.transactions.filter fun t =>
      t.FromAccount == some accountID || t.ToAccount == accountID).insertionSort
        (fun a b => a.ID ≤ b.ID)).Sorted (fun a b => a.ID ≤ b.ID) := by
    haveI : IsTotal (models.Transaction α) (fun a b => a.ID ≤ b.ID) :=
      ⟨fun a b => le_total a.ID b.ID⟩
    haveI : IsTrans (models.Transaction α) (fun a b => a.ID ≤ b.ID) :=
      ⟨fun a b c hab hbc => le_trans hab hbc⟩
    exact List.sorted_insertionSort _ _
  refine ⟨_, _, rfl, List.perm_insertionSort _ _, hsorted, ?_, rfl, ?_, ?_, ?_⟩
  · unfold repository.Transactions.GetTransactionList
    have h1 : ¬ (2 : Nat) ^ 63 ≤ n.toNat := by omega
    have h2 : ¬ (2 : Nat) ^ 63 ≤ ((p - 1) * n).toNat := by omega
    have h0 : ¬ (n < 0 ∨ (env.maxCap : Int) < n) := by omega
    simp only [h0, ↓reduceIte]
    rw [insertionSort_congr _ (fun a b : models.Transaction α => a.ID ≤ b.ID) lexCompare_id]
    simp only [hq, Bool.false_eq_true, ↓reduceIte, h1, h2, decide_False, Bool.or_self,
      Bool.and_false, toUint64_of_nonneg n hn hlim, toUint64_of_nonneg _ hoff0 hoff]
  · simp only [List.length_map, List.length_take]
    omega
  · intro i hi
    have hi : i < n.toNat := by omega
    simp [List.getElem?_take, hi, List.getElem?_drop]
  · rw [List.map_map]
    have hid : ((fun d : domain.Transaction α => d.ID) ∘
        repository.Transactions.tagType accountID) = fun t : models.Transaction α => t.ID := by
      funext t
      unfold repository.Transactions.tagType
      by_cases h : t.ToAccount = accountID <;> simp [models.Transaction.ToDomain, h]
    rw [hid]
    have hsub : (List.take n.toNat (List.drop ((p - 1) * n).toNat
        ((w.transactions.filter fun t =>
          t.FromAccount == some accountID || t.ToAccount == accountID).insertionSort
            (fun a b => a.ID ≤ b.ID)))).Sorted (fun a b => a.ID ≤ b.ID) :=
      (hsorted.sublist (List.drop_sublist _ _)).sublist (List.take_sublist _ _)
    exact (List.pairwise_map).mpr hsub

/-- C18, witness: page 2 with per-page 1 of account 1 in the sample ledger is the
second transaction in id order. -/
theorem GetTransactionList_page_witness :
    ∃ (ordered : List (models.Transaction Int)) (list : List (domain.Transaction Int)),
      ordered = (sampleLedger.transactions.filter fun t =>
        t.FromAccount == some 1 || t.ToAccount == 1).insertionSort
          (fun a b => a.ID ≤ b.ID) ∧
      ordered.Perm (sampleLedger.transactions.filter fun t =>
        t.FromAccount == some 1 || t.ToAccount == 1) ∧
      ordered.Sorted (fun a b => a.ID ≤ b.ID) ∧
      (repository.Transactions.GetTransactionList (Env.calm 8) sampleLedger 1 none
        { Page := 2, PerPage := 1 }).1 = .ok list ∧
      list = ((ordered.drop ((2 - 1) * 1 : Int).toNat).take (1 : Int).toNat).map
        (repository.Transactions.tagType 1) ∧
      (list.length : Int) ≤ 1 ∧
      (∀ i : Nat, (i : Int) < 1 →
        list[i]? = (ordered.map (repository.Transactions.tagType 1))[
          ((2 - 1) * 1 : Int).toNat + i]?) ∧
      (list.map fun d => d.ID).Sorted (fun a b => a ≤ b) :=
  GetTransactionList_page (Env.calm 8) sampleLedger 1 2 1 (by decide) (by decide) (by decide)
    (by decide) (by decide) (by decide)

end Paging

/-! ## Ordering by several fields -/

section VisitOrder

/-- C19, evaluation: after two deposits to account 1 of the sample store, made at
times 7 and 9, the list of account 1 is asked for with the ordering map
`{id: desc, date_updated: asc}`.  When the range loop over the map visits `id`
first the transactions come back with ids 2, 1; when it visits `date_updated`
first they come back with ids 1, 2. -/
theorem GetTransactionList_depends_on_visit_order :
    ((service.Account.DepositAccount (Env.calm 9)
      (service.Account.DepositAccount (Env.calm 7) sampleWorld 1 5).2 1 6).2.transactions.map
        fun t => (t.ID, t.DateUpdated)) = [(1, some 7), (2, some 9)] ∧
    ((repository.Transactions.GetTransactionList (Env.calm 10)
      (service.Account.DepositAccount (Env.calm 9)
        (service.Account.DepositAccount (Env.calm 7) sampleWorld 1 5).2 1 6).2 1
      (some [("id", "desc"), ("date_updated", "asc")])
      { Page := 1, PerPage := 10 }).1.toOption.map (List.map fun d => d.ID)) = some [2, 1] ∧
    ((repository.Transactions.GetTransactionList (Env.calm 10)
      (service.Account.DepositAccount (Env.calm 9)
        (service.Account.DepositAccount (Env.calm 7) sampleWorld 1 5).2 1 6).2 1
      (some [("date_updated", "asc"), ("id", "desc")])
      { Page := 1, PerPage := 10 }).1.toOption.map (List.map fun d => d.ID)) = some [1, 2] := by
  decide

end VisitOrder

/-! ## Blocking a user -/

section Blocking
variable {α : Type}

/-- C20.  `BlockUser` with `blockUserID = userID` returns an error and leaves the
store as it was: no statement is executed, no blocked flag changes, no event is
appended.  With different ids a call that returns nil has set the blocked flag of
every user row with the id `blockUserID`, left the other rows as they were, and
appended exactly one event, of type USER_BLOCKED, whose UserID is `blockUserID`. -/
theorem BlockUser_contract (env : Env) (w : World α) (blockUserID userID : Int) :
    (blockUserID = userID →
      service.User.BlockUser env w blockUserID userID =
        (.error "user cannot block himself error", w)) ∧
    (blockUserID ≠ userID →
      (service.User.BlockUser env w blockUserID userID).1 = .ok () →
      (service.User.BlockUser env w blockUserID userID).2.users =
        w.users.map (fun u => if u.ID = blockUserID then { u with Blocked := true } else u) ∧
      (∀ u ∈ (service.User.BlockUser env w blockUserID userID).2.users,
        u.ID = blockUserID → u.Blocked = true) ∧
      ∃ e, (service.User.BlockUser env w blockUserID userID).2.events = w.events ++ [e] ∧
        e.Type_ = domain.UserBlockedEvent ∧ e.UserID = blockUserID ∧ e.Metadata = []) := by
  constructor
  · rintro rfl
    simp [service.User.BlockUser, errors.New]
  · intro hne
    generalize hr : service.User.BlockUser env w blockUserID userID = r
    unfold service.User.BlockUser at hr
    simp only [beq_iff_eq, hne, ↓reduceIte] at hr
    cases h1 : env.fails .BlockUser <;>
      simp only [repository.Users.BlockUser, h1, Bool.false_eq_true, ↓reduceIte] at hr
    swap
    · subst hr; simp
    cases h2 : env.fails .CreateEvent <;>
      simp only [repository.Event.CreateEvent, h2, Bool.false_eq_true, ↓reduceIte] at hr
    swap
    · subst hr; simp
    subst hr
    intro _
    refine ⟨by simp, ?_, ?_⟩
    · intro u hu hid
      simp only [World.log_users, List.mem_map] at hu
      obtain ⟨v, -, rfl⟩ := hu
      by_cases hv : v.ID = blockUserID
      · simp [hv]
      · simp [hv] at hid
    · exact ⟨_, rfl, rfl, rfl, rfl⟩

/-- C20, witness: in the sample store user 1 cannot block user 1, and user 1
blocking user 2 sets the flag of user 2 only and appends one event. -/
theorem BlockUser_contract_witness :
    service.User.BlockUser (Env.calm 7) sampleWorld 1 1 =
      (.error "user cannot block himself error", sampleWorld) ∧
    (service.User.BlockUser (Env.calm 7) sampleWorld 2 1).1 = .ok () ∧
    ((service.User.BlockUser (Env.calm 7) sampleWorld 2 1).2.users.map
      fun u => (u.ID, u.Blocked)) = [(1, false), (2, true)] ∧
    ∃ e, (service.User.BlockUser (Env.calm 7) sampleWorld 2 1).2.events =
        sampleWorld.events ++ [e] ∧
      e.Type_ = domain.UserBlockedEvent ∧ e.UserID = 2 ∧ e.Metadata = [] :=
  ⟨(BlockUser_contract (Env.calm 7) sampleWorld 1 1).1 rfl, by decide, by decide,
    ((BlockUser_contract (Env.calm 7) sampleWorld 2 1).2 (by decide) (by decide)).2.2⟩

end Blocking

/-! ## Blocked accounts and money movement -/

section Erase
variable {α : Type}

/-- Logging a statement commutes with clearing the blocked flags. -/
@[simp] theorem World.eraseBlocked_log (w : World α) (s : Stmt) (b : Bool) :
    w.eraseBlocked.log s b = (w.log s b).eraseBlocked := rfl

/-- Clearing the blocked flags changes no search by id, user, IBAN. -/
theorem find?_eraseBlocked (p : models.Account α → Bool)
    (hp : ∀ a : models.Account α, p { a with Blocked := false } = p a) (w : World α) :
    w.eraseBlocked.accounts.find? p =
      (w.accounts.find? p).map fun a => { a with Blocked := false } :=
  find?_map_of_pres p _ hp w.accounts

/-- The repository method `ExistsAccount` commutes with clearing the blocked flags. -/
theorem ExistsAccount_eraseBlocked (env : Env) (w : World α) (accountID : Int) :
    repository.Account.ExistsAccount env w.eraseBlocked accountID =
      ((repository.Account.ExistsAccount env w accountID).1,
        (repository.Account.ExistsAccount env w accountID).2.eraseBlocked) := by
  unfold repository.Account.ExistsAccount
  cases h : env.fails .ExistsAccount <;> simp [World.eraseBlocked, World.log, List.any_map, Function.comp_def]

/-- The repository method `CreateTransaction` commutes with clearing the blocked flags. -/
theorem CreateTransaction_eraseBlocked (env : Env) (w : World α) (fromAccountID toAccountID : Int)
    (amount : α) :
    repository.Transactions.CreateTransaction env w.eraseBlocked fromAccountID toAccountID amount =
      ((repository.Transactions.CreateTransaction env w fromAccountID toAccountID amount).1,
        (repository.Transactions.CreateTransaction env w fromAccountID toAccountID
          amount).2.eraseBlocked) := by
  unfold repository.Transactions.CreateTransaction
  cases h : env.fails .CreateTransaction <;> simp [World.eraseBlocked, World.log]

/-- The repository method `SetTransactionStatusToSent` commutes with clearing the blocked flags. -/
theorem SetTransactionStatusToSent_eraseBlocked (env : Env) (w : World α) (transactionID : Int) :
    repository.Transactions.SetTransactionStatusToSent env w.eraseBlocked transactionID =
      ((repository.Transactions.SetTransactionStatusToSent env w transactionID).1,
        (repository.Transactions.SetTransactionStatusToSent env w transactionID).2.eraseBlocked) := by
  unfold repository.Transactions.SetTransactionStatusToSent
  cases h : env.fails .SetTransactionStatusToSent <;> simp [World.eraseBlocked, World.log]

/-- The repository method `CreateEvent` commutes with clearing the blocked flags. -/
theorem CreateEvent_eraseBlocked (env : Env) (w : World α) (event : domain.Event α) :
    repository.Event.CreateEvent env w.eraseBlocked event =
      ((repository.Event.CreateEvent env w event).1,
        (repository.Event.CreateEvent env w event).2.eraseBlocked) := by
  unfold repository.Event.CreateEvent
  cases h : env.fails .CreateEvent <;> simp [World.eraseBlocked, World.log]

/-- The repository method `GetAccountCurrencyIDByID` commutes with clearing the blocked flags. -/
theorem GetAccountCurrencyIDByID_eraseBlocked (env : Env) (w : World α) (accountID : Int) :
    repository.Account.GetAccountCurrencyIDByID env w.eraseBlocked accountID =
      ((repository.Account.GetAccountCurrencyIDByID env w accountID).1,
        (repository.Account.GetAccountCurrencyIDByID env w accountID).2.eraseBlocked) := by
  unfold repository.Account.GetAccountCurrencyIDByID
  rw [find?_eraseBlocked (fun a => a.ID == accountID) (fun _ => rfl)]
  cases h : env.fails .GetAccountCurrencyIDByID <;> simp only [h, Bool.false_eq_true, ↓reduceIte]
  swap
  · simp
  cases w.accounts.find? fun a => a.ID == accountID <;> simp

/-- The repository method `GetAccountCurrencyIDByIban` commutes with clearing the blocked flags. -/
theorem GetAccountCurrencyIDByIban_eraseBlocked (env : Env) (w : World α) (iban : String) :
    repository.Account.GetAccountCurrencyIDByIban env w.eraseBlocked iban =
      ((repository.Account.GetAccountCurrencyIDByIban env w iban).1,
        (repository.Account.GetAccountCurrencyIDByIban env w iban).2.eraseBlocked) := by
  unfold repository.Account.GetAccountCurrencyIDByIban
  rw [find?_eraseBlocked (fun a => a.Iban == iban) (fun _ => rfl)]
  cases h : env.fails .GetAccountCurrencyIDByIban <;>
    simp only [h, Bool.false_eq_true, ↓reduceIte]
  swap
  · simp
  cases w.accounts.find? fun a => a.Iban == iban <;> simp

/-- The repository method `GetAccountAmount` commutes with clearing the blocked flags. -/
theorem GetAccountAmount_eraseBlocked (env : Env) (w : World α) (accountID userID : Int) :
    repository.Account.GetAccountAmount env w.eraseBlocked accountID userID =
      ((repository.Account.GetAccountAmount env w accountID userID).1,
        (repository.Account.GetAccountAmount env w accountID userID).2.eraseBlocked) := by
  unfold repository.Account.GetAccountAmount
  rw [find?_eraseBlocked (fun a => a.ID == accountID && a.UserID == userID) (fun _ => rfl)]
  cases h : env.fails .GetAccountAmount <;> simp only [h, Bool.false_eq_true, ↓reduceIte]
  swap
  · simp
  cases w.accounts.find? fun a => a.ID == accountID && a.UserID == userID <;> simp

/-- The repository method `GetAccountIDByIban` commutes with clearing the blocked flags. -/
theorem GetAccountIDByIban_eraseBlocked (env : Env) (w : World α) (iban : String) :
    repository.Account.GetAccountIDByIban env w.eraseBlocked iban =
      ((repository.Account.GetAccountIDByIban env w iban).1,
        (repository.Account.GetAccountIDByIban env w iban).2.eraseBlocked) := by
  unfold repository.Account.GetAccountIDByIban
  rw [find?_eraseBlocked (fun a => a.Iban == iban) (fun _ => rfl)]
  cases h : env.fails .GetAccountIDByIban <;> simp only [h, Bool.false_eq_true, ↓reduceIte]
  swap
  · simp
  cases w.accounts.find? fun a => a.Iban == iban <;> simp

end Erase

section EraseRepo
variable {α : Type} [LinearOrderedAddCommGroup α]

/-- The repository method `DepositAccount` commutes with clearing the blocked flags. -/
theorem repository_DepositAccount_eraseBlocked (env : Env) (w : World α) (accountID : Int)
    (amount : α) :
    repository.Account.DepositAccount env w.eraseBlocked accountID amount =
      ((repository.Account.DepositAccount env w accountID amount).1,
        (repository.Account.DepositAccount env w accountID amount).2.eraseBlocked) := by
  unfold repository.Account.DepositAccount
  cases h : env.fails .DepositAccount <;>
    simp [World.eraseBlocked, World.log, repository.Account.creditByID]
  intro a _
  split <;> rfl

/-- The repository method `TransferAccount` commutes with clearing the blocked flags. -/
theorem repository_TransferAccount_eraseBlocked (env : Env) (w : World α)
    (fromAccountID userID : Int) (amount : α) (toAccountIban : String) :
    repository.Account.TransferAccount env w.eraseBlocked fromAccountID userID amount
        toAccountIban =
      ((repository.Account.TransferAccount env w fromAccountID userID amount toAccountIban).1,
        (repository.Account.TransferAccount env w fromAccountID userID amount
          toAccountIban).2.eraseBlocked) := by
  unfold repository.Account.TransferAccount
  cases h1 : env.fails .TransferBegin <;> simp only [h1, Bool.false_eq_true, ↓reduceIte]
  swap
  · simp [World.eraseBlocked, World.log]
  cases h2 : env.fails .TransferDebit <;> simp only [h2, Bool.false_eq_true, ↓reduceIte]
  swap
  · cases h2r : env.fails .TransferRollback <;> simp [World.eraseBlocked, World.log]
  cases h3 : env.fails .TransferCredit <;> simp only [h3, Bool.false_eq_true, ↓reduceIte]
  swap
  · cases h3r : env.fails .TransferRollback <;> simp [World.eraseBlocked, World.log]
  cases h4 : env.fails .TransferCommit <;>
    simp [World.eraseBlocked, World.log, repository.Account.creditByIban,
      repository.Account.debitByIDAndUser]
  intro a _
  split <;> split <;> simp_all

end EraseRepo

section EraseService
variable {α : Type} [LinearOrderedAddCommGroup α]

/-- DepositAccount on the store with the blocked flags cleared gives the same result
and the final store of the original call with the blocked flags cleared. -/
theorem service_DepositAccount_eraseBlocked (env : Env) (w : World α) (accountID : Int)
    (amount : α) :
    service.Account.DepositAccount env w.eraseBlocked accountID amount =
      ((service.Account.DepositAccount env w accountID amount).1,
        (service.Account.DepositAccount env w accountID amount).2.eraseBlocked) := by
  unfold service.Account.DepositAccount
  rw [ExistsAccount_eraseBlocked]
  generalize repository.Account.ExistsAccount env w accountID = x1
  obtain ⟨r1, w1⟩ := x1
  rcases r1 with e | b
  · rfl
  cases b
  · rfl
  dsimp only
  rw [CreateTransaction_eraseBlocked]
  generalize repository.Transactions.CreateTransaction env w1 service.fromAccountIDForDeposit
    accountID amount = x2
  obtain ⟨r2, w2⟩ := x2
  rcases r2 with e | tr
  · rfl
  dsimp only
  rw [repository_DepositAccount_eraseBlocked]
  generalize repository.Account.DepositAccount env w2 accountID amount = x3
  obtain ⟨r3, w3⟩ := x3
  rcases r3 with e | u
  · rfl
  dsimp only
  rw [SetTransactionStatusToSent_eraseBlocked]
  generalize repository.Transactions.SetTransactionStatusToSent env w3 tr.ID = x4
  obtain ⟨r4, w4⟩ := x4
  rcases r4 with e | u
  · rfl
  dsimp only
  rw [CreateEvent_eraseBlocked]
  generalize repository.Event.CreateEvent env w4 _ = x5
  obtain ⟨r5, w5⟩ := x5
  rcases r5 with e | u <;> rfl

/-- TransferAccount on the store with the blocked flags cleared gives the same
result and the final store of the original call with the blocked flags cleared. -/
theorem service_TransferAccount_eraseBlocked (env : Env) (w : World α)
    (fromAccountID userID : Int) (amount : α) (toAccountIban : String) :
    service.Account.TransferAccount env w.eraseBlocked fromAccountID userID amount
        toAccountIban =
      ((service.Account.TransferAccount env w fromAccountID userID amount toAccountIban).1,
        (service.Account.TransferAccount env w fromAccountID userID amount
          toAccountIban).2.eraseBlocked) := by
  unfold service.Account.TransferAccount
  rw [GetAccountCurrencyIDByID_eraseBlocked]
  generalize repository.Account.GetAccountCurrencyIDByID env w fromAccountID = x1
  obtain ⟨r1, w1⟩ := x1
  rcases r1 with e | fromCurrency
  · rfl
  dsimp only
  rw [GetAccountCurrencyIDByIban_eraseBlocked]
  generalize repository.Account.GetAccountCurrencyIDByIban env w1 toAccountIban = x2
  obtain ⟨r2, w2⟩ := x2
  rcases r2 with e | toCurrency
  · rfl
  dsimp only
  by_cases hc : (fromCurrency != toCurrency) = true
  · simp only [hc, ↓reduceIte]
  simp only [hc, Bool.false_eq_true, ↓reduceIte]
  rw [GetAccountAmount_eraseBlocked]
  generalize repository.Account.GetAccountAmount env w2 fromAccountID userID = x3
  obtain ⟨r3, w3⟩ := x3
  rcases r3 with e | enough
  · rfl
  dsimp only
  by_cases hlt : enough < amount
  · simp only [hlt, ↓reduceIte]
  simp only [hlt, ↓reduceIte]
  rw [GetAccountIDByIban_eraseBlocked]
  generalize repository.Account.GetAccountIDByIban env w3 toAccountIban = x4
  obtain ⟨r4, w4⟩ := x4
  rcases r4 with e | toAccountID
  · rfl
  dsimp only
  rw [CreateTransaction_eraseBlocked]
  generalize repository.Transactions.CreateTransaction env w4 fromAccountID toAccountID
    amount = x5
  obtain ⟨r5, w5⟩ := x5
  rcases r5 with e | tr
  · rfl
  dsimp only
  rw [repository_TransferAccount_eraseBlocked]
  generalize repository.Account.TransferAccount env w5 fromAccountID userID amount
    toAccountIban = x6
  obtain ⟨r6, w6⟩ := x6
  rcases r6 with e | u
  · rfl
  dsimp only
  rw [SetTransactionStatusToSent_eraseBlocked]
  generalize repository.Transactions.SetTransactionStatusToSent env w6 tr.ID = x7
  obtain ⟨r7, w7⟩ := x7
  rcases r7 with e | u
  · rfl
  dsimp only
  rw [CreateEvent_eraseBlocked]
  generalize repository.Event.CreateEvent env w7 _ = x8
  obtain ⟨r8, w8⟩ := x8
  rcases r8 with e | u <;> rfl

/-- C21.  Two stores that differ only in the blocked flag of some accounts (they
are equal once every blocked flag is cleared) give, for DepositAccount and for
TransferAccount with the same arguments, the same result and final stores that
again differ only in blocked flags: the same account ids with the same balances
in the same order, the same transactions and the same events. -/
theorem blocked_flag_no_effect (env : Env) (w1 w2 : World α)
    (hw : w1.eraseBlocked = w2.eraseBlocked)
    (accountID fromAccountID userID : Int) (amount : α) (toAccountIban : String) :
    ((service.Account.DepositAccount env w1 accountID amount).1 =
        (service.Account.DepositAccount env w2 accountID amount).1 ∧
      (service.Account.DepositAccount env w1 accountID amount).2.eraseBlocked =
        (service.Account.DepositAccount env w2 accountID amount).2.eraseBlocked ∧
      ((service.Account.DepositAccount env w1 accountID amount).2.accounts.map
          fun a => (a.ID, a.Amount)) =
        ((service.Account.DepositAccount env w2 accountID amount).2.accounts.map
          fun a => (a.ID, a.Amount)) ∧
      (service.Account.DepositAccount env w1 accountID amount).2.transactions =
        (service.Account.DepositAccount env w2 accountID amount).2.transactions ∧
      (service.Account.DepositAccount env w1 accountID amount).2.events =
        (service.Account.DepositAccount env w2 accountID amount).2.events) ∧
    ((service.Account.TransferAccount env w1 fromAccountID userID amount toAccountIban).1 =
        (service.Account.TransferAccount env w2 fromAccountID userID amount toAccountIban).1 ∧
      (service.Account.TransferAccount env w1 fromAccountID userID amount
          toAccountIban).2.eraseBlocked =
        (service.Account.TransferAccount env w2 fromAccountID userID amount
          toAccountIban).2.eraseBlocked ∧
      ((service.Account.TransferAccount env w1 fromAccountID userID amount
          toAccountIban).2.accounts.map fun a => (a.ID, a.Amount)) =
        ((service.Account.TransferAccount env w2 fromAccountID userID amount
          toAccountIban).2.accounts.map fun a => (a.ID, a.Amount)) ∧
      (service.Account.TransferAccount env w1 fromAccountID userID amount
          toAccountIban).2.transactions =
        (service.Account.TransferAccount env w2 fromAccountID userID amount
          toAccountIban).2.transactions ∧
      (service.Account.TransferAccount env w1 fromAccountID userID amount
          toAccountIban).2.events =
        (service.Account.TransferAccount env w2 fromAccountID userID amount
          toAccountIban).2.events) := by
  have key : ∀ a b : World α, a.eraseBlocked = b.eraseBlocked →
      (a.accounts.map fun x => (x.ID, x.Amount)) = (b.accounts.map fun x => (x.ID, x.Amount)) ∧
      a.transactions = b.transactions ∧ a.events = b.events := by
    intro a b h
    have ht : a.eraseBlocked.transactions = b.eraseBlocked.transactions := by rw [h]
    have he : a.eraseBlocked.events = b.eraseBlocked.events := by rw [h]
    refine ⟨?_, ht, he⟩
    have h1 := congrArg (fun w : World α => w.accounts.map fun x => (x.ID, x.Amount)) h
    simpa [World.eraseBlocked, List.map_map, Function.comp_def] using h1
  have hd := service_DepositAccount_eraseBlocked env w1 accountID amount
  have hd2 := service_DepositAccount_eraseBlocked env w2 accountID amount
  have ht := service_TransferAccount_eraseBlocked env w1 fromAccountID userID amount
    toAccountIban
  have ht2 := service_TransferAccount_eraseBlocked env w2 fromAccountID userID amount
    toAccountIban
  rw [hw] at hd ht
  rw [hd2] at hd
  rw [ht2] at ht
  have e1 := congrArg Prod.fst hd
  have e2 := congrArg Prod.snd hd
  have e3 := congrArg Prod.fst ht
  have e4 := congrArg Prod.snd ht
  dsimp only at e1 e2 e3 e4
  exact ⟨⟨e1.symm, e2.symm, key _ _ e2.symm⟩, ⟨e3.symm, e4.symm, key _ _ e4.symm⟩⟩

/-- C21, witness: the sample store and the sample store with account 1 blocked. -/
theorem blocked_flag_no_effect_witness :
    (service.Account.TransferAccount (Env.calm 7) sampleWorld 1 1 30
        "UA031234560000039096125330469").1 =
      (service.Account.TransferAccount (Env.calm 7)
        { sampleWorld with
          accounts := repository.Account.setBlocked sampleWorld.accounts true 1 1 } 1 1 30
        "UA031234560000039096125330469").1 ∧
    ((service.Account.TransferAccount (Env.calm 7) sampleWorld 1 1 30
        "UA031234560000039096125330469").2.accounts.map fun a => (a.ID, a.Amount)) =
      ((service.Account.TransferAccount (Env.calm 7)
        { sampleWorld with
          accounts := repository.Account.setBlocked sampleWorld.accounts true 1 1 } 1 1 30
        "UA031234560000039096125330469").2.accounts.map fun a => (a.ID, a.Amount)) :=
  have h := (blocked_flag_no_effect (Env.calm 7) sampleWorld
    { sampleWorld with
      accounts := repository.Account.setBlocked sampleWorld.accounts true 1 1 }
    (by decide) 1 1 1 30 "UA031234560000039096125330469").2
  ⟨h.1, h.2.2.1⟩

end EraseService

/-! ## The event log is append-only -/

section EventFrames
variable {α : Type}

/-- The repository method `Account.GetUserIDByAccountID` leaves the event table as it is. -/
theorem events_Account_GetUserIDByAccountID (env : Env) (w : World α) (accountID : Int) :
    (repository.Account.GetUserIDByAccountID env w accountID).2.events = w.events := by
  unfold repository.Account.GetUserIDByAccountID
  repeat' first | rfl | split

/-- The repository method `Account.GetAccountIDByIban` leaves the event table as it is. -/
theorem events_Account_GetAccountIDByIban (env : Env) (w : World α) (iban : String) :
    (repository.Account.GetAccountIDByIban env w iban).2.events = w.events := by
  unfold repository.Account.GetAccountIDByIban
  repeat' first | rfl | split

/-- The repository method `Account.GetAccountCurrencyIDByID` leaves the event table as it is. -/
theorem events_Account_GetAccountCurrencyIDByID (env : Env) (w : World α) (accountID : Int) :
    (repository.Account.GetAccountCurrencyIDByID env w accountID).2.events = w.events := by
  unfold repository.Account.GetAccountCurrencyIDByID
  repeat' first | rfl | split

/-- The repository method `Account.GetAccountCurrencyIDByIban` leaves the event table as it is. -/
theorem events_Account_GetAccountCurrencyIDByIban (env : Env) (w : World α) (iban : String) :
    (repository.Account.GetAccountCurrencyIDByIban env w iban).2.events = w.events := by
  unfold repository.Account.GetAccountCurrencyIDByIban
  repeat' first | rfl | split

/-- The repository method `Account.GetAccountAmount` leaves the event table as it is. -/
theorem events_Account_GetAccountAmount (env : Env) (w : World α) (accountID userID : Int) :
    (repository.Account.GetAccountAmount env w accountID userID).2.events = w.events := by
  unfold repository.Account.GetAccountAmount
  repeat' first | rfl | split

/-- The repository method `Account.ExistsAccount` leaves the event table as it is. -/
theorem events_Account_ExistsAccount (env : Env) (w : World α) (accountID : Int) :
    (repository.Account.ExistsAccount env w accountID).2.events = w.events := by
  unfold repository.Account.ExistsAccount
  repeat' first | rfl | split

/-- The repository method `Account.GetAccount` leaves the event table as it is. -/
theorem events_Account_GetAccount (env : Env) (w : World α) (accountID userID : Int) :
    (repository.Account.GetAccount env w accountID userID).2.events = w.events := by
  unfold repository.Account.GetAccount
  repeat' first | rfl | split

/-- The repository method `Account.DeleteAccount` leaves the event table as it is. -/
theorem events_Account_DeleteAccount (env : Env) (w : World α) (accountID : Int) :
    (repository.Account.DeleteAccount env w accountID).2.events = w.events := by
  unfold repository.Account.DeleteAccount
  repeat' first | rfl | split

/-- The repository method `Account.BlockAccount` leaves the event table as it is. -/
theorem events_Account_BlockAccount (env : Env) (w : World α) (accountID userID : Int) :
    (repository.Account.BlockAccount env w accountID userID).2.events = w.events := by
  unfold repository.Account.BlockAccount
  repeat' first | rfl | split

/-- The repository method `Account.UnblockAccount` leaves the event table as it is. -/
theorem events_Account_UnblockAccount (env : Env) (w : World α) (accountID userID : Int) :
    (repository.Account.UnblockAccount env w accountID userID).2.events = w.events := by
  unfold repository.Account.UnblockAccount
  repeat' first | rfl | split

/-- The repository method `Transactions.CreateTransaction` leaves the event table as it is. -/
theorem events_Transactions_CreateTransaction (env : Env) (w : World α) (fromAccountID toAccountID : Int)
    (amount : α) :
    (repository.Transactions.CreateTransaction env w fromAccountID toAccountID amount).2.events = w.events := by
  unfold repository.Transactions.CreateTransaction
  repeat' first | rfl | split

/-- The repository method `Transactions.SetTransactionStatusToSent` leaves the event table as it is. -/
theorem events_Transactions_SetTransactionStatusToSent (env : Env) (w : World α) (transactionID : Int) :
    (repository.Transactions.SetTransactionStatusToSent env w transactionID).2.events = w.events := by
  unfold repository.Transactions.SetTransactionStatusToSent
  repeat' first | rfl | split

/-- The repository method `Card.CreateCard` leaves the event table as it is. -/
theorem events_Card_CreateCard (env : Env) (w : World α) (accountID : Int)
    (cardNumber cardholderName cvvCode : String) :
    (repository.Card.CreateCard env w accountID cardNumber cardholderName cvvCode).2.events = w.events := by
  unfold repository.Card.CreateCard
  repeat' first | rfl | split

/-- The repository method `Card.GetCard` leaves the event table as it is. -/
theorem events_Card_GetCard (env : Env) (w : World α) (id accountID : Int) :
    (repository.Card.GetCard env w id accountID).2.events = w.events := by
  unfold repository.Card.GetCard
  repeat' first | rfl | split

/-- The repository method `Card.GetCardListUser` leaves the event table as it is. -/
theorem events_Card_GetCardListUser (env : Env) (w : World α) (userID : Int) :
    (repository.Card.GetCardListUser env w userID).2.events = w.events := by
  unfold repository.Card.GetCardListUser
  repeat' first | rfl | split

/-- The repository method `Card.GetCardListByAccount` leaves the event table as it is. -/
theorem events_Card_GetCardListByAccount (env : Env) (w : World α) (userID accountID : Int) :
    (repository.Card.GetCardListByAccount env w userID accountID).2.events = w.events := by
  unfold repository.Card.GetCardListByAccount
  repeat' first | rfl | split

/-- The repository method `Users.GetUserNameAndSurnameByID` leaves the event table as it is. -/
theorem events_Users_GetUserNameAndSurnameByID (env : Env) (w : World α) (userID : Int) :
    (repository.Users.GetUserNameAndSurnameByID env w userID).2.events = w.events := by
  unfold repository.Users.GetUserNameAndSurnameByID
  repeat' first | rfl | split

/-- The repository method `Users.Exists_` leaves the event table as it is. -/
theorem events_Users_Exists_ (env : Env) (w : World α) (email : String) :
    (repository.Users.Exists_ env w email).2.events = w.events := by
  unfold repository.Users.Exists_
  repeat' first | rfl | split

/-- The repository method `Users.Create` leaves the event table as it is. -/
theorem events_Users_Create (env : Env) (w : World α) (user : domain.User) :
    (repository.Users.Create env w user).2.events = w.events := by
  unfold repository.Users.Create
  repeat' first | rfl | split

/-- The repository method `Users.GetByCredentials` leaves the event table as it is. -/
theorem events_Users_GetByCredentials (env : Env) (w : World α) (email password : String) :
    (repository.Users.GetByCredentials env w email password).2.events = w.events := by
  unfold repository.Users.GetByCredentials
  repeat' first | rfl | split

/-- The repository method `Users.GetByID` leaves the event table as it is. -/
theorem events_Users_GetByID (env : Env) (w : World α) (id : Int) :
    (repository.Users.GetByID env w id).2.events = w.events := by
  unfold repository.Users.GetByID
  repeat' first | rfl | split

/-- The repository method `Users.BlockUser` leaves the event table as it is. -/
theorem events_Users_BlockUser (env : Env) (w : World α) (userID : Int) :
    (repository.Users.BlockUser env w userID).2.events = w.events := by
  unfold repository.Users.BlockUser
  repeat' first | rfl | split

/-- The repository method `Users.UnblockUser` leaves the event table as it is. -/
theorem events_Users_UnblockUser (env : Env) (w : World α) (userID : Int) :
    (repository.Users.UnblockUser env w userID).2.events = w.events := by
  unfold repository.Users.UnblockUser
  repeat' first | rfl | split

/-- The repository method `Users.CheckBlockUser` leaves the event table as it is. -/
theorem events_Users_CheckBlockUser (env : Env) (w : World α) (userID : Int) :
    (repository.Users.CheckBlockUser env w userID).2.events = w.events := by
  unfold repository.Users.CheckBlockUser
  repeat' first | rfl | split

/-- The repository method `Roles.GetByName` leaves the event table as it is. -/
theorem events_Roles_GetByName (env : Env) (w : World α) (name : String) :
    (repository.Roles.GetByName env w name).2.events = w.events := by
  unfold repository.Roles.GetByName
  repeat' first | rfl | split

/-- The repository method `Tokens.Create` leaves the event table as it is. -/
theorem events_Tokens_Create (env : Env) (w : World α) (token : domain.RefreshSession) :
    (repository.Tokens.Create env w token).2.events = w.events := by
  unfold repository.Tokens.Create
  repeat' first | rfl | split

/-- The repository method `Tokens.Get` leaves the event table as it is. -/
theorem events_Tokens_Get (env : Env) (w : World α) (token : String) :
    (repository.Tokens.Get env w token).2.events = w.events := by
  unfold repository.Tokens.Get
  repeat' first | rfl | split

/-- The repository method `Event.GetEventsList` leaves the event table as it is. -/
theorem events_Event_GetEventsList (env : Env) (w : World α) (userID : Int) :
    (repository.Event.GetEventsList env w userID).2.events = w.events := by
  unfold repository.Event.GetEventsList
  repeat' first | rfl | split | dsimp only

/-- The repository method `CreateEvent` appends one event row, or none when the
statement is rejected. -/
theorem events_CreateEvent (env : Env) (w : World α) (event : domain.Event α) :
    (repository.Event.CreateEvent env w event).2.events = w.events ∨
      ∃ e, (repository.Event.CreateEvent env w event).2.events = w.events ++ [e] := by
  unfold repository.Event.CreateEvent
  split
  · exact Or.inl rfl
  · exact Or.inr ⟨_, rfl⟩

/-- The service method `Account.GetAccount` appends at most one event. -/
theorem events_service_GetAccount (env : Env) (w : World α) (accountID userID : Int) :
    (service.Account.GetAccount env w accountID userID).2.events = w.events ∨
      ∃ e, (service.Account.GetAccount env w accountID userID).2.events =
        w.events ++ [e] := by
  unfold service.Account.GetAccount
  have h0 : w.events = w.events := rfl
  have h1 := events_Account_GetAccount env w accountID userID
  generalize repository.Account.GetAccount env w accountID userID = x1 at h1 ⊢
  obtain ⟨r1, w1⟩ := x1
  replace h1 : w1.events = w.events := h1.trans h0
  rcases r1 with e | v <;> exact Or.inl h1

/-- The service method `Account.DeleteAccount` appends at most one event. -/
theorem events_service_DeleteAccount (env : Env) (w : World α) (accountID : Int) :
    (service.Account.DeleteAccount env w accountID).2.events = w.events ∨
      ∃ e, (service.Account.DeleteAccount env w accountID).2.events =
        w.events ++ [e] := by
  unfold service.Account.DeleteAccount
  have h0 : w.events = w.events := rfl
  have h1 := events_Account_DeleteAccount env w accountID
  generalize repository.Account.DeleteAccount env w accountID = x1 at h1 ⊢
  obtain ⟨r1, w1⟩ := x1
  replace h1 : w1.events = w.events := h1.trans h0
  rcases r1 with e | u
  · exact Or.inl h1
  try dsimp only
  split <;> rename_i heq
  all_goals
    have hw := congrArg (fun x => x.2.events) heq
    dsimp only at hw ⊢
    rw [← hw, ← h1]
    exact events_CreateEvent env w1 _

/-- The service method `Account.BlockAccount` appends at most one event. -/
theorem events_service_BlockAccount (env : Env) (w : World α) (accountID userID : Int) :
    (service.Account.BlockAccount env w accountID userID).2.events = w.events ∨
      ∃ e, (service.Account.BlockAccount env w accountID userID).2.events =
        w.events ++ [e] := by
  unfold service.Account.BlockAccount
  have h0 : w.events = w.events := rfl
  have h1 := events_Account_BlockAccount env w accountID userID
  generalize repository.Account.BlockAccount env w accountID userID = x1 at h1 ⊢
  obtain ⟨r1, w1⟩ := x1
  replace h1 : w1.events = w.events := h1.trans h0
  rcases r1 with e | u
  · exact Or.inl h1
  try dsimp only
  split <;> rename_i heq
  all_goals
    have hw := congrArg (fun x => x.2.events) heq
    dsimp only at hw ⊢
    rw [← hw, ← h1]
    exact events_CreateEvent env w1 _

/-- The service method `Account.UnblockAccount` appends at most one event. -/
theorem events_service_UnblockAccount (env : Env) (w : World α) (accountID userID : Int) :
    (service.Account.UnblockAccount env w accountID userID).2.events = w.events ∨
      ∃ e, (service.Account.UnblockAccount env w accountID userID).2.events =
        w.events ++ [e] := by
  unfold service.Account.UnblockAccount
  have h0 : w.events = w.events := rfl
  have h1 := events_Account_UnblockAccount env w accountID userID
  generalize repository.Account.UnblockAccount env w accountID userID = x1 at h1 ⊢
  obtain ⟨r1, w1⟩ := x1
  replace h1 : w1.events = w.events := h1.trans h0
  rcases r1 with e | u
  · exact Or.inl h1
  try dsimp only
  split <;> rename_i heq
  all_goals
    have hw := congrArg (fun x => x.2.events) heq
    dsimp only at hw ⊢
    rw [← hw, ← h1]
    exact events_CreateEvent env w1 _

/-- The service method `Card.CreateCard` appends at most one event. -/
theorem events_service_CreateCard (env : Env) (w : World α) (randomGenerator : generator.Generator)
    (accountID userID : Int) :
    (service.Card.CreateCard env w randomGenerator accountID userID).2.events = w.events ∨
      ∃ e, (service.Card.CreateCard env w randomGenerator accountID userID).2.events =
        w.events ++ [e] := by
  unfold service.Card.CreateCard
  have h0 : w.events = w.events := rfl
  have h1 := events_Account_GetUserIDByAccountID env w accountID
  generalize repository.Account.GetUserIDByAccountID env w accountID = x1 at h1 ⊢
  obtain ⟨r1, w1⟩ := x1
  replace h1 : w1.events = w.events := h1.trans h0
  rcases r1 with e | checkUserID
  · exact Or.inl h1
  try dsimp only
  split
  · split <;> exact Or.inl h1
  have h2 := events_Users_GetUserNameAndSurnameByID env w1 userID
  generalize repository.Users.GetUserNameAndSurnameByID env w1 userID = x2 at h2 ⊢
  obtain ⟨r2, w2⟩ := x2
  replace h2 : w2.events = w.events := h2.trans h1
  rcases r2 with e | cardholderName
  · exact Or.inl h2
  try dsimp only
  have h3 := events_Card_CreateCard env w2 accountID (randomGenerator.GenerateRandomCardNumber env.rand)
    cardholderName
    (randomGenerator.GenerateRandomCvv fun i => env.rand (generator.cardNumberLength + i))
  generalize repository.Card.CreateCard env w2 accountID (randomGenerator.GenerateRandomCardNumber env.rand)
    cardholderName
    (randomGenerator.GenerateRandomCvv fun i => env.rand (generator.cardNumberLength + i)) = x3 at h3 ⊢
  obtain ⟨r3, w3⟩ := x3
  replace h3 : w3.events = w.events := h3.trans h2
  rcases r3 with e | card
  · exact Or.inl h3
  try dsimp only
  split <;> rename_i heq
  all_goals
    have hw := congrArg (fun x => x.2.events) heq
    dsimp only at hw ⊢
    rw [← hw, ← h3]
    exact events_CreateEvent env w3 _

/-- The service method `Card.GetCardListUser` appends at most one event. -/
theorem events_service_GetCardListUser (env : Env) (w : World α) (userID : Int) :
    (service.Card.GetCardListUser env w userID).2.events = w.events ∨
      ∃ e, (service.Card.GetCardListUser env w userID).2.events =
        w.events ++ [e] := by
  unfold service.Card.GetCardListUser
  have h0 : w.events = w.events := rfl
  have h1 := events_Card_GetCardListUser env w userID
  generalize repository.Card.GetCardListUser env w userID = x1 at h1 ⊢
  obtain ⟨r1, w1⟩ := x1
  replace h1 : w1.events = w.events := h1.trans h0
  rcases r1 with e | v <;> exact Or.inl h1

/-- The service method `Card.GetCardListByAccount` appends at most one event. -/
theorem events_service_GetCardListByAccount (env : Env) (w : World α) (userID accountID : Int) :
    (service.Card.GetCardListByAccount env w userID accountID).2.events = w.events ∨
      ∃ e, (service.Card.GetCardListByAccount env w userID accountID).2.events =
        w.events ++ [e] := by
  unfold service.Card.GetCardListByAccount
  have h0 : w.events = w.events := rfl
  have h1 := events_Card_GetCardListByAccount env w userID accountID
  generalize repository.Card.GetCardListByAccount env w userID accountID = x1 at h1 ⊢
  obtain ⟨r1, w1⟩ := x1
  replace h1 : w1.events = w.events := h1.trans h0
  rcases r1 with e | v <;> exact Or.inl h1

/-- The service method `Card.GetCard` appends at most one event. -/
theorem events_service_GetCard (env : Env) (w : World α) (cardID accountID userID : Int) :
    (service.Card.GetCard env w cardID accountID userID).2.events = w.events ∨
      ∃ e, (service.Card.GetCard env w cardID accountID userID).2.events =
        w.events ++ [e] := by
  unfold service.Card.GetCard
  have h0 : w.events = w.events := rfl
  have h1 := events_Account_GetUserIDByAccountID env w accountID
  generalize repository.Account.GetUserIDByAccountID env w accountID = x1 at h1 ⊢
  obtain ⟨r1, w1⟩ := x1
  replace h1 : w1.events = w.events := h1.trans h0
  rcases r1 with e | checkUserID
  · exact Or.inl h1
  try dsimp only
  split
  · exact Or.inl h1
  have h2 := events_Card_GetCard env w1 cardID accountID
  generalize repository.Card.GetCard env w1 cardID accountID = x2 at h2 ⊢
  obtain ⟨r2, w2⟩ := x2
  replace h2 : w2.events = w.events := h2.trans h1
  rcases r2 with e | v <;> exact Or.inl h2

/-- The service method `User.BlockUser` appends at most one event. -/
theorem events_service_BlockUser (env : Env) (w : World α) (blockUserID userID : Int) :
    (service.User.BlockUser env w blockUserID userID).2.events = w.events ∨
      ∃ e, (service.User.BlockUser env w blockUserID userID).2.events =
        w.events ++ [e] := by
  unfold service.User.BlockUser
  have h0 : w.events = w.events := rfl
  split
  · exact Or.inl h0
  have h1 := events_Users_BlockUser env w blockUserID
  generalize repository.Users.BlockUser env w blockUserID = x1 at h1 ⊢
  obtain ⟨r1, w1⟩ := x1
  replace h1 : w1.events = w.events := h1.trans h0
  rcases r1 with e | u
  · exact Or.inl h1
  try dsimp only
  split <;> rename_i heq
  all_goals
    have hw := congrArg (fun x => x.2.events) heq
    dsimp only at hw ⊢
    rw [← hw, ← h1]
    exact events_CreateEvent env w1 _

/-- The service method `User.UnblockUser` appends at most one event. -/
theorem events_service_UnblockUser (env : Env) (w : World α) (userID : Int) :
    (service.User.UnblockUser env w userID).2.events = w.events ∨
      ∃ e, (service.User.UnblockUser env w userID).2.events =
        w.events ++ [e] := by
  unfold service.User.UnblockUser
  have h0 : w.events = w.events := rfl
  have h1 := events_Users_UnblockUser env w userID
  generalize repository.Users.UnblockUser env w userID = x1 at h1 ⊢
  obtain ⟨r1, w1⟩ := x1
  replace h1 : w1.events = w.events := h1.trans h0
  rcases r1 with e | u
  · exact Or.inl h1
  try dsimp only
  split <;> rename_i heq
  all_goals
    have hw := congrArg (fun x => x.2.events) heq
    dsimp only at hw ⊢
    rw [← hw, ← h1]
    exact events_CreateEvent env w1 _

/-- The service method `User.CheckBlockUser` appends at most one event. -/
theorem events_service_CheckBlockUser (env : Env) (w : World α) (userID : Int) :
    (service.User.CheckBlockUser env w userID).2.events = w.events ∨
      ∃ e, (service.User.CheckBlockUser env w userID).2.events =
        w.events ++ [e] := by
  unfold service.User.CheckBlockUser
  have h0 : w.events = w.events := rfl
  have h1 := events_Users_CheckBlockUser env w userID
  generalize repository.Users.CheckBlockUser env w userID = x1 at h1 ⊢
  obtain ⟨r1, w1⟩ := x1
  replace h1 : w1.events = w.events := h1.trans h0
  rcases r1 with e | v <;> exact Or.inl h1

/-- The service method `User.SignUp` appends at most one event. -/
theorem events_service_SignUp (env : Env) (w : World α) (inp : domain.SignUpInput) :
    (service.User.SignUp env w inp).2.events = w.events ∨
      ∃ e, (service.User.SignUp env w inp).2.events =
        w.events ++ [e] := by
  unfold service.User.SignUp
  have h0 : w.events = w.events := rfl
  have h1 := events_Users_Exists_ env w inp.Email
  generalize repository.Users.Exists_ env w inp.Email = x1 at h1 ⊢
  obtain ⟨r1, w1⟩ := x1
  replace h1 : w1.events = w.events := h1.trans h0
  rcases r1 with e | b
  · exact Or.inl h1
  cases b
  swap
  · exact Or.inl h1
  try dsimp only
  split
  · exact Or.inl h1
  rename_i password hpassword
  have h2 := events_Roles_GetByName env w1 service.User.userRoleName
  generalize repository.Roles.GetByName env w1 service.User.userRoleName = x2 at h2 ⊢
  obtain ⟨r2, w2⟩ := x2
  replace h2 : w2.events = w.events := h2.trans h1
  rcases r2 with e | role
  · exact Or.inl h2
  try dsimp only
  split <;> rename_i heq
  all_goals
    have hw := congrArg (fun x => x.2.events) heq
    dsimp only at hw ⊢
    rw [← hw]
    exact Or.inl ((events_Users_Create env w2 _).trans h2)

/-- The method `generateTokens` leaves the event table as it is. -/
theorem events_generateTokens (env : Env) (w : World α) (tokenTtl k : Nat)
    (user : domain.User) :
    (service.User.generateTokens env w tokenTtl k user).2.events = w.events := by
  unfold service.User.generateTokens
  dsimp only
  split
  · rfl
  split
  · rfl
  split <;> rename_i heq
  all_goals
    have hw := congrArg (fun x => x.2.events) heq
    dsimp only at hw ⊢
    rw [← hw]
    exact events_Tokens_Create env w _

/-- The service method `User.SignIn` leaves the event table as it is. -/
theorem events_service_SignIn (env : Env) (w : World α) (tokenTtl : Nat)
    (inp : domain.SignInInput) :
    (service.User.SignIn env w tokenTtl inp).2.events = w.events := by
  unfold service.User.SignIn
  split
  · rfl
  rename_i password hpassword
  have h1 := events_Users_GetByCredentials env w inp.Email password
  generalize repository.Users.GetByCredentials env w inp.Email password = x1 at h1 ⊢
  obtain ⟨r1, w1⟩ := x1
  rcases r1 with e | user
  · dsimp only
    split <;> exact h1
  dsimp only
  have h2 := events_generateTokens env w1 tokenTtl 0 user
  generalize service.User.generateTokens env w1 tokenTtl 0 user = x2 at h2 ⊢
  obtain ⟨r2, w2⟩ := x2
  rcases r2 with e | tokens <;> exact h2.trans h1

/-- The service method `User.ParseToken` does not touch the store. -/
theorem service_ParseToken_store (env : Env) (w : World α) (token : String) :
    (service.User.ParseToken env w token).2 = w := by
  unfold service.User.ParseToken
  repeat' first | rfl | split

/-- The service method `User.RefreshTokens` leaves the event table as it is. -/
theorem events_service_RefreshTokens (env : Env) (w : World α) (tokenTtl : Nat)
    (refreshToken : String) :
    (service.User.RefreshTokens env w tokenTtl refreshToken).2.events = w.events := by
  unfold service.User.RefreshTokens
  have h1 := events_Tokens_Get env w refreshToken
  generalize repository.Tokens.Get env w refreshToken = x1 at h1 ⊢
  obtain ⟨r1, w1⟩ := x1
  rcases r1 with e | session
  · exact h1
  dsimp only
  split
  · split <;> exact h1
  have h2 := events_Users_GetByID env w1 session.UserID
  generalize repository.Users.GetByID env w1 session.UserID = x2 at h2 ⊢
  obtain ⟨r2, w2⟩ := x2
  rcases r2 with e | user
  · exact h2.trans h1
  dsimp only
  have h3 := events_generateTokens env w2 tokenTtl 1 user
  generalize service.User.generateTokens env w2 tokenTtl 1 user = x3 at h3 ⊢
  obtain ⟨r3, w3⟩ := x3
  rcases r3 with e | tokens <;> exact (h3.trans h2).trans h1

end EventFrames

section EventFramesOrdered
variable {α : Type} [LinearOrderedAddCommGroup α]

/-- The repository method `Account.Create` leaves the event table as it is. -/
theorem events_Account_Create (env : Env) (w : World α) (userID currencyID : Int) (iban : String) :
    (repository.Account.Create env w userID currencyID iban).2.events = w.events := by
  unfold repository.Account.Create
  repeat' first | rfl | split

/-- The repository method `Account.GetAccountsList` leaves the event table as it is. -/
theorem events_Account_GetAccountsList (env : Env) (w : World α) (userID : Int) (paginator : domain.Paginator)
    (ordering : Option domain.Orderings) :
    (repository.Account.GetAccountsList env w userID paginator ordering).2.events = w.events := by
  unfold repository.Account.GetAccountsList
  repeat' first | rfl | split | dsimp only

/-- The repository method `Account.DepositAccount` leaves the event table as it is. -/
theorem events_Account_DepositAccount (env : Env) (w : World α) (accountID : Int) (amount : α) :
    (repository.Account.DepositAccount env w accountID amount).2.events = w.events := by
  unfold repository.Account.DepositAccount
  repeat' first | rfl | split

/-- The repository method `Account.TransferAccount` leaves the event table as it is. -/
theorem events_Account_TransferAccount (env : Env) (w : World α) (fromAccountID userID : Int) (amount : α)
    (toAccountIban : String) :
    (repository.Account.TransferAccount env w fromAccountID userID amount toAccountIban).2.events = w.events := by
  unfold repository.Account.TransferAccount
  repeat' first | rfl | split

/-- The repository method `Transactions.GetTransactionList` leaves the event table as it is. -/
theorem events_Transactions_GetTransactionList (env : Env) (w : World α) (accountID : Int)
    (ordering : Option domain.Orderings) (paginator : domain.Paginator) :
    (repository.Transactions.GetTransactionList env w accountID ordering paginator).2.events = w.events := by
  unfold repository.Transactions.GetTransactionList
  repeat' first | rfl | split | dsimp only

/-- The service method `Account.Create` appends at most one event. -/
theorem events_service_Account_Create (env : Env) (w : World α) (ibanGenerator : generator.Generator)
    (userID currencyID : Int) :
    (service.Account.Create env w ibanGenerator userID currencyID).2.events = w.events ∨
      ∃ e, (service.Account.Create env w ibanGenerator userID currencyID).2.events =
        w.events ++ [e] := by
  unfold service.Account.Create
  have h0 : w.events = w.events := rfl
  dsimp only
  have h1 := events_Account_Create env w userID currencyID (ibanGenerator.GenerateRandomIban env.rand)
  generalize repository.Account.Create env w userID currencyID (ibanGenerator.GenerateRandomIban env.rand) = x1 at h1 ⊢
  obtain ⟨r1, w1⟩ := x1
  replace h1 : w1.events = w.events := h1.trans h0
  rcases r1 with e | account
  · exact Or.inl h1
  try dsimp only
  split <;> rename_i heq
  all_goals
    have hw := congrArg (fun x => x.2.events) heq
    dsimp only at hw ⊢
    rw [← hw, ← h1]
    exact events_CreateEvent env w1 _

/-- The service method `Account.GetAccountsList` appends at most one event. -/
theorem events_service_GetAccountsList (env : Env) (w : World α) (userID : Int) (paginator : domain.Paginator)
    (ordering : Option domain.Orderings) :
    (service.Account.GetAccountsList env w userID paginator ordering).2.events = w.events ∨
      ∃ e, (service.Account.GetAccountsList env w userID paginator ordering).2.events =
        w.events ++ [e] := by
  unfold service.Account.GetAccountsList
  have h0 : w.events = w.events := rfl
  have h1 := events_Account_GetAccountsList env w userID paginator ordering
  generalize repository.Account.GetAccountsList env w userID paginator ordering = x1 at h1 ⊢
  obtain ⟨r1, w1⟩ := x1
  replace h1 : w1.events = w.events := h1.trans h0
  rcases r1 with e | v <;> exact Or.inl h1

/-- The service method `Account.DepositAccount` appends at most one event. -/
theorem events_service_DepositAccount (env : Env) (w : World α) (accountID : Int) (amount : α) :
    (service.Account.DepositAccount env w accountID amount).2.events = w.events ∨
      ∃ e, (service.Account.DepositAccount env w accountID amount).2.events =
        w.events ++ [e] := by
  unfold service.Account.DepositAccount
  have h0 : w.events = w.events := rfl
  have h1 := events_Account_ExistsAccount env w accountID
  generalize repository.Account.ExistsAccount env w accountID = x1 at h1 ⊢
  obtain ⟨r1, w1⟩ := x1
  replace h1 : w1.events = w.events := h1.trans h0
  rcases r1 with e | b
  · exact Or.inl h1
  cases b
  · exact Or.inl h1
  try dsimp only
  have h2 := events_Transactions_CreateTransaction env w1 service.fromAccountIDForDeposit accountID amount
  generalize repository.Transactions.CreateTransaction env w1 service.fromAccountIDForDeposit accountID amount = x2 at h2 ⊢
  obtain ⟨r2, w2⟩ := x2
  replace h2 : w2.events = w.events := h2.trans h1
  rcases r2 with e | tr
  · exact Or.inl h2
  try dsimp only
  have h3 := events_Account_DepositAccount env w2 accountID amount
  generalize repository.Account.DepositAccount env w2 accountID amount = x3 at h3 ⊢
  obtain ⟨r3, w3⟩ := x3
  replace h3 : w3.events = w.events := h3.trans h2
  rcases r3 with e | u
  · exact Or.inl h3
  try dsimp only
  have h4 := events_Transactions_SetTransactionStatusToSent env w3 tr.ID
  generalize repository.Transactions.SetTransactionStatusToSent env w3 tr.ID = x4 at h4 ⊢
  obtain ⟨r4, w4⟩ := x4
  replace h4 : w4.events = w.events := h4.trans h3
  rcases r4 with e | u
  · exact Or.inl h4
  try dsimp only
  split <;> rename_i heq
  all_goals
    have hw := congrArg (fun x => x.2.events) heq
    dsimp only at hw ⊢
    rw [← hw, ← h4]
    exact events_CreateEvent env w4 _

/-- The service method `Account.TransferAccount` appends at most one event. -/
theorem events_service_TransferAccount (env : Env) (w : World α) (fromAccountID userID : Int) (amount : α)
    (toAccountIban : String) :
    (service.Account.TransferAccount env w fromAccountID userID amount toAccountIban).2.events = w.events ∨
      ∃ e, (service.Account.TransferAccount env w fromAccountID userID amount toAccountIban).2.events =
        w.events ++ [e] := by
  unfold service.Account.TransferAccount
  have h0 : w.events = w.events := rfl
  have h1 := events_Account_GetAccountCurrencyIDByID env w fromAccountID
  generalize repository.Account.GetAccountCurrencyIDByID env w fromAccountID = x1 at h1 ⊢
  obtain ⟨r1, w1⟩ := x1
  replace h1 : w1.events = w.events := h1.trans h0
  rcases r1 with e | fromCurrency
  · exact Or.inl h1
  try dsimp only
  have h2 := events_Account_GetAccountCurrencyIDByIban env w1 toAccountIban
  generalize repository.Account.GetAccountCurrencyIDByIban env w1 toAccountIban = x2 at h2 ⊢
  obtain ⟨r2, w2⟩ := x2
  replace h2 : w2.events = w.events := h2.trans h1
  rcases r2 with e | toCurrency
  · exact Or.inl h2
  try dsimp only
  split
  · exact Or.inl h2
  have h3 := events_Account_GetAccountAmount env w2 fromAccountID userID
  generalize repository.Account.GetAccountAmount env w2 fromAccountID userID = x3 at h3 ⊢
  obtain ⟨r3, w3⟩ := x3
  replace h3 : w3.events = w.events := h3.trans h2
  rcases r3 with e | enough
  · exact Or.inl h3
  try dsimp only
  split
  · exact Or.inl h3
  have h4 := events_Account_GetAccountIDByIban env w3 toAccountIban
  generalize repository.Account.GetAccountIDByIban env w3 toAccountIban = x4 at h4 ⊢
  obtain ⟨r4, w4⟩ := x4
  replace h4 : w4.events = w.events := h4.trans h3
  rcases r4 with e | toAccountID
  · exact Or.inl h4
  try dsimp only
  have h5 := events_Transactions_CreateTransaction env w4 fromAccountID toAccountID amount
  generalize repository.Transactions.CreateTransaction env w4 fromAccountID toAccountID amount = x5 at h5 ⊢
  obtain ⟨r5, w5⟩ := x5
  replace h5 : w5.events = w.events := h5.trans h4
  rcases r5 with e | tr
  · exact Or.inl h5
  try dsimp only
  have h6 := events_Account_TransferAccount env w5 fromAccountID userID amount toAccountIban
  generalize repository.Account.TransferAccount env w5 fromAccountID userID amount toAccountIban = x6 at h6 ⊢
  obtain ⟨r6, w6⟩ := x6
  replace h6 : w6.events = w.events := h6.trans h5
  rcases r6 with e | u
  · exact Or.inl h6
  try dsimp only
  have h7 := events_Transactions_SetTransactionStatusToSent env w6 tr.ID
  generalize repository.Transactions.SetTransactionStatusToSent env w6 tr.ID = x7 at h7 ⊢
  obtain ⟨r7, w7⟩ := x7
  replace h7 : w7.events = w.events := h7.trans h6
  rcases r7 with e | u
  · exact Or.inl h7
  try dsimp only
  split <;> rename_i heq
  all_goals
    have hw := congrArg (fun x => x.2.events) heq
    dsimp only at hw ⊢
    rw [← hw, ← h7]
    exact events_CreateEvent env w7 _

/-- C22.  For every operation of the account, card and user services, every
environment and every store, the events after the call are the events before the
call with no event or one event appended; every event of the store before the
call is found unchanged at its position after the call. -/
theorem event_log_append_only (env : Env) (w : World α) (op : ServiceOp α) :
    ((op.run env w).events = w.events ∨ ∃ e, (op.run env w).events = w.events ++ [e]) ∧
    ∀ i : Nat, i < w.events.length → (op.run env w).events[i]? = w.events[i]? := by
  have key : (op.run env w).events = w.events ∨
      ∃ e, (op.run env w).events = w.events ++ [e] := by
    cases op <;> simp only [ServiceOp.run]
    · exact events_service_Account_Create env w _ _ _
    · exact events_service_GetAccountsList env w _ _ _
    · exact events_service_GetAccount env w _ _
    · exact events_service_DeleteAccount env w _
    · exact events_service_DepositAccount env w _ _
    · exact events_service_TransferAccount env w _ _ _ _
    · exact events_service_BlockAccount env w _ _
    · exact events_service_UnblockAccount env w _ _
    · exact events_service_CreateCard env w _ _ _
    · exact events_service_GetCardListUser env w _
    · exact events_service_GetCardListByAccount env w _ _
    · exact events_service_GetCard env w _ _ _
    · exact events_service_SignUp env w _
    · exact Or.inl (events_service_SignIn env w _ _)
    · exact Or.inl (by rw [service_ParseToken_store])
    · exact Or.inl (events_service_RefreshTokens env w _ _)
    · exact events_service_BlockUser env w _ _
    · exact events_service_UnblockUser env w _
    · exact events_service_CheckBlockUser env w _
  refine ⟨key, ?_⟩
  intro i hi
  rcases key with h | ⟨e, h⟩
  · rw [h]
  · rw [h, List.getElem?_append_left hi]

/-- C22, witness: deleting account 2 of the sample store appends one event to the
empty event table. -/
theorem event_log_append_only_witness :
    (ServiceOp.run (Env.calm 7) sampleWorld (.DeleteAccount 2)).events.length = 1 ∧
    ((ServiceOp.run (Env.calm 7) sampleWorld (.DeleteAccount 2)).events = sampleWorld.events ∨
      ∃ e, (ServiceOp.run (Env.calm 7) sampleWorld (.DeleteAccount 2)).events =
        sampleWorld.events ++ [e]) :=
  ⟨by decide, (event_log_append_only (Env.calm 7) sampleWorld (.DeleteAccount 2)).1⟩

end EventFramesOrdered

/-! ## Event types -/

section EventTypes

/-- C23.  The nine event types are pairwise distinct; for each of them
`domain.NewEventTypeFromString (t.String ())` returns `t` and no error, and for every
string that is not one of the nine it returns the error "unsupported event
type". -/
theorem NewEventTypeFromString_closed :
    [domain.AccountCreatedEvent, domain.AccountDeletedEvent, domain.AccountBlockedEvent, domain.AccountUnblockedEvent,
      domain.CardCreatedEvent, domain.UserBlockedEvent, domain.UserUnblockedEvent, domain.WithdrawalEvent,
      domain.DepositEvent].Nodup ∧
    [domain.AccountCreatedEvent, domain.AccountDeletedEvent, domain.AccountBlockedEvent, domain.AccountUnblockedEvent,
      domain.CardCreatedEvent, domain.UserBlockedEvent, domain.UserUnblockedEvent, domain.WithdrawalEvent,
      domain.DepositEvent] =
      ["ACCOUNT_CREATED", "ACCOUNT_DELETED", "ACCOUNT_BLOCKED", "ACCOUNT_UNBLOCKED",
        "CARD_CREATED", "USER_BLOCKED", "USER_UNBLOCKED", "WITHDRAWAL", "DEPOSIT"] ∧
    (∀ t ∈ [domain.AccountCreatedEvent, domain.AccountDeletedEvent, domain.AccountBlockedEvent,
        domain.AccountUnblockedEvent, domain.CardCreatedEvent, domain.UserBlockedEvent, domain.UserUnblockedEvent,
        domain.WithdrawalEvent, domain.DepositEvent],
      domain.NewEventTypeFromString (domain.eventType.String t) = .ok t) ∧
    (∀ s : String,
      s ∉ [domain.AccountCreatedEvent, domain.AccountDeletedEvent, domain.AccountBlockedEvent,
        domain.AccountUnblockedEvent, domain.CardCreatedEvent, domain.UserBlockedEvent, domain.UserUnblockedEvent,
        domain.WithdrawalEvent, domain.DepositEvent] →
      domain.NewEventTypeFromString s = .error "unsupported event type") := by
  refine ⟨by decide, by decide, by decide, ?_⟩
  intro s hs
  simp only [List.mem_cons, List.mem_singleton, not_or, List.not_mem_nil, or_false] at hs
  obtain ⟨h1, h2, h3, h4, h5, h6, h7, h8, h9⟩ := hs
  simp [domain.NewEventTypeFromString, domain.eventType.String, errors.New, h1, h2, h3, h4, h5,
    h6, h7, h8, h9]

/-- C23, witness: `TRANSFER` is not an event type. -/
theorem NewEventTypeFromString_closed_witness :
    domain.NewEventTypeFromString "TRANSFER" = .error "unsupported event type" :=
  NewEventTypeFromString_closed.2.2.2 "TRANSFER" (by decide)

end EventTypes

/-! ## Refreshing tokens -/

section Refresh

/-- C24, evaluation at the failing input: the refresh session of user 1 in the
sample store expires at time 100 and the clock reads 200.  `RefreshTokens`
returns two empty tokens and no error.  It executes the lookup of the session
and the deletion of the sessions of the user and nothing else: the user is
not looked up and no session is created. -/
theorem RefreshTokens_expired_returns_no_error :
    (repository.Tokens.Get (Env.calm 7) sampleSessions "refresh-1").1 =
      .ok { ID := 1, UserID := 1, Token := "refresh-1", ExpiresAt := 100 } ∧
    (service.User.RefreshTokens { Env.calm 7 with clock := fun _ => 200 } sampleSessions 3600
      "refresh-1").1 = .ok ("", "") ∧
    executed sampleSessions
      (service.User.RefreshTokens { Env.calm 7 with clock := fun _ => 200 } sampleSessions 3600
        "refresh-1").2 = [(.SessionGet, true), (.SessionDelete, true)] ∧
    (service.User.RefreshTokens { Env.calm 7 with clock := fun _ => 200 } sampleSessions 3600
      "refresh-1").2.sessions = [] := by
  decide

end Refresh

/-! ## Deleting an account -/

section Deleting
variable {α : Type}

/-- C25, evaluation at the failing input: deleting account 2 of the sample ledger
returns nil, the rows of the accounts 1 and 3 stay as they were, and no
transaction row changes.  The service hands `CreateEvent` one event of type
ACCOUNT_DELETED with the message "account successfully deleted", no metadata and
the account id 2 in `UserID`, and exactly one event row is appended, with that
type, that user id and no metadata.  The appended row does not hold the message:
the INSERT statement of `CreateEvent` names the columns `user_id`, `type`,
`metadata` and `time` only. -/
theorem DeleteAccount_event_row_has_no_message :
    (service.Account.DeleteAccount (Env.calm 7) sampleLedger 2).1 = .ok () ∧
    (service.Account.DeleteAccount (Env.calm 7) sampleLedger 2).2.accounts =
      [ { ID := 1, Iban := "UA031234560000039096125330468", UserID := 1, CurrencyID := 1,
          Blocked := false, Amount := 100 },
        { ID := 3, Iban := "UA031234560000039096125330470", UserID := 2, CurrencyID := 2,
          Blocked := false, Amount := 50 } ] ∧
    (service.Account.DeleteAccount (Env.calm 7) sampleLedger 2).2.transactions =
      sampleLedger.transactions ∧
    service.Account.DeleteAccount (Env.calm 7) sampleLedger 2 =
      repository.Event.CreateEvent (Env.calm 7)
        (repository.Account.DeleteAccount (Env.calm 7) sampleLedger 2).2
        { UserID := 2, Type_ := "ACCOUNT_DELETED", Message := "account successfully deleted",
          Metadata := [] } ∧
    sampleLedger.events = [] ∧
    (service.Account.DeleteAccount (Env.calm 7) sampleLedger 2).2.events =
      [{ ID := 1, UserID := 2, Type_ := "ACCOUNT_DELETED", Message := none, Metadata := [],
         DateTime := 7 }] := by
  decide

/-- What a DeleteAccount call that returns nil does to the store.  It removes
every account row with the given id and leaves the other account rows and every
transaction row as they were.  It hands `CreateEvent` one event of type
ACCOUNT_DELETED with the message "account successfully deleted", no metadata and
the account id in `UserID`, and exactly one event row is appended, with that
type, that `UserID` and no metadata; the column `message` of the row gets no
value from the INSERT statement. -/
theorem DeleteAccount_success (env : Env) (w : World α) (accountID : Int)
    (hok : (service.Account.DeleteAccount env w accountID).1 = .ok ()) :
    (service.Account.DeleteAccount env w accountID).2.accounts =
      w.accounts.filter (fun a => !(a.ID == accountID)) ∧
    (∀ a ∈ (service.Account.DeleteAccount env w accountID).2.accounts, a.ID ≠ accountID) ∧
    (∀ a ∈ w.accounts, a.ID ≠ accountID →
      a ∈ (service.Account.DeleteAccount env w accountID).2.accounts) ∧
    (service.Account.DeleteAccount env w accountID).2.transactions = w.transactions ∧
    (∃ w1, repository.Account.DeleteAccount env w accountID = (.ok (), w1) ∧
      service.Account.DeleteAccount env w accountID =
        repository.Event.CreateEvent env w1
          { UserID := accountID, Type_ := domain.AccountDeletedEvent,
            Message := "account successfully deleted", Metadata := [] }) ∧
    (∃ e, (service.Account.DeleteAccount env w accountID).2.events = w.events ++ [e] ∧
      e.Type_ = domain.AccountDeletedEvent ∧ e.UserID = accountID ∧ e.Metadata = [] ∧
      e.Message = none) := by
  unfold service.Account.DeleteAccount at hok ⊢
  unfold repository.Account.DeleteAccount at hok ⊢
  cases h1 : env.fails .DeleteAccount <;> simp only [h1, Bool.false_eq_true, ↓reduceIte] at hok ⊢
  swap
  · simp at hok
  unfold repository.Event.CreateEvent at hok ⊢
  cases h2 : env.fails .CreateEvent <;> simp only [h2, Bool.false_eq_true, ↓reduceIte] at hok ⊢
  swap
  · simp at hok
  refine ⟨rfl, ?_, ?_, rfl, ⟨_, rfl, rfl⟩, ⟨_, rfl, rfl, rfl, rfl, rfl⟩⟩
  · intro a ha
    simpa using (List.mem_filter.mp ha).2
  · intro a ha hne
    exact List.mem_filter.mpr ⟨ha, by simpa using hne⟩

/-- Deleting account 2 of the sample store: an instance of the theorem before. -/
theorem DeleteAccount_success_witness :
    (service.Account.DeleteAccount (Env.calm 7) sampleWorld 2).1 = .ok () ∧
    ((service.Account.DeleteAccount (Env.calm 7) sampleWorld 2).2.accounts.map fun a => a.ID) =
      [1, 3] ∧
    (service.Account.DeleteAccount (Env.calm 7) sampleWorld 2).2.transactions =
      sampleWorld.transactions :=
  ⟨by decide, by decide,
    (DeleteAccount_success (Env.calm 7) sampleWorld 2 (by decide)).2.2.2.1⟩

end Deleting

/-! ## Concurrent transfers -/

section Concurrent
variable {α : Type} [LinearOrderedAddCommGroup α]

/-- A call that has returned stays where it is. -/
theorem TransferPoint.steps_returned (env : Env) (args : TransferArgs α) (n : Nat)
    (result : Except String Unit) (w : World α) :
    TransferPoint.steps env args n (.returned result, w) = (.returned result, w) := by
  induction n with
  | zero => rfl
  | succ n ih => simpa [TransferPoint.steps, TransferPoint.step] using ih

/-- Eight steps of a call that runs alone are the call of
`service.Account.TransferAccount`. -/
theorem TransferPoint.steps_alone (env : Env) (w : World α) (args : TransferArgs α) :
    TransferPoint.steps env args 8 (.start, w) =
      (.returned (service.Account.TransferAccount env w args.fromAccountID args.userID
          args.amount args.toAccountIban).1,
        (service.Account.TransferAccount env w args.fromAccountID args.userID args.amount
          args.toAccountIban).2) := by
  unfold service.Account.TransferAccount
  rw [TransferPoint.steps, TransferPoint.step]
  generalize repository.Account.GetAccountCurrencyIDByID env w args.fromAccountID = x1
  obtain ⟨r1, w1⟩ := x1
  rcases r1 with e | fromCurrency
  · exact TransferPoint.steps_returned env args _ _ _
  dsimp only
  rw [TransferPoint.steps, TransferPoint.step]
  generalize repository.Account.GetAccountCurrencyIDByIban env w1 args.toAccountIban = x2
  obtain ⟨r2, w2⟩ := x2
  rcases r2 with e | toCurrency
  · exact TransferPoint.steps_returned env args _ _ _
  dsimp only
  by_cases hc : (fromCurrency != toCurrency) = true
  · simp only [hc, ↓reduceIte]
    exact TransferPoint.steps_returned env args _ _ _
  simp only [hc, Bool.false_eq_true, ↓reduceIte]
  rw [TransferPoint.steps, TransferPoint.step]
  generalize repository.Account.GetAccountAmount env w2 args.fromAccountID args.userID = x3
  obtain ⟨r3, w3⟩ := x3
  rcases r3 with e | enough
  · exact TransferPoint.steps_returned env args _ _ _
  dsimp only
  by_cases hlt : enough < args.amount
  · simp only [hlt, ↓reduceIte]
    exact TransferPoint.steps_returned env args _ _ _
  simp only [hlt, ↓reduceIte]
  rw [TransferPoint.steps, TransferPoint.step]
  generalize repository.Account.GetAccountIDByIban env w3 args.toAccountIban = x4
  obtain ⟨r4, w4⟩ := x4
  rcases r4 with e | toAccountID
  · exact TransferPoint.steps_returned env args _ _ _
  dsimp only
  rw [TransferPoint.steps, TransferPoint.step]
  generalize repository.Transactions.CreateTransaction env w4 args.fromAccountID toAccountID
    args.amount = x5
  obtain ⟨r5, w5⟩ := x5
  rcases r5 with e | tr
  · exact TransferPoint.steps_returned env args _ _ _
  dsimp only
  rw [TransferPoint.steps, TransferPoint.step]
  generalize repository.Account.TransferAccount env w5 args.fromAccountID args.userID
    args.amount args.toAccountIban = x6
  obtain ⟨r6, w6⟩ := x6
  rcases r6 with e | u
  · exact TransferPoint.steps_returned env args _ _ _
  dsimp only
  rw [TransferPoint.steps, TransferPoint.step]
  generalize repository.Transactions.SetTransactionStatusToSent env w6 tr.ID = x7
  obtain ⟨r7, w7⟩ := x7
  rcases r7 with e | u
  · exact TransferPoint.steps_returned env args _ _ _
  dsimp only
  rw [TransferPoint.steps, TransferPoint.step]
  generalize repository.Event.CreateEvent env w7 _ = x8
  obtain ⟨r8, w8⟩ := x8
  rcases r8 with e | u <;> rfl

/-- C26, evaluation at the failing input: two calls transfer 60 from account 1 of
the sample store, whose balance is 100, to account 2.  Run one after the other,
the second call is refused by the sufficiency check.  Interleaved so that both
calls make their three lookups before either writes, both calls have passed the
sufficiency check against the balance 100, both return nil, and the balance of
account 1 ends at -20. -/
theorem concurrent_transfers_overdraw :
    balanceOf sampleWorld.accounts 1 = some 100 ∧
    (service.Account.TransferAccount (Env.calm 8)
      (service.Account.TransferAccount (Env.calm 7) sampleWorld 1 1 60
        "UA031234560000039096125330469").2 1 1 60 "UA031234560000039096125330469").1 =
      .error "checking enough money in the account for the transfer error" ∧
    interleave (Env.calm 7) (Env.calm 8) sampleTransfer sampleTransfer
      [true, true, true, false, false, false] (.start, .start, sampleWorld) =
      (.enoughMoney, .enoughMoney,
        { sampleWorld with
          trace := [(.GetAccountCurrencyIDByID, true), (.GetAccountCurrencyIDByIban, true),
            (.GetAccountAmount, true), (.GetAccountCurrencyIDByID, true),
            (.GetAccountCurrencyIDByIban, true), (.GetAccountAmount, true)] }) ∧
    (interleave (Env.calm 7) (Env.calm 8) sampleTransfer sampleTransfer
      [true, true, true, false, false, false, true, true, true, true, true,
        false, false, false, false, false] (.start, .start, sampleWorld)).1 =
      .returned (.ok ()) ∧
    (interleave (Env.calm 7) (Env.calm 8) sampleTransfer sampleTransfer
      [true, true, true, false, false, false, true, true, true, true, true,
        false, false, false, false, false] (.start, .start, sampleWorld)).2.1 =
      .returned (.ok ()) ∧
    balanceOf (interleave (Env.calm 7) (Env.calm 8) sampleTransfer sampleTransfer
      [true, true, true, false, false, false, true, true, true, true, true,
        false, false, false, false, false] (.start, .start, sampleWorld)).2.2.accounts 1 =
      some (-20) := by
  decide

end Concurrent

/-! ## The sum of the balances -/

section Totals
variable {α : Type} [LinearOrderedAddCommGroup α]

/-- The sum of the balances after an UPDATE that adds `d` to the rows selected by
`p`: every selected row contributes `d`. -/
theorem totalAmount_map_add (p : models.Account α → Bool) (d : α)
    (l : List (models.Account α)) :
    totalAmount (l.map fun a => if p a then { a with Amount := a.Amount + d } else a) =
      totalAmount l + l.countP p • d := by
  induction l with
  | nil => simp [totalAmount]
  | cons a l ih =>
    simp only [totalAmount, List.map_cons, List.sum_cons] at ih ⊢
    rw [ih, List.countP_cons]
    cases hp : p a
    · simp [add_assoc]
    · simp only [↓reduceIte, add_smul, one_smul]
      abel

/-- In a table with pairwise distinct keys a condition that fixes the key selects
one row when the search finds one and none otherwise. -/
theorem countP_of_key {β κ : Type} [DecidableEq κ] (key : β → κ) (k : κ) (p : β → Bool)
    (hp : ∀ x, p x = true → key x = k) (l : List β) (hnd : (l.map key).Nodup) :
    l.countP p = if (l.find? p).isSome then 1 else 0 := by
  induction l with
  | nil => rfl
  | cons a l ih =>
    have hnd2 : (l.map key).Nodup := (List.nodup_cons.mp (by simpa using hnd)).2
    have hnot : key a ∉ l.map key := (List.nodup_cons.mp (by simpa using hnd)).1
    rw [List.countP_cons, List.find?_cons, ih hnd2]
    cases hpa : p a
    · simp
    · have hnone : l.find? p = none := by
        rw [List.find?_eq_none]
        intro x hx hpx
        apply hnot
        rw [hp a hpa, ← hp x (by simpa using hpx)]
        exact List.mem_map_of_mem key hx
      simp [hnone]

/-- The accounts after a repository TransferAccount that returns nil. -/
theorem repository_TransferAccount_ok_accounts (env : Env) (w : World α)
    (fromAccountID userID : Int) (amount : α) (toAccountIban : String)
    (hok : (repository.Account.TransferAccount env w fromAccountID userID amount
      toAccountIban).1 = .ok ()) :
    (repository.Account.TransferAccount env w fromAccountID userID amount
      toAccountIban).2.accounts =
      repository.Account.creditByIban
        (repository.Account.debitByIDAndUser w.accounts amount fromAccountID userID)
        amount toAccountIban := by
  unfold repository.Account.TransferAccount at hok ⊢
  split_ifs at hok ⊢
  rfl

/-- The sum of all balances after a repository TransferAccount that returns nil:
every row with the IBAN adds the amount, every row matching the source account
id and user id takes it off. -/
theorem repository_TransferAccount_total (env : Env) (w : World α)
    (fromAccountID userID : Int) (amount : α) (toAccountIban : String)
    (hok : (repository.Account.TransferAccount env w fromAccountID userID amount
      toAccountIban).1 = .ok ()) :
    totalAmount (repository.Account.TransferAccount env w fromAccountID userID amount
      toAccountIban).2.accounts =
      totalAmount w.accounts
        + (w.accounts.countP fun a => a.ID == fromAccountID && a.UserID == userID) • (-amount)
        + (w.accounts.countP fun a => a.Iban == toAccountIban) • amount := by
  rw [repository_TransferAccount_ok_accounts env w fromAccountID userID amount toAccountIban hok]
  unfold repository.Account.creditByIban repository.Account.debitByIDAndUser
  rw [totalAmount_map_add (fun a => a.Iban == toAccountIban) amount]
  have hdebit : (w.accounts.map fun a =>
      if a.ID == fromAccountID && a.UserID == userID then { a with Amount := a.Amount - amount }
      else a) =
      (w.accounts.map fun a =>
        if (fun a : models.Account α => a.ID == fromAccountID && a.UserID == userID) a then
          { a with Amount := a.Amount + -amount }
        else a) := by
    simp only [sub_eq_add_neg]
  rw [hdebit, totalAmount_map_add, List.countP_map]
  congr 2
  apply List.countP_congr
  intro a _
  simp only [Function.comp]
  split <;> rfl

/-- C27, counterexample: in the sample store no row has the id 99; the repository
TransferAccount from account 99 of user 1 to the IBAN of account 2 returns nil
and the sum of all balances grows from 200 to 210. -/
theorem repository_TransferAccount_credit_without_debit :
    sampleWorld.accounts.find? (fun a => a.ID == 99 && a.UserID == 1) = none ∧
    (repository.Account.TransferAccount (Env.calm 7) sampleWorld 99 1 10
      "UA031234560000039096125330469").1 = .ok () ∧
    totalAmount sampleWorld.accounts = 200 ∧
    totalAmount (repository.Account.TransferAccount (Env.calm 7) sampleWorld 99 1 10
      "UA031234560000039096125330469").2.accounts = 210 := by
  decide

/-- C27.  In a store with pairwise distinct account ids and IBANs, a repository
TransferAccount call that returns nil leaves the sum of all balances unchanged
when a row matches the source account id and user id and a row has the IBAN, and
when neither exists; when only a row with the IBAN exists the sum grows by the
amount, and when only a row matching the source exists it falls by the amount. -/
theorem repository_TransferAccount_sum (env : Env) (w : World α) (hwf : w.WF)
    (fromAccountID userID : Int) (amount : α) (toAccountIban : String)
    (hok : (repository.Account.TransferAccount env w fromAccountID userID amount
      toAccountIban).1 = .ok ()) :
    totalAmount (repository.Account.TransferAccount env w fromAccountID userID amount
      toAccountIban).2.accounts =
      totalAmount w.accounts
        - (if (w.accounts.find? fun a => a.ID == fromAccountID && a.UserID == userID).isSome
            then amount else 0)
        + (if (w.accounts.find? fun a => a.Iban == toAccountIban).isSome then amount else 0) := by
  rw [repository_TransferAccount_total env w fromAccountID userID amount toAccountIban hok]
  rw [countP_of_key (fun a : models.Account α => a.ID) fromAccountID
      (fun a => a.ID == fromAccountID && a.UserID == userID) _ w.accounts hwf.1,
    countP_of_key (fun a : models.Account α => a.Iban) toAccountIban
      (fun a => a.Iban == toAccountIban) _ w.accounts hwf.2.1]
  · split <;> split <;> simp [sub_eq_add_neg]
  · intro x hx
    simpa using hx
  · intro x hx
    simp only [Bool.and_eq_true, beq_iff_eq] at hx
    exact hx.1

/-- C27, witness: a transfer of 10 from account 1 of user 1 to account 2 in the
sample store keeps the sum of the balances. -/
theorem repository_TransferAccount_sum_witness :
    sampleWorld.WF ∧
    (repository.Account.TransferAccount (Env.calm 7) sampleWorld 1 1 10
      "UA031234560000039096125330469").1 = .ok () ∧
    totalAmount (repository.Account.TransferAccount (Env.calm 7) sampleWorld 1 1 10
      "UA031234560000039096125330469").2.accounts =
      totalAmount sampleWorld.accounts
        - (if (sampleWorld.accounts.find? fun a => a.ID == 1 && a.UserID == 1).isSome
            then 10 else 0)
        + (if (sampleWorld.accounts.find? fun a =>
            a.Iban == "UA031234560000039096125330469").isSome then 10 else 0) :=
  ⟨by decide, by decide,
    repository_TransferAccount_sum (Env.calm 7) sampleWorld (by decide) 1 1 10
      "UA031234560000039096125330469" (by decide)⟩

end Totals

/-! ## Ordering filters -/

section Ordering

/-- The entries of a map after an assignment are old entries or the new one. -/
theorem mem_assign (orderings : domain.Orderings) (key value : String) (entry : String × String)
    (h : entry ∈ rest.assign orderings key value) : entry ∈ orderings ∨ entry = (key, value) := by
  unfold rest.assign at h
  split at h
  · obtain ⟨old, hold, rfl⟩ := List.mem_map.mp h
    split
    · exact Or.inr rfl
    · exact Or.inl hold
  · rcases List.mem_append.mp h with h | h
    · exact Or.inl h
    · exact Or.inr (by simpa using h)

/-- When the loop of `buildOrderingMessage` returns a map, every segment visited
has the form `field:direction` with a supported field and the direction `asc` or
`desc`, and every entry of the map is an entry of the map at the start or comes
from such a segment. -/
theorem buildOrderingLoop_ok (supportedFields : List String) (segments : List String) :
    ∀ (orderings result : domain.Orderings),
      rest.buildOrderingLoop supportedFields segments orderings = .ok result →
      (∀ segment ∈ segments, ∃ field direction,
        strings.Split segment ':' = [field, direction] ∧ field ∈ supportedFields ∧
          (direction = "asc" ∨ direction = "desc")) ∧
      (∀ entry ∈ result, entry ∈ orderings ∨
        (entry.1 ∈ supportedFields ∧ (entry.2 = "asc" ∨ entry.2 = "desc") ∧
          ∃ segment ∈ segments, strings.Split segment ':' = [entry.1, entry.2])) := by
  induction segments with
  | nil =>
    intro orderings result h
    simp only [rest.buildOrderingLoop, Except.ok.injEq] at h
    subst h
    exact ⟨by simp, fun entry he => Or.inl he⟩
  | cons segment segments ih =>
    intro orderings result h
    unfold rest.buildOrderingLoop at h
    split at h
    swap
    · simp at h
    rename_i field direction hsplit
    have hsup : field ∈ supportedFields ∨ ¬ field ∈ supportedFields := Classical.em _
    rcases hsup with hsup | hsup
    swap
    · have : (supportedFields.any fun supported => field == supported) = false := by
        rw [List.any_eq_false]
        intro x hx hfx
        exact hsup (by rw [beq_iff_eq.mp hfx]; exact hx)
      simp [this] at h
    have hany : (supportedFields.any fun supported => field == supported) = true :=
      List.any_eq_true.mpr ⟨field, hsup, by simp⟩
    simp only [hany, Bool.not_true, Bool.false_eq_true, ↓reduceIte] at h
    by_cases hasc : direction = "asc"
    · simp only [hasc, ↓reduceIte] at h
      obtain ⟨h1, h2⟩ := ih _ _ h
      subst hasc
      refine ⟨?_, ?_⟩
      · intro s hs
        rcases List.mem_cons.mp hs with rfl | hs
        · exact ⟨field, "asc", hsplit, hsup, Or.inl rfl⟩
        · exact h1 s hs
      · intro entry he
        rcases h2 entry he with h3 | ⟨h3, h4, s, hs, h5⟩
        · rcases mem_assign _ _ _ _ h3 with h6 | rfl
          · exact Or.inl h6
          · exact Or.inr ⟨hsup, Or.inl rfl, segment, List.mem_cons_self _ _, hsplit⟩
        · exact Or.inr ⟨h3, h4, s, List.mem_cons_of_mem _ hs, h5⟩
    simp only [hasc, ↓reduceIte] at h
    by_cases hdesc : direction = "desc"
    · simp only [hdesc, ↓reduceIte] at h
      obtain ⟨h1, h2⟩ := ih _ _ h
      subst hdesc
      refine ⟨?_, ?_⟩
      · intro s hs
        rcases List.mem_cons.mp hs with rfl | hs
        · exact ⟨field, "desc", hsplit, hsup, Or.inr rfl⟩
        · exact h1 s hs
      · intro entry he
        rcases h2 entry he with h3 | ⟨h3, h4, s, hs, h5⟩
        · rcases mem_assign _ _ _ _ h3 with h6 | rfl
          · exact Or.inl h6
          · exact Or.inr ⟨hsup, Or.inr rfl, segment, List.mem_cons_self _ _, hsplit⟩
        · exact Or.inr ⟨h3, h4, s, List.mem_cons_of_mem _ hs, h5⟩
    simp [hdesc] at h

/-- When every segment has the form `field:direction` with a supported field and the
direction `asc` or `desc`, the loop of `buildOrderingMessage` returns a map. -/
theorem buildOrderingLoop_complete (supportedFields : List String) (segments : List String) :
    ∀ (orderings : domain.Orderings),
      (∀ segment ∈ segments, ∃ field direction,
        strings.Split segment ':' = [field, direction] ∧ field ∈ supportedFields ∧
          (direction = "asc" ∨ direction = "desc")) →
      ∃ result, rest.buildOrderingLoop supportedFields segments orderings = .ok result := by
  induction segments with
  | nil => intro orderings _; exact ⟨orderings, rfl⟩
  | cons segment segments ih =>
    intro orderings h
    obtain ⟨field, direction, hsplit, hsup, hdir⟩ := h segment (List.mem_cons_self _ _)
    have hrest := fun s hs => h s (List.mem_cons_of_mem _ hs)
    have hany : (supportedFields.any fun supported => field == supported) = true :=
      List.any_eq_true.mpr ⟨field, hsup, by simp⟩
    unfold rest.buildOrderingLoop
    rw [hsplit]
    simp only [hany, Bool.not_true, Bool.false_eq_true, ↓reduceIte]
    rcases hdir with rfl | rfl
    · simp only [↓reduceIte]
      exact ih _ hrest
    · have : ¬ ("desc" = "asc") := by decide
      simp only [this, ↓reduceIte]
      exact ih _ hrest

/-- C28.  `buildOrderingMessage` returns the nil map and no error for the empty
input.  For another input it returns a map exactly when every `|`-separated
segment splits at `:` into a supported field and the direction `asc` or `desc`;
every entry of that map then has a key of the allow-list and the value `asc` or
`desc` and comes from a segment of the input, so in whatever order the entries
are visited, the terms of an ORDER BY clause built from them consist of a
supported field and `ASC` or `DESC`. -/
theorem buildOrderingMessage_allow_list (input : String) (supportedFields : List String) :
    (input = "" → rest.buildOrderingMessage input supportedFields = .ok none) ∧
    (input ≠ "" → ∀ result, rest.buildOrderingMessage input supportedFields = .ok result →
      ∃ orderings, result = some orderings ∧
        (∀ segment ∈ strings.Split input '|', ∃ field direction,
          strings.Split segment ':' = [field, direction] ∧ field ∈ supportedFields ∧
            (direction = "asc" ∨ direction = "desc")) ∧
        (∀ entry ∈ orderings,
          entry.1 ∈ supportedFields ∧ (entry.2 = "asc" ∨ entry.2 = "desc") ∧
            ∃ segment ∈ strings.Split input '|',
              strings.Split segment ':' = [entry.1, entry.2]) ∧
        (∀ visit : domain.Orderings, visit.Perm orderings → ∀ entry ∈ visit,
          entry.1 ∈ supportedFields ∧
            (strings.ToUpper entry.2 = "ASC" ∨ strings.ToUpper entry.2 = "DESC"))) ∧
    (input ≠ "" →
      (∀ segment ∈ strings.Split input '|', ∃ field direction,
        strings.Split segment ':' = [field, direction] ∧ field ∈ supportedFields ∧
          (direction = "asc" ∨ direction = "desc")) →
      ∃ orderings, rest.buildOrderingMessage input supportedFields = .ok (some orderings)) := by
  refine ⟨?_, ?_, ?_⟩
  · intro h
    simp [rest.buildOrderingMessage, h]
  · intro hne result h
    simp only [rest.buildOrderingMessage, hne, ↓reduceIte] at h
    split at h
    · simp at h
    rename_i orderings hloop
    simp only [Except.ok.injEq] at h
    obtain ⟨h1, h2⟩ := buildOrderingLoop_ok supportedFields _ _ _ hloop
    have h3 : ∀ entry ∈ orderings,
        entry.1 ∈ supportedFields ∧ (entry.2 = "asc" ∨ entry.2 = "desc") ∧
          ∃ segment ∈ strings.Split input '|',
            strings.Split segment ':' = [entry.1, entry.2] := by
      intro entry he
      rcases h2 entry he with h4 | h4
      · simp at h4
      · exact h4
    refine ⟨orderings, h.symm, h1, h3, ?_⟩
    intro visit hperm entry he
    obtain ⟨h5, h6, -⟩ := h3 entry (hperm.mem_iff.mp he)
    refine ⟨h5, ?_⟩
    rcases h6 with h6 | h6 <;> rw [h6]
    · exact Or.inl (by decide)
    · exact Or.inr (by decide)
  · intro hne h
    obtain ⟨result, hres⟩ := buildOrderingLoop_complete supportedFields _ [] h
    exact ⟨result, by simp [rest.buildOrderingMessage, hne, hres]⟩

/-- C28, witness: the filter `id:desc|date_updated:asc` with the allow-list of the
transaction handler, and a filter with a field outside the allow-list. -/
theorem buildOrderingMessage_allow_list_witness :
    rest.buildOrderingMessage "" ["id", "date_updated"] = .ok none ∧
    rest.buildOrderingMessage "id:desc|date_updated:asc" ["id", "date_updated"] =
      .ok (some [("id", "desc"), ("date_updated", "asc")]) ∧
    rest.buildOrderingMessage "amount:asc" ["id", "date_updated"] =
      .error "using unsupported ordering filter param [amount]" ∧
    rest.buildOrderingMessage "id:asc:x" ["id", "date_updated"] =
      .error "wrong ordering filter format" ∧
    ∃ orderings, rest.buildOrderingMessage "id:desc|date_updated:asc" ["id", "date_updated"] =
      .ok (some orderings) :=
  ⟨(buildOrderingMessage_allow_list "" ["id", "date_updated"]).1 rfl, by decide, by decide,
    by decide,
    (buildOrderingMessage_allow_list "id:desc|date_updated:asc" ["id", "date_updated"]).2.2
      (by decide)
      (by
        have hs : strings.Split "id:desc|date_updated:asc" '|' =
            ["id:desc", "date_updated:asc"] := by decide
        rw [hs]
        intro segment hseg
        simp only [List.mem_cons, List.mem_singleton, List.not_mem_nil, or_false] at hseg
        rcases hseg with rfl | rfl
        · exact ⟨"id", "desc", by decide, by decide, Or.inr rfl⟩
        · exact ⟨"date_updated", "asc", by decide, by decide, Or.inl rfl⟩)⟩

end Ordering

/-! ## Reading events back -/

section RoundTrip

/-- C29, evaluation at the failing input: the deposit event of the sample data is
written by `CreateEvent` into the sample store and the events of user 1 are read
back.  The row that the INSERT has written holds the user id, the type and the
metadata of the event, and no message.  When the column `message` of such a row
is NULL, `GetEventsList` returns an error; when it holds the empty text,
`GetEventsList` returns the event with the user id, the type and the metadata of
the event written, but with the empty message in place of
"deposit account successful". -/
theorem event_round_trip_loses_message :
    sampleEvent =
      { UserID := 1, Type_ := "DEPOSIT", Message := "deposit account successful",
        Metadata := [("account_id", .int 1), ("amount", .num 5)] } ∧
    (repository.Event.CreateEvent (Env.calm 7) sampleWorld sampleEvent).1 = .ok () ∧
    (repository.Event.CreateEvent (Env.calm 7) sampleWorld sampleEvent).2.events =
      [{ ID := 1, UserID := 1, Type_ := "DEPOSIT", Message := none,
         Metadata := [("account_id", .int 1), ("amount", .num 5)], DateTime := 7 }] ∧
    (repository.Event.GetEventsList (Env.calm 8)
      (repository.Event.CreateEvent (Env.calm 7) sampleWorld sampleEvent).2 1).1 =
      .error ("scanning event row error: sql: Scan error on column index 3, name " ++
        "\"message\": converting NULL to string is unsupported") ∧
    (repository.Event.GetEventsList { Env.calm 8 with messageDefault := some "" }
      (repository.Event.CreateEvent (Env.calm 7) sampleWorld sampleEvent).2 1).1 =
      .ok [{ ID := 1, UserID := 1, Type_ := "DEPOSIT", Message := "",
             Metadata := [("account_id", .int 1), ("amount", .num 5)], DateTime := 7 }] := by
  decide

end RoundTrip

/-! ## Card creation for a foreign account -/

section CardFrame
variable {α : Type}

/-- C30.  When the owner lookup succeeds with a user id that differs from the
caller, `CreateCard` leaves the card table, the event table and their id
sequences as they were, executes no statement but the owner lookup, and its
outcome does not depend on the generator or on the random source: no card
number and no CVV enters the result or the store. -/
theorem CreateCard_mismatch_frame (env : Env) (w : World α) (gen : generator.Generator)
    (accountID userID owner : Int)
    (hown : (repository.Account.GetUserIDByAccountID env w accountID).1 = .ok owner)
    (hne : owner ≠ userID) :
    (service.Card.CreateCard env w gen accountID userID).2.cards = w.cards ∧
    (service.Card.CreateCard env w gen accountID userID).2.cardsSeq = w.cardsSeq ∧
    (service.Card.CreateCard env w gen accountID userID).2.events = w.events ∧
    (service.Card.CreateCard env w gen accountID userID).2.eventSeq = w.eventSeq ∧
    executed w (service.Card.CreateCard env w gen accountID userID).2 =
      [(.GetUserIDByAccountID, true)] ∧
    (∀ (gen2 : generator.Generator) (rand2 : Nat → Nat),
      service.Card.CreateCard { env with rand := rand2 } w gen2 accountID userID =
        service.Card.CreateCard env w gen accountID userID) := by
  have h := CreateCard_mismatch env w gen accountID userID owner hown hne
  refine ⟨by rw [h]; rfl, by rw [h]; rfl, by rw [h]; rfl, by rw [h]; rfl, ?_, ?_⟩
  · rw [h]
    simp [executed]
  · intro gen2 rand2
    rw [h]
    exact CreateCard_mismatch { env with rand := rand2 } w gen2 accountID userID owner hown hne

/-- C30, witness: account 1 of the sample store belongs to user 1 and the caller is
user 2. -/
theorem CreateCard_mismatch_frame_witness :
    (service.Card.CreateCard (Env.calm 7) sampleWorld sampleGenerator 1 2).2.cards =
      sampleWorld.cards ∧
    (service.Card.CreateCard (Env.calm 7) sampleWorld sampleGenerator 1 2).2.events =
      sampleWorld.events ∧
    executed sampleWorld (service.Card.CreateCard (Env.calm 7) sampleWorld sampleGenerator 1 2).2 =
      [(.GetUserIDByAccountID, true)] :=
  have h := CreateCard_mismatch_frame (Env.calm 7) sampleWorld sampleGenerator 1 2 1
    (by decide) (by decide)
  ⟨h.1, h.2.2.1, h.2.2.2.2.1⟩

end CardFrame

/-! ## Library calls and panics -/

section Library

/-- The calendar arithmetic of `AddDate`: three years after 1 January 1970 is
1 January 1973, 1096 days later, since 1972 is a leap year; three years after
29 February 2024, 01:01:01, is 1 March 2027 at the same clock time. -/
theorem AddDate_counts_leap_days :
    repository.AddDate 0 3 0 0 = 1096 * 86400 ∧
    repository.civilFromDays 19782 = (2024, 2, 29) ∧
    repository.AddDate (19782 * 86400 + 3661) 3 0 0 = 20878 * 86400 + 3661 ∧
    repository.civilFromDays 20878 = (2027, 3, 1) := by
  decide

/-- A panic of the repository unwinds through the service: with a negative page
size the transaction service hands on the panic of `make` as it is, and an
ordinary error of the lookup before is wrapped. -/
theorem service_GetTransactionList_unwinds :
    (service.Transaction.GetTransactionList (Env.calm 7) sampleLedger 1 1 none
      { Page := 1, PerPage := -1 }).1 = .error makeslicePanic ∧
    (service.Transaction.GetTransactionList (Env.failing [.GetTransactionList] 7) sampleLedger
      1 1 none { Page := 1, PerPage := 10 }).1 = .error nilRowsPanic ∧
    (service.Transaction.GetTransactionList (Env.failing [.GetUserIDByAccountID] 7) sampleLedger
      1 1 none { Page := 1, PerPage := 10 }).1 =
      .error (errors.Wrap (errors.Wrap driverErr
        "execution getting userID by accountID query error")
        "getting userID by accountID error") := by
  decide

end Library

end Banking
